import Mathlib

/-! Glade palette and inspector: a verification development.

Shallow embedding of `gladeui/glade-palette.c` and `gladeui/glade-inspector.c`.

Toolkit objects are heap objects in the C code.  Here a palette item is named by
its address (`ItemRef`), and the state of every item object is kept in a map from
addresses to item records.  The application-global pointer mode and the log of
emitted signals are part of the same state record, so that a call which "changes
nothing" is a call that returns the very same record.

The handlers of the toggle buttons call each other through
`gtk_toggle_button_set_active`, and `fill_model` follows the child accessor of
the adaptors; both recursions are modelled with a fuel argument and every
statement about a result is proved for all sufficient fuel.
-/

namespace Glade

/-! ## Data model of the palette -/

/-- Display mode of palette items (`GladeItemAppearance`). -/
inductive GladeItemAppearance where
  | GLADE_ITEM_ICON_AND_LABEL
  | GLADE_ITEM_ICON_ONLY
  | GLADE_ITEM_LABEL_ONLY
  deriving DecidableEq, Repr, Inhabited

/-- Pointer mode of the application (`GladePointerMode`). -/
inductive GladePointerMode where
  | GLADE_POINTER_SELECT
  | GLADE_POINTER_ADD_WIDGET
  deriving DecidableEq, Repr

/-- Descriptor of a widget class: its name, the title shown in the user interface
and what `GWA_IS_TOPLEVEL` reads. -/
structure GladeWidgetAdaptor where
  name : String
  title : String
  toplevel : Bool
  deriving DecidableEq, Repr, Inhabited

/-- Widget group of a catalog (`GladeWidgetGroup`). -/
structure GladeWidgetGroup where
  name : String
  title : String
  expanded : Bool
  adaptors : List GladeWidgetAdaptor
  deriving DecidableEq, Repr

/-- Widget catalog (`GladeCatalog`). -/
structure GladeCatalog where
  name : String
  widget_groups : List GladeWidgetGroup
  deriving DecidableEq, Repr

/-- Address of a `GladePaletteItem` object. -/
abbrev ItemRef := Nat

/-- State of one palette item object: the item's own fields together with the
toggle-button and widget state the palette reads and writes. -/
structure GladePaletteItem where
  adaptor : GladeWidgetAdaptor
  appearance : GladeItemAppearance
  use_small_icon : Bool
  active : Bool
  has_tooltip : Bool
  tooltip_text : Option String
  toggled_connected : Bool
  deriving DecidableEq, Repr, Inhabited

/-- An expander section of the tray together with the items of its box. -/
structure GladePaletteExpander where
  label : String
  spacing : Nat
  use_markup : Bool
  border_width : Nat
  expanded : Bool
  children : List ItemRef
  deriving DecidableEq, Repr

/-- Signals and property notifications emitted on the palette object. -/
inductive PaletteSignal where
  | toggled
  | notify (property : String)
  deriving DecidableEq, Repr

/-- What the `palette` argument of an entry point points to. -/
inductive PaletteArg where
  | null
  | other_instance
  | palette_instance
  deriving DecidableEq, Repr

/-- The type check `GLADE_IS_PALETTE`. -/
def GLADE_IS_PALETTE : PaletteArg → Bool
  | .palette_instance => true
  | _ => false

/-- The palette instance (`GladePalettePrivate`), the item objects it created,
the application pointer mode and the signals emitted so far.  The last two
fields are the display state that glade-palette-item.c gives a freshly
allocated item; no function of the palette writes them. -/
structure GladePalette where
  catalogs : List GladeCatalog
  selector_hbox_visible : Bool
  selector_button_visible : Bool
  selector_button_active : Bool
  current_item : Option ItemRef
  sections : List GladePaletteExpander
  item_appearance : GladeItemAppearance
  use_small_item_icons : Bool
  sticky_selection_mode : Bool
  items : ItemRef → GladePaletteItem
  next_item : ItemRef
  size_group : List ItemRef
  pointer_mode : GladePointerMode
  emitted : List PaletteSignal
  new_item_appearance : GladeItemAppearance
  new_item_use_small_icon : Bool

/-- The modifier bit `GDK_CONTROL_MASK` (`1 << 2`). -/
def GDK_CONTROL_MASK : Nat := 4

/-- Write the `active` field of one toggle button. -/
def set_item_active (s : GladePalette) (button : ItemRef) (v : Bool) : GladePalette :=
  { s with items := fun r => if r = button then { s.items r with active := v } else s.items r }

/-- The accessor `glade_palette_get_current_item`. -/
def glade_palette_get_current_item (palette : PaletteArg) (s : GladePalette) :
    Option GladeWidgetAdaptor :=
  if !GLADE_IS_PALETTE palette then none
  else
    match s.current_item with
    | some item => some (s.items item).adaptor
    | none => none

mutual

/-- The call `gtk_toggle_button_set_active` on an item button: when the state
changes, the handler connected to the button's `toggled` signal by
`glade_palette_new_item` runs synchronously. -/
def gtk_toggle_button_set_active_item (fuel : Nat) (mask : Nat) (button : ItemRef)
    (is_active : Bool) (s : GladePalette) : Option GladePalette :=
  match fuel with
  | 0 => none
  | fuel + 1 =>
    if (s.items button).active = is_active then some s
    else if (s.items button).toggled_connected then
      glade_palette_on_button_toggled fuel mask button .palette_instance
        (set_item_active s button is_active)
    else some (set_item_active s button is_active)
termination_by structural fuel

/-- The call `gtk_toggle_button_set_active` on the selector button, to whose
`toggled` signal `glade_palette_create_selector_button` connects
`selector_button_toggled_cb`. -/
def gtk_toggle_button_set_active_selector (fuel : Nat) (mask : Nat)
    (is_active : Bool) (s : GladePalette) : Option GladePalette :=
  match fuel with
  | 0 => none
  | fuel + 1 =>
    if s.selector_button_active = is_active then some s
    else selector_button_toggled_cb fuel mask .palette_instance
      { s with selector_button_active := is_active }
termination_by structural fuel

/-- The handler `selector_button_toggled_cb`. -/
def selector_button_toggled_cb (fuel : Nat) (mask : Nat) (palette : PaletteArg)
    (s : GladePalette) : Option GladePalette :=
  match fuel with
  | 0 => none
  | fuel + 1 =>
    if s.selector_button_active then
      glade_palette_deselect_current_item fuel mask palette false s
    else if glade_palette_get_current_item palette s = none then
      gtk_toggle_button_set_active_selector fuel mask true s
    else some s
termination_by structural fuel

/-- The handler `glade_palette_on_button_toggled`.  (The second guard,
`GTK_IS_TOGGLE_BUTTON (button)`, holds for every item button.) -/
def glade_palette_on_button_toggled (fuel : Nat) (mask : Nat) (button : ItemRef)
    (palette : PaletteArg) (s : GladePalette) : Option GladePalette :=
  match fuel with
  | 0 => none
  | fuel + 1 =>
    if !GLADE_IS_PALETTE palette then some s
    else if s.current_item = some button then
      (gtk_toggle_button_set_active_selector fuel mask true
        { s with current_item := none,
                 emitted := s.emitted ++ [PaletteSignal.notify "current-item"],
                 pointer_mode := .GLADE_POINTER_SELECT }).bind fun (s2 : GladePalette) =>
      some { s2 with sticky_selection_mode := false,
                     emitted := s2.emitted ++ [PaletteSignal.toggled] }
    else if !(s.items button).active then some s
    else
      (match s.current_item with
        | some cur =>
          if cur ≠ button then gtk_toggle_button_set_active_item fuel mask cur false s
          else some s
        | none => some s).bind fun (s1 : GladePalette) =>
      (gtk_toggle_button_set_active_selector fuel mask false
        { s1 with current_item := some button,
                  emitted := s1.emitted ++ [PaletteSignal.notify "current-item"],
                  pointer_mode := .GLADE_POINTER_ADD_WIDGET }).bind fun (s3 : GladePalette) =>
      some { s3 with
        sticky_selection_mode :=
          (!(s3.items button).adaptor.toplevel) && (mask &&& GDK_CONTROL_MASK != 0),
        emitted := s3.emitted ++ [PaletteSignal.toggled] }
termination_by structural fuel

/-- The entry point `glade_palette_deselect_current_item`. -/
def glade_palette_deselect_current_item (fuel : Nat) (mask : Nat) (palette : PaletteArg)
    (sticky_aware : Bool) (s : GladePalette) : Option GladePalette :=
  match fuel with
  | 0 => none
  | fuel + 1 =>
    if !GLADE_IS_PALETTE palette then some s
    else if sticky_aware && s.sticky_selection_mode then some s
    else
      match s.current_item with
      | none => some s
      | some cur =>
        (gtk_toggle_button_set_active_item fuel mask cur false s).bind fun (s1 : GladePalette) =>
        (gtk_toggle_button_set_active_selector fuel mask true s1).bind fun (s2 : GladePalette) =>
        some { s2 with current_item := none,
                       emitted := s2.emitted ++
                         [PaletteSignal.notify "current-item", PaletteSignal.toggled],
                       pointer_mode := .GLADE_POINTER_SELECT }
termination_by structural fuel

end

/-! ## Construction and appearance of the palette -/

/-- All item buttons of the palette: the children of the boxes of its sections. -/
def palette_items (s : GladePalette) : List ItemRef :=
  s.sections.flatMap (fun e => e.children)

/-- Apply a function to the record of one item object. -/
def modify_item (s : GladePalette) (item : ItemRef)
    (f : GladePaletteItem → GladePaletteItem) : GladePalette :=
  { s with items := fun r => if r = item then f (s.items r) else s.items r }

/-- Modelled from the spec: `glade_palette_item_new` of glade-palette-item.c, which
is not under src/.  The spec has "one UI button per adaptor": the call allocates a
fresh, inactive toggle button for the adaptor. -/
def glade_palette_item_new (adaptor : GladeWidgetAdaptor) (s : GladePalette) :
    GladePalette × ItemRef :=
  let item := s.next_item
  ({ s with
      next_item := item + 1,
      items := fun r =>
        if r = item then
          { adaptor := adaptor, appearance := s.new_item_appearance,
            use_small_icon := s.new_item_use_small_icon, active := false,
            has_tooltip := false, tooltip_text := none, toggled_connected := false }
        else s.items r },
   item)

/-- Modelled from the spec: `glade_palette_item_set_appearance` of
glade-palette-item.c, which is not under src/.  An item "tracks an appearance
display mode": the call stores the mode in the item. -/
def glade_palette_item_set_appearance (item : ItemRef) (appearance : GladeItemAppearance)
    (s : GladePalette) : GladePalette :=
  modify_item s item (fun it => { it with appearance := appearance })

/-- Modelled from the spec: `glade_palette_item_set_use_small_icon` of
glade-palette-item.c, which is not under src/.  The call stores the small-icon
flag in the item. -/
def glade_palette_item_set_use_small_icon (item : ItemRef) (use_small_icon : Bool)
    (s : GladePalette) : GladePalette :=
  modify_item s item (fun it => { it with use_small_icon := use_small_icon })

/-- The toolkit call `gtk_widget_set_tooltip_text` with a non-NULL text: it stores
the text and sets `has-tooltip`. -/
def gtk_widget_set_tooltip_text (item : ItemRef) (text : String) (s : GladePalette) :
    GladePalette :=
  modify_item s item (fun it => { it with tooltip_text := some text, has_tooltip := true })

/-- The toolkit call `g_object_set (item, "has-tooltip", v, NULL)`. -/
def g_object_set_has_tooltip (item : ItemRef) (v : Bool) (s : GladePalette) : GladePalette :=
  modify_item s item (fun it => { it with has_tooltip := v })

/-- The function `glade_palette_new_item`.  (The second guard,
`GLADE_IS_WIDGET_ADAPTOR (adaptor)`, holds for every adaptor of a group.) -/
def glade_palette_new_item (palette : PaletteArg) (adaptor : GladeWidgetAdaptor)
    (s : GladePalette) : GladePalette × Option ItemRef :=
  if !GLADE_IS_PALETTE palette then (s, none)
  else
    let (s1, item) := glade_palette_item_new adaptor s
    let s2 := glade_palette_item_set_appearance item s1.item_appearance s1
    let s3 := gtk_widget_set_tooltip_text item adaptor.title s2
    let s4 := modify_item s3 item (fun it => { it with toggled_connected := true })
    (s4, some item)

/-- The loop of `glade_palette_new_item_group` over the adaptors of the group:
each new item is added to the size group and to the box. -/
def glade_palette_new_item_group_loop (palette : PaletteArg) :
    List GladeWidgetAdaptor → GladePalette → List ItemRef → GladePalette × List ItemRef
  | [], s, box => (s, box)
  | adaptor :: l, s, box =>
    match glade_palette_new_item palette adaptor s with
    | (t, some item) =>
      glade_palette_new_item_group_loop palette l
        { t with size_group := t.size_group ++ [item] } (box ++ [item])
    | (t, none) => glade_palette_new_item_group_loop palette l t box

/-- The function `glade_palette_new_item_group`: one item per adaptor of the group,
in the order of the adaptor list, and the box put in an expander.  (The second
guard, `group != NULL`, holds for every group of a catalog.) -/
def glade_palette_new_item_group (palette : PaletteArg) (group : GladeWidgetGroup)
    (s : GladePalette) : GladePalette × Option GladePaletteExpander :=
  if !GLADE_IS_PALETTE palette then (s, none)
  else
    let (s1, box) := glade_palette_new_item_group_loop palette group.adaptors s []
    (s1, some { label := group.title, spacing := 2, use_markup := true, border_width := 0,
                expanded := group.expanded, children := box })

/-- The function `glade_palette_append_item_group`. -/
def glade_palette_append_item_group (palette : PaletteArg) (group : GladeWidgetGroup)
    (s : GladePalette) : GladePalette :=
  if !GLADE_IS_PALETTE palette then s
  else
    match glade_palette_new_item_group palette group s with
    | (s1, some expander) => { s1 with sections := s1.sections ++ [expander] }
    | (s1, none) => s1

/-- The function `glade_palette_set_catalogs`. -/
def glade_palette_set_catalogs (palette : PaletteArg) (catalogs : List GladeCatalog)
    (s : GladePalette) : GladePalette :=
  if !GLADE_IS_PALETTE palette then s
  else
    catalogs.foldl
      (fun acc catalog =>
        catalog.widget_groups.foldl
          (fun acc group =>
            if group.adaptors ≠ [] then glade_palette_append_item_group palette group acc
            else acc)
          acc)
      { s with catalogs := catalogs }

/-- The function `glade_palette_update_appearance`: one pass over the items of
every section.  (Re-adding the tray to its viewport only affects layout.) -/
def glade_palette_update_appearance (s : GladePalette) : GladePalette :=
  let show_tooltips : Bool := s.item_appearance == .GLADE_ITEM_ICON_ONLY
  s.sections.foldl
    (fun acc sec =>
      sec.children.foldl
        (fun acc i =>
          g_object_set_has_tooltip i show_tooltips
            (glade_palette_item_set_use_small_icon i acc.use_small_item_icons
              (glade_palette_item_set_appearance i acc.item_appearance acc)))
        acc)
    s

/-- The setter `glade_palette_set_item_appearance`. -/
def glade_palette_set_item_appearance (palette : PaletteArg)
    (item_appearance : GladeItemAppearance) (s : GladePalette) : GladePalette :=
  if !GLADE_IS_PALETTE palette then s
  else if s.item_appearance ≠ item_appearance then
    let s1 := glade_palette_update_appearance { s with item_appearance := item_appearance }
    { s1 with emitted := s1.emitted ++ [PaletteSignal.notify "item-appearance"] }
  else s

/-- The setter `glade_palette_set_use_small_item_icons`. -/
def glade_palette_set_use_small_item_icons (palette : PaletteArg)
    (use_small_item_icons : Bool) (s : GladePalette) : GladePalette :=
  if !GLADE_IS_PALETTE palette then s
  else if s.use_small_item_icons ≠ use_small_item_icons then
    let s1 := glade_palette_update_appearance
      { s with use_small_item_icons := use_small_item_icons }
    { s1 with emitted := s1.emitted ++ [PaletteSignal.notify "use-small-item-icons"] }
  else s

/-- The setter `glade_palette_set_show_selector_button`. -/
def glade_palette_set_show_selector_button (palette : PaletteArg)
    (show_selector_button : Bool) (s : GladePalette) : GladePalette :=
  if !GLADE_IS_PALETTE palette then s
  else if s.selector_hbox_visible ≠ show_selector_button then
    { s with selector_hbox_visible := show_selector_button,
             emitted := s.emitted ++ [PaletteSignal.notify "show-selector-button"] }
  else s

/-- The getter `glade_palette_get_item_appearance`. -/
def glade_palette_get_item_appearance (palette : PaletteArg) (s : GladePalette) :
    GladeItemAppearance :=
  if !GLADE_IS_PALETTE palette then .GLADE_ITEM_ICON_ONLY else s.item_appearance

/-- The getter `glade_palette_get_use_small_item_icons`. -/
def glade_palette_get_use_small_item_icons (palette : PaletteArg) (s : GladePalette) : Bool :=
  if !GLADE_IS_PALETTE palette then false else s.use_small_item_icons

/-- The getter `glade_palette_get_show_selector_button`. -/
def glade_palette_get_show_selector_button (palette : PaletteArg) (s : GladePalette) : Bool :=
  if !GLADE_IS_PALETTE palette then false else s.selector_hbox_visible

/-- The instance initialiser `glade_palette_init`, run on the memory of a new
instance: it writes the private fields and creates the selector button, which is
made active before its handler is connected. -/
def glade_palette_init (mem : GladePalette) : GladePalette :=
  { mem with
    catalogs := [],
    current_item := none,
    sections := [],
    item_appearance := .GLADE_ITEM_ICON_ONLY,
    use_small_item_icons := false,
    sticky_selection_mode := false,
    selector_button_active := true,
    selector_button_visible := true,
    selector_hbox_visible := true,
    size_group := [] }

/-! ## Properties of the palette class -/

/-- Property ids of the palette class (the anonymous `enum` with `PROP_0`). -/
inductive PaletteProp where
  | PROP_0
  | PROP_CURRENT_ITEM
  | PROP_ITEM_APPEARANCE
  | PROP_USE_SMALL_ITEM_ICONS
  | PROP_SHOW_SELECTOR_BUTTON
  | PROP_CATALOGS
  deriving DecidableEq, Repr

/-- The values a `GValue` carries for the properties of the palette. -/
inductive GValue where
  | boolean (b : Bool)
  | enum (e : GladeItemAppearance)
  | catalogs (l : List GladeCatalog)
  | adaptor (a : Option GladeWidgetAdaptor)
  deriving DecidableEq, Repr

/-- The call `g_value_get_boolean`: `FALSE` for a value of another type. -/
def g_value_get_boolean : GValue → Bool
  | .boolean b => b
  | _ => false

/-- The call `g_value_get_enum`: 0, the first enumerator, for a value of another type. -/
def g_value_get_enum : GValue → GladeItemAppearance
  | .enum e => e
  | _ => .GLADE_ITEM_ICON_AND_LABEL

/-- The call `g_value_get_pointer` read as a catalog list: `NULL`, the empty list,
for a value of another type. -/
def g_value_get_pointer : GValue → List GladeCatalog
  | .catalogs l => l
  | _ => []

/-- A property as `g_object_class_install_property` records it: the name of the
parameter specification and the id it is installed under. -/
structure GParamSpec where
  name : String
  param_id : PaletteProp
  readable : Bool
  writable : Bool
  construct_only : Bool
  deriving DecidableEq, Repr

/-- The properties installed by `glade_palette_class_init`, in the order of the
calls, each with the id passed to `g_object_class_install_property`. -/
def glade_palette_class_init : List GParamSpec :=
  [ { name := "item-appearance", param_id := .PROP_ITEM_APPEARANCE,
      readable := true, writable := true, construct_only := false },
    { name := "use-small-item-icons", param_id := .PROP_ITEM_APPEARANCE,
      readable := true, writable := true, construct_only := false },
    { name := "show-selector-button", param_id := .PROP_ITEM_APPEARANCE,
      readable := true, writable := true, construct_only := false },
    { name := "current-item", param_id := .PROP_CURRENT_ITEM,
      readable := true, writable := false, construct_only := false },
    { name := "catalogs", param_id := .PROP_CATALOGS,
      readable := true, writable := true, construct_only := true } ]

/-- The method `glade_palette_set_property`. -/
def glade_palette_set_property (prop_id : PaletteProp) (value : GValue) (s : GladePalette) :
    GladePalette :=
  match prop_id with
  | .PROP_USE_SMALL_ITEM_ICONS =>
    glade_palette_set_use_small_item_icons .palette_instance (g_value_get_boolean value) s
  | .PROP_ITEM_APPEARANCE =>
    glade_palette_set_item_appearance .palette_instance (g_value_get_enum value) s
  | .PROP_SHOW_SELECTOR_BUTTON =>
    glade_palette_set_show_selector_button .palette_instance (g_value_get_boolean value) s
  | .PROP_CATALOGS =>
    glade_palette_set_catalogs .palette_instance (g_value_get_pointer value) s
  | _ => s

/-- The method `glade_palette_get_property`; `none` is the warning for an id
without a case. -/
def glade_palette_get_property (prop_id : PaletteProp) (s : GladePalette) : Option GValue :=
  match prop_id with
  | .PROP_CURRENT_ITEM =>
    some (.adaptor (match s.current_item with
                    | some item => some (s.items item).adaptor
                    | none => none))
  | .PROP_USE_SMALL_ITEM_ICONS => some (.boolean s.use_small_item_icons)
  | .PROP_SHOW_SELECTOR_BUTTON => some (.boolean s.selector_button_visible)
  | .PROP_ITEM_APPEARANCE => some (.enum s.item_appearance)
  | .PROP_CATALOGS => some (.catalogs s.catalogs)
  | _ => none

/-- Setting a property by name: the object system finds the installed
specification of that name and calls `set_property` with its id. -/
def g_object_set_property (name : String) (value : GValue) (s : GladePalette) : GladePalette :=
  match glade_palette_class_init.find? (fun p => p.name == name) with
  | some pspec =>
    if pspec.writable then glade_palette_set_property pspec.param_id value s else s
  | none => s

/-- Reading a property by name. -/
def g_object_get_property (name : String) (s : GladePalette) : Option GValue :=
  match glade_palette_class_init.find? (fun p => p.name == name) with
  | some pspec =>
    if pspec.readable then glade_palette_get_property pspec.param_id s else none
  | none => none

/-- The constructor `glade_palette_new`, run on the memory of the new instance.
`g_object_new` initialises the instance and sets the construct-only property
"catalogs" during construction, then "item-appearance"; "spacing" is a property
of the parent box. -/
def glade_palette_new (catalogs : List GladeCatalog) (mem : GladePalette) :
    Option GladePalette :=
  if catalogs = [] then none
  else
    some (g_object_set_property "item-appearance" (.enum .GLADE_ITEM_ICON_ONLY)
      (g_object_set_property "catalogs" (.catalogs catalogs) (glade_palette_init mem)))

/-! ## User events and reachable states of the palette -/

/-- A click of the user on an item button: the button changes state and its
`toggled` handler runs.  `mask` is the modifier state the pointer has then. -/
def user_toggle_item (fuel : Nat) (mask : Nat) (button : ItemRef) (s : GladePalette) :
    Option GladePalette :=
  gtk_toggle_button_set_active_item fuel mask button (!(s.items button).active) s

/-- A click of the user on the selector button. -/
def user_toggle_selector (fuel : Nat) (mask : Nat) (s : GladePalette) : Option GladePalette :=
  gtk_toggle_button_set_active_selector fuel mask (!s.selector_button_active) s

/-- States of a palette built from a catalog list and then driven by clicks on
its item buttons, clicks on the selector and calls of
`glade_palette_deselect_current_item`. -/
inductive PaletteReachable : GladePalette → Prop where
  | init (mem : GladePalette) (catalogs : List GladeCatalog) :
      PaletteReachable
        (glade_palette_set_catalogs .palette_instance catalogs (glade_palette_init mem))
  | toggle_item {s t : GladePalette} (fuel mask : Nat) (button : ItemRef) :
      PaletteReachable s → button ∈ palette_items s →
      user_toggle_item fuel mask button s = some t → PaletteReachable t
  | toggle_selector {s t : GladePalette} (fuel mask : Nat) :
      PaletteReachable s → user_toggle_selector fuel mask s = some t → PaletteReachable t
  | deselect {s t : GladePalette} (fuel mask : Nat) (sticky_aware : Bool) :
      PaletteReachable s →
      glade_palette_deselect_current_item fuel mask .palette_instance sticky_aware s = some t →
      PaletteReachable t

/-- The exclusivity invariant of the palette: an item button of the palette is
active exactly when it is the current item, the current item is an item of the
palette, the selector button is active exactly when no item is current, and the
handler of the palette is connected to every item button. -/
def PaletteInv (s : GladePalette) : Prop :=
  (∀ i ∈ palette_items s, (s.items i).active = true ↔ s.current_item = some i) ∧
  (∀ i, s.current_item = some i → i ∈ palette_items s) ∧
  (s.selector_button_active = true ↔ s.current_item = none) ∧
  (∀ i ∈ palette_items s, (s.items i).toggled_connected = true)

/-- State after the item `button` has been made current from the state `s`: the
button is active, the formerly current item (if any) is not. -/
def item_selected (s : GladePalette) (mask : Nat) (button : ItemRef)
    (log : List PaletteSignal) : GladePalette :=
  { s with
    items := fun r =>
      if r = button then { s.items r with active := true }
      else if s.current_item = some r then { s.items r with active := false }
      else s.items r,
    current_item := some button,
    selector_button_active := false,
    pointer_mode := .GLADE_POINTER_ADD_WIDGET,
    sticky_selection_mode :=
      (!(s.items button).adaptor.toplevel) && (mask &&& GDK_CONTROL_MASK != 0),
    emitted := s.emitted ++ log }

/-- State after the current item of `s` has been deselected. -/
def item_deselected (s : GladePalette) (log : List PaletteSignal) : GladePalette :=
  { s with
    items := fun r =>
      if s.current_item = some r then { s.items r with active := false } else s.items r,
    current_item := none,
    selector_button_active := true,
    pointer_mode := .GLADE_POINTER_SELECT,
    sticky_selection_mode := false,
    emitted := s.emitted ++ log }

/-- The item record `glade_palette_new_item` leaves in a new item. -/
def fresh_item (s : GladePalette) (adaptor : GladeWidgetAdaptor) : GladePaletteItem :=
  { adaptor := adaptor, appearance := s.item_appearance,
    use_small_icon := s.new_item_use_small_icon, active := false,
    has_tooltip := true, tooltip_text := some adaptor.title, toggled_connected := true }

/-- The fields of a palette state other than the item objects, the allocation
pointer, the size group and the sections. -/
def palette_core (s : GladePalette) : GladePalette :=
  { s with items := fun _ => default, next_item := 0, size_group := [], sections := [] }

/-- The widget groups for which `glade_palette_set_catalogs` creates a section:
the groups of the catalogs, in order, that have at least one adaptor. -/
def palette_groups (catalogs : List GladeCatalog) : List GladeWidgetGroup :=
  (catalogs.flatMap (fun c => c.widget_groups)).filter (fun g => decide (g.adaptors ≠ []))

/-- What a section shows: its title, its expanded flag and the adaptors of its
items, in the order of the box. -/
def section_view (s : GladePalette) (e : GladePaletteExpander) :
    String × Bool × List GladeWidgetAdaptor :=
  (e.label, e.expanded, e.children.map (fun i => (s.items i).adaptor))

/-- State of a palette right after its items were created: every item of a
section is allocated, inactive, shows its tooltip and has the appearance of the
palette; no item is current and the selector is active. -/
def PaletteFresh (t : GladePalette) : Prop :=
  (∀ i ∈ palette_items t, i < t.next_item ∧ (t.items i).active = false ∧
    (t.items i).has_tooltip = true ∧ (t.items i).appearance = t.item_appearance ∧
    (t.items i).toggled_connected = true) ∧
  t.current_item = none ∧ t.selector_button_active = true ∧
  t.item_appearance = .GLADE_ITEM_ICON_ONLY ∧ t.use_small_item_icons = false

/-- The sections of `t` show the groups `gs`, every item of a section is
allocated, and no item occurs twice. -/
def SectionsShow (gs : List GladeWidgetGroup) (t : GladePalette) : Prop :=
  t.sections.map (section_view t) = gs.map (fun g => (g.title, g.expanded, g.adaptors)) ∧
  (∀ i ∈ palette_items t, i < t.next_item) ∧
  (palette_items t).Nodup

/-- The display state one pass of `glade_palette_update_appearance` gives an item. -/
def restyle (appearance : GladeItemAppearance) (small : Bool) (show_tooltips : Bool)
    (it : GladePaletteItem) : GladePaletteItem :=
  { it with appearance := appearance, use_small_icon := small, has_tooltip := show_tooltips }

/-- A call of one of the two appearance setters,
`glade_palette_set_item_appearance` and `glade_palette_set_use_small_item_icons`,
with its argument. -/
inductive AppearanceOp where
  | set_item_appearance (item_appearance : GladeItemAppearance)
  | set_use_small_item_icons (use_small_item_icons : Bool)
  deriving DecidableEq, Repr

/-- One setter call on the palette. -/
def appearance_step (s : GladePalette) : AppearanceOp → GladePalette
  | .set_item_appearance a => glade_palette_set_item_appearance .palette_instance a s
  | .set_use_small_item_icons b => glade_palette_set_use_small_item_icons .palette_instance b s

/-- A sequence of setter calls on the palette, in order. -/
def appearance_run (ops : List AppearanceOp) (s : GladePalette) : GladePalette :=
  ops.foldl appearance_step s

/-- The appearance last set by a sequence of setter calls, `init` when none set
it. -/
def last_item_appearance (init : GladeItemAppearance) (ops : List AppearanceOp) :
    GladeItemAppearance :=
  ops.foldl (fun acc op => match op with
    | .set_item_appearance a => a
    | _ => acc) init

/-- The small-icon flag last set by a sequence of setter calls, `init` when none
set it. -/
def last_use_small_item_icons (init : Bool) (ops : List AppearanceOp) : Bool :=
  ops.foldl (fun acc op => match op with
    | .set_use_small_item_icons b => b
    | _ => acc) init

/-- Every item of the palette has the small-icon flag of the palette. -/
def SmallIconOk (s : GladePalette) : Prop :=
  ∀ i ∈ palette_items s, (s.items i).use_small_icon = s.use_small_item_icons

/-- Every item of the palette shows its tooltip exactly when the appearance of the
palette is icon-only. -/
def TooltipOk (s : GladePalette) : Prop :=
  ∀ i ∈ palette_items s,
    ((s.items i).has_tooltip = true ↔ s.item_appearance = .GLADE_ITEM_ICON_ONLY)

/-! ## A concrete palette -/

/-- The adaptor of the class Box. -/
def box_adaptor : GladeWidgetAdaptor := { name := "GtkBox", title := "Box", toplevel := false }

/-- The adaptor of the class Frame. -/
def frame_adaptor : GladeWidgetAdaptor :=
  { name := "GtkFrame", title := "Frame", toplevel := false }

/-- The adaptor of the class Window, a toplevel class. -/
def window_adaptor : GladeWidgetAdaptor :=
  { name := "GtkWindow", title := "Window", toplevel := true }

/-- A catalog with the single group "Containers" holding Box and Frame. -/
def containers_catalog : GladeCatalog :=
  { name := "gtk+",
    widget_groups := [{ name := "containers", title := "Containers", expanded := true,
                        adaptors := [box_adaptor, frame_adaptor] }] }

/-- Memory of a new palette instance before `glade_palette_init` ran, in an
application whose pointer mode is "select" and in which no item object exists. -/
def blank_palette : GladePalette :=
  { catalogs := [], selector_hbox_visible := false, selector_button_visible := false,
    selector_button_active := false, current_item := none, sections := [],
    item_appearance := .GLADE_ITEM_ICON_AND_LABEL, use_small_item_icons := false,
    sticky_selection_mode := false, items := fun _ => default, next_item := 0,
    size_group := [], pointer_mode := .GLADE_POINTER_SELECT, emitted := [],
    new_item_appearance := .GLADE_ITEM_ICON_AND_LABEL, new_item_use_small_icon := false }

/-- The palette built from the catalog with the group "Containers": item 0 is
Box and item 1 is Frame. -/
def containers_palette : GladePalette :=
  glade_palette_set_catalogs .palette_instance [containers_catalog]
    (glade_palette_init blank_palette)

/-- The palette of "Containers" after a click on Box with no modifier held. -/
def box_selected_palette : GladePalette :=
  item_selected containers_palette 0 0 [.notify "current-item", .toggled]

/-- The palette of "Containers" after a click on Box with Control held. -/
def box_sticky_palette : GladePalette :=
  item_selected containers_palette GDK_CONTROL_MASK 0 [.notify "current-item", .toggled]

/-- A catalog whose second group, "Deprecated", has no adaptor. -/
def deprecated_catalog : GladeCatalog :=
  { name := "gtk+",
    widget_groups := [{ name := "containers", title := "Containers", expanded := true,
                        adaptors := [box_adaptor, frame_adaptor] },
                      { name := "deprecated", title := "Deprecated", expanded := false,
                        adaptors := [] }] }

/-! ## Data model of the inspector -/

/-- Address of a `GObject` of a project. -/
abbrev GObject := Nat

/-- Address of a `GladeWidget`. -/
abbrev WidgetRef := Nat

/-- Address of a `GladeProject`. -/
abbrev ProjectRef := Nat

/-- The project, widget and adaptor abstractions the inspector consumes; none of
them is under src/.  Each field is the function of that name:
`glade_widget_adaptor_get_children` is applied to `widget->adaptor` and
`widget->object`, so it is a function of the widget; `glade_widget_get_parent`
also stands for the field `widget->parent`, and `glade_widget_get_name` for
`widget->name`. -/
structure GladeCore where
  glade_widget_get_from_gobject : GObject → Option WidgetRef
  glade_widget_get_object : WidgetRef → GObject
  glade_widget_get_parent : WidgetRef → Option WidgetRef
  glade_widget_get_name : WidgetRef → Option String
  glade_widget_adaptor_get_children : WidgetRef → List GObject
  glade_project_get_objects : ProjectRef → List GObject
  glade_project_selection_get : ProjectRef → List GObject

/-- A row of the tree store: the value of `WIDGET_COLUMN` (`NULL` until it is
set) and the child rows, in order. -/
inductive Row where
  | mk (widget : Option WidgetRef) (children : List Row)
  deriving Repr

/-- The value of `WIDGET_COLUMN` in a row. -/
def Row.widget : Row → Option WidgetRef
  | .mk w _ => w

/-- The child rows of a row. -/
def Row.children : Row → List Row
  | .mk _ cs => cs

mutual

/-- Decision procedure for the equality of two rows. -/
def Row.decEq : (a b : Row) → Decidable (a = b)
  | .mk w cs, .mk v ds =>
    if hw : w = v then
      match Row.decEqList cs ds with
      | isTrue h => isTrue (by rw [hw, h])
      | isFalse h => isFalse (fun e => h (Row.mk.inj e).2)
    else isFalse (fun e => hw (Row.mk.inj e).1)

/-- Decision procedure for the equality of two lists of rows. -/
def Row.decEqList : (a b : List Row) → Decidable (a = b)
  | [], [] => isTrue rfl
  | [], _ :: _ => isFalse (fun e => List.noConfusion e)
  | _ :: _, [] => isFalse (fun e => List.noConfusion e)
  | a :: as, b :: bs =>
    match Row.decEq a b with
    | isTrue h1 =>
      match Row.decEqList as bs with
      | isTrue h2 => isTrue (by rw [h1, h2])
      | isFalse h2 => isFalse (fun e => h2 (List.cons.inj e).2)
    | isFalse h1 => isFalse (fun e => h1 (List.cons.inj e).1)

end

instance : DecidableEq Row := Row.decEq

mutual

/-- All rows of a tree, the root first, then the rows below it in display order. -/
def Row.rows : Row → List Row
  | .mk w cs => .mk w cs :: Row.rows_of_list cs

/-- All rows of a forest in display order. -/
def Row.rows_of_list : List Row → List Row
  | [] => []
  | r :: rs => r.rows ++ Row.rows_of_list rs

end

/-- A path of the tree model: the indices from a top-level row down to a row; the
empty path stands for the root of the store. -/
abbrev GtkTreePath := List Nat

/-- An iterator of the tree store: the position `index` among the children of the
row at `parent`. -/
structure GtkTreeIter where
  parent : GtkTreePath
  index : Nat
  deriving DecidableEq, Repr

/-- The path of the row an iterator points to. -/
def GtkTreeIter.path (iter : GtkTreeIter) : GtkTreePath :=
  iter.parent ++ [iter.index]

/-- The path of a `parent_iter` argument; `NULL` is the root of the store. -/
def parent_path : Option GtkTreeIter → GtkTreePath
  | none => []
  | some iter => iter.path

/-- The rows directly below a path (the top-level rows for the empty path). -/
def children_at : List Row → GtkTreePath → List Row
  | rows, [] => rows
  | rows, i :: p =>
    match rows[i]? with
    | some r => children_at r.children p
    | none => []

/-- Whether a path leads to the root or to a row of the store. -/
def valid_path : List Row → GtkTreePath → Bool
  | _, [] => true
  | rows, i :: p =>
    match rows[i]? with
    | some r => valid_path r.children p
    | none => false

/-- Replace the list of rows directly below a path. -/
def modify_children_at (f : List Row → List Row) : List Row → GtkTreePath → List Row
  | rows, [] => f rows
  | rows, i :: p =>
    match rows[i]? with
    | some r => rows.set i (Row.mk r.widget (modify_children_at f r.children p))
    | none => rows

/-- The call `gtk_tree_store_append`: a new empty row becomes the last child of
`parent` (the last top-level row for `NULL`); the iterator of the new row is
returned. -/
def gtk_tree_store_append (model : List Row) (parent : Option GtkTreeIter) :
    List Row × GtkTreeIter :=
  (modify_children_at (fun rows => rows ++ [Row.mk none []]) model (parent_path parent),
   { parent := parent_path parent,
     index := (children_at model (parent_path parent)).length })

/-- The call `gtk_tree_store_set (model, iter, WIDGET_COLUMN, widget, -1)`. -/
def gtk_tree_store_set (model : List Row) (iter : GtkTreeIter) (widget : WidgetRef) :
    List Row :=
  modify_children_at
    (fun rows => List.modify (fun r => Row.mk (some widget) r.children) iter.index rows)
    model iter.parent

/-- The body of the loop of `fill_model` for one element of the list; `recurse`
is the recursive call of `fill_model`. -/
def fill_model_row (core : GladeCore)
    (recurse : List Row → List GObject → Option GtkTreeIter → Option (List Row))
    (parent_iter : Option GtkTreeIter) (model : List Row) (l : GObject) :
    Option (List Row) :=
  match core.glade_widget_get_from_gobject l with
  | none => some model
  | some widget =>
    let model1 := (gtk_tree_store_append model parent_iter).1
    let iter := (gtk_tree_store_append model parent_iter).2
    let model2 := gtk_tree_store_set model1 iter widget
    let children := core.glade_widget_adaptor_get_children widget
    if children ≠ [] then recurse model2 children (some iter)
    else some model2

/-- The function `fill_model`.  The recursion follows the child accessor of the
adaptors; `fuel` bounds its depth. -/
def fill_model (core : GladeCore) :
    Nat → List Row → List GObject → Option GtkTreeIter → Option (List Row)
  | 0 => fun _ _ _ => none
  | fuel + 1 => fun model widgets parent_iter =>
    List.foldlM (fill_model_row core (fill_model core fuel) parent_iter) model widgets

/-- Callbacks the inspector connects to a project. -/
inductive ProjectCallback where
  | project_add_widget_cb
  | project_remove_widget_cb
  | project_widget_name_changed_cb
  | project_selection_changed_cb
  deriving DecidableEq, Repr

/-- A handler of the inspector connected to a signal of a project. -/
structure SignalConnection where
  project : ProjectRef
  signal : String
  callback : ProjectCallback
  deriving DecidableEq, Repr

/-- Signals and property notifications emitted on the inspector object. -/
inductive InspectorSignal where
  | selection_changed
  | item_activated
  | notify (property : String)
  deriving DecidableEq, Repr

/-- The inspector instance: its private fields, the rows selected in its view, the
handlers it has connected to projects and the signals emitted so far. -/
structure GladeInspector where
  project : Option ProjectRef
  model : List Row
  selected : List GtkTreePath
  connections : List SignalConnection
  emitted : List InspectorSignal
  deriving DecidableEq, Repr

/-- The list of toplevel objects `update_model` builds with `g_list_prepend`;
`none` when `g_assert (gwidget)` fails. -/
def update_model_toplevels (core : GladeCore) :
    List GObject → List GObject → Option (List GObject)
  | [], toplevels => some toplevels
  | object :: l, toplevels =>
    match core.glade_widget_get_from_gobject object with
    | none => none
    | some gwidget =>
      if core.glade_widget_get_parent gwidget = none then
        update_model_toplevels core l (object :: toplevels)
      else update_model_toplevels core l toplevels

/-- The function `update_model`.  `gtk_tree_store_clear` removes every row, so no
row stays selected. -/
def update_model (core : GladeCore) (fuel : Nat) (inspector : GladeInspector) :
    Option GladeInspector :=
  let cleared : GladeInspector := { inspector with model := [], selected := [] }
  match cleared.project with
  | none => some cleared
  | some project =>
    (update_model_toplevels core (core.glade_project_get_objects project) []).bind
      fun (toplevels : List GObject) =>
    (fill_model core fuel cleared.model toplevels none).bind fun (model : List Row) =>
    some { cleared with model := model }

/-- The handler `inspector_notify_cb` of "notify::project". -/
def inspector_notify_cb (core : GladeCore) (fuel : Nat) (inspector : GladeInspector) :
    Option GladeInspector :=
  update_model core fuel inspector

/-- The function `disconnect_project_signals`: every handler of the four
callbacks connected to `project` is disconnected. -/
def disconnect_project_signals (inspector : GladeInspector) (project : ProjectRef) :
    GladeInspector :=
  { inspector with
    connections := inspector.connections.filter (fun c => decide (c.project ≠ project)) }

/-- The function `connect_project_signals`. -/
def connect_project_signals (inspector : GladeInspector) (project : ProjectRef) :
    GladeInspector :=
  { inspector with
    connections := inspector.connections ++
      [ { project := project, signal := "add-widget", callback := .project_add_widget_cb },
        { project := project, signal := "remove-widget",
          callback := .project_remove_widget_cb },
        { project := project, signal := "widget-name-changed",
          callback := .project_widget_name_changed_cb },
        { project := project, signal := "selection-changed",
          callback := .project_selection_changed_cb } ] }

/-- The function `glade_inspector_set_project`, for an inspector and a project (or
`NULL`) that pass the two type checks.  `g_object_notify` runs the handler of
"notify::project", which is `inspector_notify_cb`. -/
def glade_inspector_set_project (core : GladeCore) (fuel : Nat) (inspector : GladeInspector)
    (project : Option ProjectRef) : Option GladeInspector :=
  let s1 : GladeInspector :=
    match inspector.project with
    | some old => { disconnect_project_signals inspector old with project := none }
    | none => inspector
  let s2 : GladeInspector :=
    match project with
    | some p => connect_project_signals { s1 with project := some p } p
    | none => s1
  inspector_notify_cb core fuel { s2 with emitted := s2.emitted ++ [.notify "project"] }

/-- The getter `glade_inspector_get_project`. -/
def glade_inspector_get_project (inspector : GladeInspector) : Option ProjectRef :=
  inspector.project

/-! ## The widget forest of a project -/

/-- The widgets among the children the adaptor returns for a widget, in the order
of the child accessor. -/
def child_widgets (core : GladeCore) (w : WidgetRef) : List WidgetRef :=
  (core.glade_widget_adaptor_get_children w).filterMap core.glade_widget_get_from_gobject

/-- The widget `c` is returned as a child of the widget `w`. -/
def IsChildOf (core : GladeCore) (w c : WidgetRef) : Prop :=
  c ∈ child_widgets core w

/-- The widget `x` is `w` or is reached from `w` through the child accessor. -/
def IsDescendant (core : GladeCore) (w x : WidgetRef) : Prop :=
  Relation.ReflTransGen (IsChildOf core) w x

/-- The toplevel widgets of a project, in the order of its object list. -/
def toplevel_widgets (core : GladeCore) (project : ProjectRef) : List WidgetRef :=
  ((core.glade_project_get_objects project).filterMap
    core.glade_widget_get_from_gobject).filter
    (fun w => decide (core.glade_widget_get_parent w = none))

/-- A widget reachable from the toplevel widgets of a project through the child
accessor of the adaptors. -/
inductive ProjectReaches (core : GladeCore) (project : ProjectRef) : WidgetRef → Prop where
  | toplevel {w : WidgetRef} : w ∈ toplevel_widgets core project → ProjectReaches core project w
  | child {w c : WidgetRef} : ProjectReaches core project w → IsChildOf core w c →
      ProjectReaches core project c

/-- A project whose widgets form a finite forest: every object of the project has
a widget and no widget is listed twice; a widget returned as a child of `w` has
`w` as its parent and is returned once; `height` decreases from a widget to its
children. -/
structure ProjectForest (core : GladeCore) (project : ProjectRef)
    (height : WidgetRef → Nat) : Prop where
  has_widget : ∀ o ∈ core.glade_project_get_objects project,
    core.glade_widget_get_from_gobject o ≠ none
  objects_nodup : ((core.glade_project_get_objects project).filterMap
    core.glade_widget_get_from_gobject).Nodup
  parent_of_child : ∀ w c, IsChildOf core w c → core.glade_widget_get_parent c = some w
  children_nodup : ∀ w, (child_widgets core w).Nodup
  height_child : ∀ w c, IsChildOf core w c → height c < height w

/-- The rows `fill_model` creates for a widget, cut off below depth `n`. -/
def subtree (core : GladeCore) : Nat → WidgetRef → Row
  | 0, w => Row.mk (some w) []
  | n + 1, w => Row.mk (some w) ((child_widgets core w).map (subtree core n))

/-- The widgets of `subtree`, in display order. -/
def descendants (core : GladeCore) : Nat → WidgetRef → List WidgetRef
  | 0, w => [w]
  | n + 1, w => w :: (child_widgets core w).flatMap (descendants core n)

/-- Widgets that are all toplevel or all children of one widget. -/
def Siblings (core : GladeCore) (ws : List WidgetRef) : Prop :=
  (∀ w ∈ ws, core.glade_widget_get_parent w = none) ∨ (∃ u, ∀ w ∈ ws, IsChildOf core u w)

/-! ## A concrete project -/

/-- A project with five objects: a window (object 1) that holds a box (2) with a
button (3) and a label (4), and a dialog (5).  The widget of object `o` is
`o + 10`; the box also returns an object without widget (99) as a child. -/
def window_core : GladeCore :=
  { glade_widget_get_from_gobject := fun o => if 1 ≤ o ∧ o ≤ 5 then some (o + 10) else none,
    glade_widget_get_object := fun w => w - 10,
    glade_widget_get_parent := fun w =>
      if w = 12 then some 11 else if w = 13 then some 12 else if w = 14 then some 12 else none,
    glade_widget_get_name := fun w =>
      if w = 11 then some "window1" else if w = 12 then some "box1"
      else if w = 13 then some "button1" else if w = 14 then some "label1"
      else if w = 15 then some "dialog1" else none,
    glade_widget_adaptor_get_children := fun w =>
      if w = 11 then [2] else if w = 12 then [3, 99, 4] else [],
    glade_project_get_objects := fun _ => [1, 2, 3, 4, 5],
    glade_project_selection_get := fun _ => [] }

/-- Heights of the widgets of the concrete project. -/
def window_height (w : WidgetRef) : Nat :=
  if w = 11 then 2 else if w = 12 then 1 else 0

/-- An inspector bound to no project whose view still holds a stale row. -/
def stale_inspector : GladeInspector :=
  { project := none, model := [Row.mk (some 7) [Row.mk none []]], selected := [[0]],
    connections := [], emitted := [] }

/-! ## The project notifications of the inspector -/

mutual

/-- Modelled from the spec: the search of `glade_util_find_iter_by_widget` in one
row, which is child `index` of its parent, and then below it; the path of the
iterator starts at the parent of the row. -/
def find_iter_row (findme : WidgetRef) : Row → Nat → Option GtkTreeIter
  | .mk w cs, index =>
    if w = some findme then some { parent := [], index := index }
    else (find_iter_rows findme cs 0).map
      fun (iter : GtkTreeIter) => { parent := index :: iter.parent, index := iter.index }

/-- Modelled from the spec: the search of `glade_util_find_iter_by_widget` in a
list of sibling rows, the first of which is child `index` of their parent, in
display order. -/
def find_iter_rows (findme : WidgetRef) : List Row → Nat → Option GtkTreeIter
  | [], _ => none
  | r :: rs, index =>
    match find_iter_row findme r index with
    | some iter => some iter
    | none => find_iter_rows findme rs (index + 1)

end

/-- Modelled from the spec: `glade_util_find_iter_by_widget (model, findme,
WIDGET_COLUMN)` finds the row of a widget; the iterator of the first row in
display order that holds `findme` is returned, and `NULL` when no row holds it. -/
def glade_util_find_iter_by_widget (model : List Row) (findme : WidgetRef) :
    Option GtkTreeIter :=
  find_iter_rows findme model 0

/-- The row a path leads to (`gtk_tree_model_get_iter`); the empty path leads to
no row. -/
def row_at : List Row → GtkTreePath → Option Row
  | _, [] => none
  | rows, [i] => rows[i]?
  | rows, i :: j :: p =>
    match rows[i]? with
    | some r => row_at r.children (j :: p)
    | none => none

/-- What becomes of the path of a selected row when the row at `removed` is
removed from the store: a row at or below `removed` is no longer there, a row
after it among the same children (or below such a row) moves up by one. -/
def path_after_remove : GtkTreePath → GtkTreePath → Option GtkTreePath
  | [], p => some p
  | _ :: _, [] => some []
  | i :: r, j :: q =>
    if r = [] then
      if j = i then none
      else if i < j then some ((j - 1) :: q)
      else some (j :: q)
    else if i = j then (path_after_remove r q).map (List.cons i)
    else some (j :: q)

/-- The call `gtk_tree_store_remove`: the row of the iterator goes away with the
rows below it. -/
def gtk_tree_store_remove (model : List Row) (iter : GtkTreeIter) : List Row :=
  modify_children_at (fun rows => rows.eraseIdx iter.index) model iter.parent

/-- The handler `project_add_widget_cb` of "add-widget".  Rows are appended after
the last child of their parent, so no selected row changes its path. -/
def project_add_widget_cb (core : GladeCore) (fuel : Nat) (inspector : GladeInspector)
    (widget : WidgetRef) : Option GladeInspector :=
  let parent_widget := core.glade_widget_get_parent widget
  let parent_iter : Option GtkTreeIter :=
    match parent_widget with
    | some parent => glade_util_find_iter_by_widget inspector.model parent
    | none => none
  if parent_iter = none ∧ parent_widget ≠ none then some inspector
  else
    let model1 := (gtk_tree_store_append inspector.model parent_iter).1
    let widget_iter := (gtk_tree_store_append inspector.model parent_iter).2
    let model2 := gtk_tree_store_set model1 widget_iter widget
    (fill_model core fuel model2 (core.glade_widget_adaptor_get_children widget)
      (some widget_iter)).map fun (model : List Row) => { inspector with model := model }

/-- The handler `project_remove_widget_cb` of "remove-widget".  The view drops the
removed rows from its selection. -/
def project_remove_widget_cb (inspector : GladeInspector) (widget : WidgetRef) :
    GladeInspector :=
  match glade_util_find_iter_by_widget inspector.model widget with
  | some iter =>
    { inspector with
      model := gtk_tree_store_remove inspector.model iter
      selected := inspector.selected.filterMap (path_after_remove iter.path) }
  | none => inspector

/-- The handler `project_widget_name_changed_cb` of "widget-name-changed": the
inspector after the call and the path of the "row-changed" emission of the model,
if there is one. -/
def project_widget_name_changed_cb (inspector : GladeInspector) (widget : WidgetRef) :
    GladeInspector × Option GtkTreePath :=
  match glade_util_find_iter_by_widget inspector.model widget with
  | some iter => (inspector, some iter.path)
  | none => (inspector, none)

/-- One "add-widget" notification for each widget of a list, in the order of the
list. -/
def deliver_add_widget (core : GladeCore) (fuel : Nat) (inspector : GladeInspector)
    (widgets : List WidgetRef) : Option GladeInspector :=
  List.foldlM (project_add_widget_cb core fuel) inspector widgets

/-- An inspector whose view has no row. -/
def empty_inspector (project : Option ProjectRef) (connections : List SignalConnection) :
    GladeInspector :=
  { project := project, model := [], selected := [], connections := connections,
    emitted := [] }

mutual

/-- The rows of a tree in display order, each as the pair of the widget of the
row above it (`up`) and its own widget. -/
def Row.edges (up : Option WidgetRef) : Row → List (Option WidgetRef × Option WidgetRef)
  | .mk w cs => (up, w) :: Row.edges_of_list w cs

/-- The rows of a forest below a row that holds `up`, as pairs of the widget of
the row above and the widget of the row. -/
def Row.edges_of_list (up : Option WidgetRef) :
    List Row → List (Option WidgetRef × Option WidgetRef)
  | [] => []
  | r :: rs => r.edges up ++ Row.edges_of_list up rs

end

mutual

/-- A tree of rows without the rows below it that hold `w` and without the rows
that descend from those. -/
def Row.without (w : WidgetRef) : Row → Row
  | .mk v cs => .mk v (Row.without_list w cs)

/-- A forest of rows without the rows that hold `w` and without the rows that
descend from those; the other rows keep their parent and their order. -/
def Row.without_list (w : WidgetRef) : List Row → List Row
  | [] => []
  | r :: rs =>
    if r.widget = some w then Row.without_list w rs
    else r.without w :: Row.without_list w rs

end

/-- The widgets of a list are delivered parents first: the parent of a widget
comes before the widget. -/
def ParentsFirst (core : GladeCore) : List WidgetRef → List WidgetRef → Prop
  | _, [] => True
  | before, w :: rest =>
    (∀ p, core.glade_widget_get_parent w = some p → p ∈ before) ∧
      ParentsFirst core (before ++ [w]) rest

/-- The widgets of the concrete project at the time each of them is added: the
parent of a widget is set, and no widget has children yet. -/
def window_core_growing : GladeCore :=
  { window_core with glade_widget_adaptor_get_children := fun _ => [] }

/-- The pair of the parent widget of a widget and the widget, as `Row.edges` lists
it for the row of the widget below the row of its parent. -/
def widget_edge (core : GladeCore) (w : WidgetRef) : Option WidgetRef × Option WidgetRef :=
  (core.glade_widget_get_parent w, some w)

/-! ## Binding the inspector to projects -/

/-- The instance initialiser `glade_inspector_init`, run on the memory of a new
instance: no project is bound and the new store has no row. -/
def glade_inspector_init (mem : GladeInspector) : GladeInspector :=
  { mem with project := none, model := [], selected := [] }

/-- The constructor `glade_inspector_new`: `g_object_new` runs the initialiser on
an instance that has no handler connected and has emitted no signal. -/
def glade_inspector_new : GladeInspector :=
  glade_inspector_init
    { project := none, model := [], selected := [], connections := [], emitted := [] }

/-- The first block of `glade_inspector_set_project`: the state when the project
bound before has been let go and the new project is not stored yet. -/
def set_project_release (inspector : GladeInspector) : GladeInspector :=
  match inspector.project with
  | some old => { disconnect_project_signals inspector old with project := none }
  | none => inspector

/-- The second block of `glade_inspector_set_project`. -/
def set_project_install (inspector : GladeInspector) (project : Option ProjectRef) :
    GladeInspector :=
  match project with
  | some p => connect_project_signals { inspector with project := some p } p
  | none => inspector

/-- A sequence of calls of `glade_inspector_set_project`, each with a project or
`NULL`. -/
def set_project_calls (core : GladeCore) (fuel : Nat) (inspector : GladeInspector)
    (projects : List (Option ProjectRef)) : Option GladeInspector :=
  List.foldlM (glade_inspector_set_project core fuel) inspector projects

/-- The handlers `connect_project_signals` connects to a project, in its order;
no handler for `NULL`. -/
def project_connections : Option ProjectRef → List SignalConnection
  | none => []
  | some project =>
    [ { project := project, signal := "add-widget", callback := .project_add_widget_cb },
      { project := project, signal := "remove-widget",
        callback := .project_remove_widget_cb },
      { project := project, signal := "widget-name-changed",
        callback := .project_widget_name_changed_cb },
      { project := project, signal := "selection-changed",
        callback := .project_selection_changed_cb } ]

/-! ## The pointer mode of the application when the palette is built -/

/-- States reached by a palette that is built while the pointer mode of the
application is `mode`, through clicks on its item buttons, clicks on the selector,
calls of `glade_palette_deselect_current_item` and calls of the three setters. -/
inductive PaletteReachableFrom (mode : GladePointerMode) : GladePalette → Prop where
  | init (mem : GladePalette) (catalogs : List GladeCatalog) :
      mem.pointer_mode = mode →
      PaletteReachableFrom mode
        (glade_palette_set_catalogs .palette_instance catalogs (glade_palette_init mem))
  | toggle_item {s t : GladePalette} (fuel mask : Nat) (button : ItemRef) :
      PaletteReachableFrom mode s → button ∈ palette_items s →
      user_toggle_item fuel mask button s = some t → PaletteReachableFrom mode t
  | toggle_selector {s t : GladePalette} (fuel mask : Nat) :
      PaletteReachableFrom mode s → user_toggle_selector fuel mask s = some t →
      PaletteReachableFrom mode t
  | deselect {s t : GladePalette} (fuel mask : Nat) (sticky_aware : Bool) :
      PaletteReachableFrom mode s →
      glade_palette_deselect_current_item fuel mask .palette_instance sticky_aware s = some t →
      PaletteReachableFrom mode t
  | set_item_appearance {s : GladePalette} (item_appearance : GladeItemAppearance) :
      PaletteReachableFrom mode s →
      PaletteReachableFrom mode
        (glade_palette_set_item_appearance .palette_instance item_appearance s)
  | set_use_small_item_icons {s : GladePalette} (use_small_item_icons : Bool) :
      PaletteReachableFrom mode s →
      PaletteReachableFrom mode
        (glade_palette_set_use_small_item_icons .palette_instance use_small_item_icons s)
  | set_show_selector_button {s : GladePalette} (show_selector_button : Bool) :
      PaletteReachableFrom mode s →
      PaletteReachableFrom mode
        (glade_palette_set_show_selector_button .palette_instance show_selector_button s)

/-- States of a palette built from a catalog list and then driven by every
operation on it: clicks on its item buttons, clicks on the selector, calls of
`glade_palette_deselect_current_item` and calls of the three setters
`glade_palette_set_item_appearance`, `glade_palette_set_use_small_item_icons` and
`glade_palette_set_show_selector_button`. -/
inductive PaletteOperated : GladePalette → Prop where
  | init (mem : GladePalette) (catalogs : List GladeCatalog) :
      PaletteOperated
        (glade_palette_set_catalogs .palette_instance catalogs (glade_palette_init mem))
  | toggle_item {s t : GladePalette} (fuel mask : Nat) (button : ItemRef) :
      PaletteOperated s → button ∈ palette_items s →
      user_toggle_item fuel mask button s = some t → PaletteOperated t
  | toggle_selector {s t : GladePalette} (fuel mask : Nat) :
      PaletteOperated s → user_toggle_selector fuel mask s = some t → PaletteOperated t
  | deselect {s t : GladePalette} (fuel mask : Nat) (sticky_aware : Bool) :
      PaletteOperated s →
      glade_palette_deselect_current_item fuel mask .palette_instance sticky_aware s = some t →
      PaletteOperated t
  | set_item_appearance {s : GladePalette} (item_appearance : GladeItemAppearance) :
      PaletteOperated s →
      PaletteOperated (glade_palette_set_item_appearance .palette_instance item_appearance s)
  | set_use_small_item_icons {s : GladePalette} (use_small_item_icons : Bool) :
      PaletteOperated s →
      PaletteOperated
        (glade_palette_set_use_small_item_icons .palette_instance use_small_item_icons s)
  | set_show_selector_button {s : GladePalette} (show_selector_button : Bool) :
      PaletteOperated s →
      PaletteOperated
        (glade_palette_set_show_selector_button .palette_instance show_selector_button s)

/-- Memory of a new palette instance in an application whose pointer mode is "add
widget", as it is while an item of another palette is selected. -/
def blank_palette_add_widget : GladePalette :=
  { blank_palette with pointer_mode := .GLADE_POINTER_ADD_WIDGET }

/-- The palette of "Containers" built while the pointer mode of the application
is "add widget". -/
def containers_palette_add_widget : GladePalette :=
  glade_palette_set_catalogs .palette_instance [containers_catalog]
    (glade_palette_init blank_palette_add_widget)

/-- The palette of "Containers" with Box selected, after the appearance was set to
label-only and the selector was hidden. -/
def box_selected_restyled : GladePalette :=
  glade_palette_set_show_selector_button .palette_instance false
    (glade_palette_set_item_appearance .palette_instance .GLADE_ITEM_LABEL_ONLY
      box_selected_palette)

/-- The palette after `glade_palette_set_catalogs` on a new instance and a
sequence of setter calls. -/
def palette_built (mem : GladePalette) (catalogs : List GladeCatalog)
    (sets : List AppearanceOp) : GladePalette :=
  appearance_run sets
    (glade_palette_set_catalogs .palette_instance catalogs (glade_palette_init mem))

/-! ## The selection handlers of the inspector -/

/-- The two handlers of the inspector that relay a selection. -/
inductive SelectionHandler where
  | selection_changed_cb
  | project_selection_changed_cb
  deriving DecidableEq, Repr

/-- The inspector in its application: the inspector itself; whether
`gtk_tree_view_get_selection (inspector->priv->view)` returns an object
(`view_selection`; it is `NULL` once the view is destroyed); the block count of
the handler `selection_changed_cb` connected to "changed" of that object; the
block count of the handler `project_selection_changed_cb` connected to the bound
project; the selection of the application; the number of "selection-changed"
emissions of the project; the handlers of the inspector that signal emissions
have run; and the widgets for which a context menu was opened. -/
structure InspectorApp where
  inspector : GladeInspector
  view_selection : Bool
  selection_changed_cb_blocked : Nat
  project_selection_changed_cb_blocked : Nat
  app_selection : List GObject
  project_selection_changed : Nat
  handler_runs : List SelectionHandler
  popups : List WidgetRef
  deriving DecidableEq, Repr

/-- The display order of two paths: a row comes before the rows below it and
before the rows that follow it. -/
def path_le : GtkTreePath → GtkTreePath → Bool
  | [], _ => true
  | _ :: _, [] => false
  | i :: p, j :: q => decide (i < j) || (decide (i = j) && path_le p q)

/-- The call `gtk_tree_selection_get_selected_rows`: the paths of the selected
rows of the model, in display order. -/
def gtk_tree_selection_get_selected_rows (inspector : GladeInspector) : List GtkTreePath :=
  List.insertionSort (fun a b => path_le a b = true)
    (inspector.selected.filter fun path => (row_at inspector.model path).isSome)

/-- The call `g_signal_handlers_block_by_func` on the selection object of the
view, for `selection_changed_cb`; nothing is blocked when the object is `NULL`. -/
def block_selection_changed_cb (app : InspectorApp) : InspectorApp :=
  if app.view_selection then
    { app with selection_changed_cb_blocked := app.selection_changed_cb_blocked + 1 }
  else app

/-- The call `g_signal_handlers_unblock_by_func` on the selection object of the
view, for `selection_changed_cb`. -/
def unblock_selection_changed_cb (app : InspectorApp) : InspectorApp :=
  if app.view_selection then
    { app with selection_changed_cb_blocked := app.selection_changed_cb_blocked - 1 }
  else app

/-- Whether `project_selection_changed_cb` is connected to "selection-changed" of
the project stored in `inspector->priv->project`. -/
def project_handler_connected (inspector : GladeInspector) : Bool :=
  match inspector.project with
  | some project =>
    decide (({ project := project, signal := "selection-changed",
               callback := .project_selection_changed_cb } : SignalConnection) ∈
      inspector.connections)
  | none => false

/-- The call `g_signal_handlers_block_by_func` on `inspector->priv->project`, for
`project_selection_changed_cb`; no handler matches when the project is `NULL` or
the handler is not connected to it. -/
def block_project_selection_changed_cb (app : InspectorApp) : InspectorApp :=
  if project_handler_connected app.inspector then
    { app with
      project_selection_changed_cb_blocked := app.project_selection_changed_cb_blocked + 1 }
  else app

/-- The call `g_signal_handlers_unblock_by_func` on `inspector->priv->project`,
for `project_selection_changed_cb`. -/
def unblock_project_selection_changed_cb (app : InspectorApp) : InspectorApp :=
  if project_handler_connected app.inspector then
    { app with
      project_selection_changed_cb_blocked := app.project_selection_changed_cb_blocked - 1 }
  else app

/-- The objects the loop of `project_selection_changed_cb` visits: it stops at the
first element whose data is `NULL` (address 0). -/
def selection_loop_objects (selection : List GObject) : List GObject :=
  selection.takeWhile fun object => decide (object ≠ 0)

mutual

/-- The emission of "changed" by the selection object of the view: the handler
`selection_changed_cb` runs unless it is blocked. -/
def gtk_tree_selection_emit_changed (fuel : Nat) (core : GladeCore) (app : InspectorApp) :
    Option InspectorApp :=
  match fuel with
  | 0 => none
  | fuel + 1 =>
    if app.selection_changed_cb_blocked = 0 then
      selection_changed_cb fuel core
        { app with handler_runs := app.handler_runs ++ [.selection_changed_cb] }
    else some app
termination_by structural fuel

/-- The call `gtk_tree_selection_unselect_all`; "changed" is emitted when a row
was selected. -/
def gtk_tree_selection_unselect_all (fuel : Nat) (core : GladeCore) (app : InspectorApp) :
    Option InspectorApp :=
  match fuel with
  | 0 => none
  | fuel + 1 =>
    if app.inspector.selected = [] then some app
    else gtk_tree_selection_emit_changed fuel core
      { app with inspector := { app.inspector with selected := [] } }
termination_by structural fuel

/-- The call `gtk_tree_selection_select_iter` in selection mode
`GTK_SELECTION_MULTIPLE`; "changed" is emitted when the row was not selected. -/
def gtk_tree_selection_select_iter (fuel : Nat) (core : GladeCore) (iter : GtkTreeIter)
    (app : InspectorApp) : Option InspectorApp :=
  match fuel with
  | 0 => none
  | fuel + 1 =>
    if iter.path ∈ app.inspector.selected then some app
    else gtk_tree_selection_emit_changed fuel core
      { app with
        inspector := { app.inspector with selected := app.inspector.selected ++ [iter.path] } }
termination_by structural fuel

/-- The body of the loop of `project_selection_changed_cb` for one object of the
selection of the project.  Expanding the rows above the row and scrolling to it
change neither the model nor the selection. -/
def project_selection_changed_row (fuel : Nat) (core : GladeCore) (app : InspectorApp)
    (object : GObject) : Option InspectorApp :=
  match fuel with
  | 0 => none
  | fuel + 1 =>
    match core.glade_widget_get_from_gobject object with
    | some widget =>
      match glade_util_find_iter_by_widget app.inspector.model widget with
      | some iter => gtk_tree_selection_select_iter fuel core iter app
      | none => some app
    | none => some app
termination_by structural fuel

/-- The handler `project_selection_changed_cb` of "selection-changed" of a
project, for an inspector and a project that pass the two type checks. -/
def project_selection_changed_cb (fuel : Nat) (core : GladeCore) (project : ProjectRef)
    (app : InspectorApp) : Option InspectorApp :=
  match fuel with
  | 0 => none
  | fuel + 1 =>
    if app.inspector.project ≠ some project then some app
    else if (block_selection_changed_cb app).view_selection = false then
      some (block_selection_changed_cb app)
    else
      (gtk_tree_selection_unselect_all fuel core (block_selection_changed_cb app)).bind
        fun (app2 : InspectorApp) =>
      (List.foldlM (project_selection_changed_row fuel core) app2
        (selection_loop_objects (core.glade_project_selection_get project))).bind
        fun (app3 : InspectorApp) =>
      some (unblock_selection_changed_cb app3)
termination_by structural fuel

/-- Modelled from the spec: `glade_app_selection_changed` commits the selection
of the application: the project emits "selection-changed" once, and the handler
`project_selection_changed_cb` the inspector has connected to its project runs
unless it is blocked; it then reads the selection of the application as the
selection of the project. -/
def glade_app_selection_changed (fuel : Nat) (core : GladeCore) (app : InspectorApp) :
    Option InspectorApp :=
  match fuel with
  | 0 => none
  | fuel + 1 =>
    match app.inspector.project with
    | some project =>
      if project_handler_connected app.inspector = true ∧
          app.project_selection_changed_cb_blocked = 0 then
        project_selection_changed_cb fuel
          { core with glade_project_selection_get := fun _ => app.app_selection } project
          { app with
            project_selection_changed := app.project_selection_changed + 1
            handler_runs := app.handler_runs ++ [.project_selection_changed_cb] }
      else some { app with project_selection_changed := app.project_selection_changed + 1 }
    | none => some { app with project_selection_changed := app.project_selection_changed + 1 }
termination_by structural fuel

/-- Modelled from the spec: `glade_app_selection_clear (emit_signal)` empties the
selection of the application and commits it when `emit_signal` is set. -/
def glade_app_selection_clear (fuel : Nat) (core : GladeCore) (emit_signal : Bool)
    (app : InspectorApp) : Option InspectorApp :=
  match fuel with
  | 0 => none
  | fuel + 1 =>
    if emit_signal then glade_app_selection_changed fuel core { app with app_selection := [] }
    else some { app with app_selection := [] }
termination_by structural fuel

/-- Modelled from the spec: `glade_app_selection_add (object, emit_signal)` adds an
object to the selection of the application, which is a set, and commits it when
`emit_signal` is set; for `NULL` the type check of the argument fails. -/
def glade_app_selection_add (fuel : Nat) (core : GladeCore) (object : Option GObject)
    (emit_signal : Bool) (app : InspectorApp) : Option InspectorApp :=
  match fuel with
  | 0 => none
  | fuel + 1 =>
    match object with
    | none => some app
    | some o =>
      if emit_signal then
        glade_app_selection_changed fuel core
          { app with
            app_selection := if o ∈ app.app_selection then app.app_selection
              else app.app_selection ++ [o] }
      else
        some { app with
          app_selection := if o ∈ app.app_selection then app.app_selection
            else app.app_selection ++ [o] }
termination_by structural fuel

/-- The function `selection_foreach_func`, called for the path of a selected row;
`glade_widget_get_object` returns `NULL` for the `NULL` widget. -/
def selection_foreach_func (fuel : Nat) (core : GladeCore) (app : InspectorApp)
    (path : GtkTreePath) : Option InspectorApp :=
  match fuel with
  | 0 => none
  | fuel + 1 =>
    glade_app_selection_add fuel core
      (((row_at app.inspector.model path).bind Row.widget).map core.glade_widget_get_object)
      false app
termination_by structural fuel

/-- The handler `selection_changed_cb` of "changed" of the selection object of
the view; `gtk_tree_selection_selected_foreach` calls `selection_foreach_func` for
each selected row, in display order. -/
def selection_changed_cb (fuel : Nat) (core : GladeCore) (app : InspectorApp) :
    Option InspectorApp :=
  match fuel with
  | 0 => none
  | fuel + 1 =>
    (glade_app_selection_clear fuel core false
      (block_project_selection_changed_cb app)).bind fun (app2 : InspectorApp) =>
    (List.foldlM (selection_foreach_func fuel core) app2
      (gtk_tree_selection_get_selected_rows app2.inspector)).bind
      fun (app3 : InspectorApp) =>
    (glade_app_selection_changed fuel core app3).bind fun (app4 : InspectorApp) =>
    some
      { unblock_project_selection_changed_cb app4 with
        inspector :=
          { (unblock_project_selection_changed_cb app4).inspector with
            emitted := (unblock_project_selection_changed_cb app4).inspector.emitted ++
              [InspectorSignal.selection_changed] } }
termination_by structural fuel

end

/-- The function `glade_inspector_get_selected_items`: the widgets of the selected
rows, each prepended to the list; `gtk_tree_selection_get_selected_rows` returns
no row for the `NULL` selection object. -/
def glade_inspector_get_selected_items (app : InspectorApp) : List (Option WidgetRef) :=
  if app.view_selection then
    (gtk_tree_selection_get_selected_rows app.inspector).foldl
      (fun items path => (row_at app.inspector.model path).bind Row.widget :: items) []
  else []

/-- A button event: the window it was delivered to, the position of the pointer
as `(gint) event->x` and `(gint) event->y`, and the button. -/
structure GdkEventButton where
  window : Nat
  x : Int
  y : Int
  button : Nat
  deriving DecidableEq, Repr

/-- What the handler of button presses asks the tree view: its bin window and
what `gtk_tree_view_get_path_at_pos` returns for a position, the result of the
call and the path it stores. -/
structure GtkTreeView where
  gtk_tree_view_get_bin_window : Nat
  gtk_tree_view_get_path_at_pos : Int → Int → Bool × Option GtkTreePath

/-- Modelled from the spec: `glade_popup_widget_pop (widget, event, FALSE)` opens
the context menu for a widget; the selection is not altered. -/
def glade_popup_widget_pop (widget : WidgetRef) (app : InspectorApp) : InspectorApp :=
  { app with popups := app.popups ++ [widget] }

/-- The handler `button_press_cb` of "button-press-event" of the view: the value
it returns (`handled`) and the state after it. -/
def button_press_cb (view : GtkTreeView) (event : GdkEventButton) (app : InspectorApp) :
    Bool × InspectorApp :=
  if event.window = view.gtk_tree_view_get_bin_window ∧
      (view.gtk_tree_view_get_path_at_pos event.x event.y).1 = true then
    match (view.gtk_tree_view_get_path_at_pos event.x event.y).2 with
    | some path =>
      match row_at app.inspector.model path with
      | some row =>
        match row.widget with
        | some widget =>
          if event.button = 3 then (true, glade_popup_widget_pop widget app)
          else (false, app)
        | none => (false, app)
      | none => (false, app)
    | none => (false, app)
  else (false, app)

/-- The concrete project bound to an inspector whose view shows its rows, with
the rows of the window and of the dialog selected. -/
def window_app : InspectorApp :=
  { inspector :=
      { project := some 0
        model := [subtree window_core 2 15, subtree window_core 2 11]
        selected := [[1], [0]]
        connections := project_connections (some 0)
        emitted := [] }
    view_selection := true
    selection_changed_cb_blocked := 0
    project_selection_changed_cb_blocked := 0
    app_selection := [1, 5]
    project_selection_changed := 0
    handler_runs := []
    popups := [] }

/-- The concrete project with the button and the label selected, the button
listed twice. -/
def button_label_core : GladeCore :=
  { window_core with glade_project_selection_get := fun _ => [3, 4, 3] }

/-- The rows selected after the loop of `project_selection_changed_cb` has handled
one object of the selection of the project. -/
def select_object_row (core : GladeCore) (model : List Row) (selected : List GtkTreePath)
    (object : GObject) : List GtkTreePath :=
  match core.glade_widget_get_from_gobject object with
  | some widget =>
    match glade_util_find_iter_by_widget model widget with
    | some iter => if iter.path ∈ selected then selected else selected ++ [iter.path]
    | none => selected
  | none => selected

/-- The selection of the application after `selection_foreach_func` has handled
the selected row at a path. -/
def add_row_object (core : GladeCore) (model : List Row) (selection : List GObject)
    (path : GtkTreePath) : List GObject :=
  match ((row_at model path).bind Row.widget).map core.glade_widget_get_object with
  | some object => if object ∈ selection then selection else selection ++ [object]
  | none => selection

/-- A view whose bin window is window 70 and in which the two top-level rows are
20 pixels high each. -/
def window_view : GtkTreeView :=
  { gtk_tree_view_get_bin_window := 70
    gtk_tree_view_get_path_at_pos := fun _ y =>
      if 0 ≤ y ∧ y < 20 then (true, some [0])
      else if 20 ≤ y ∧ y < 40 then (true, some [1])
      else (false, none) }

/-- A press of button 3 in the bin window, on the second row. -/
def right_click : GdkEventButton :=
  { window := 70, x := 5, y := 25, button := 3 }

/-! ## Emissions of "toggled" -/

/-- The number of "toggled" emissions among the signals the palette has emitted. -/
def toggled_emissions (s : GladePalette) : Nat :=
  s.emitted.count PaletteSignal.toggled

/-! ## The interactive search of the view -/

/-- The call `g_str_has_prefix (str, key)`: whether the string `str` begins with
the string `key`. -/
def g_str_has_prefix (str key : String) : Bool :=
  key.data.isPrefixOf str.data

/-- The function `glade_inspector_search_func`, the search function of the view:
`FALSE` says that the row of the iterator matches the key. -/
def glade_inspector_search_func (core : GladeCore) (model : List Row) (key : String)
    (iter : GtkTreeIter) : Bool :=
  match (row_at model iter.path).bind Row.widget with
  | none => true
  | some widget =>
    match core.glade_widget_get_name widget with
    | none => true
    | some name => ! g_str_has_prefix name key

/-! ## The display state of the items -/

/-- The state `t` shows what `s` shows: the same items in the same sections, each
with the appearance and the small-icon flag it has in `s`, and the palette has the
same appearance, the same small-icon flag and the same flag for a fresh item. -/
def SameStyles (s t : GladePalette) : Prop :=
  palette_items t = palette_items s ∧
  (∀ i, (t.items i).appearance = (s.items i).appearance ∧
    (t.items i).use_small_icon = (s.items i).use_small_icon) ∧
  t.item_appearance = s.item_appearance ∧
  t.use_small_item_icons = s.use_small_item_icons ∧
  t.new_item_use_small_icon = s.new_item_use_small_icon

/-- Every item of the palette has the appearance and the small-icon flag of the
palette. -/
def StylesOk (s : GladePalette) : Prop :=
  ∀ i ∈ palette_items s,
    (s.items i).appearance = s.item_appearance ∧
    (s.items i).use_small_icon = s.use_small_item_icons

/-! ## The toggle protocol: fuel -/

/-- Monotonicity of `Option.bind` in its first argument. -/
theorem bind_mono {α β : Type} {a b : Option α} (h : ∀ x, a = some x → b = some x)
    (f : α → Option β) (t : β) (ha : a.bind f = some t) : b.bind f = some t := by
  cases a with
  | none => simp at ha
  | some x => rw [h x rfl]; exact ha

/-- Monotonicity of `Option.bind` in its second argument. -/
theorem bind_mono_fun {α β : Type} {f g : α → Option β}
    (h : ∀ x y, f x = some y → g x = some y) (a : Option α) {t : β}
    (ha : a.bind f = some t) : a.bind g = some t := by
  cases a with
  | none => simp at ha
  | some x => exact h x t ha
/-- One more unit of fuel never changes a result that was reached. -/
theorem fuel_mono_aux (fuel : Nat) :
    (∀ mask b v s t, gtk_toggle_button_set_active_item fuel mask b v s = some t →
      gtk_toggle_button_set_active_item (fuel + 1) mask b v s = some t) ∧
    (∀ mask v s t, gtk_toggle_button_set_active_selector fuel mask v s = some t →
      gtk_toggle_button_set_active_selector (fuel + 1) mask v s = some t) ∧
    (∀ mask p s t, selector_button_toggled_cb fuel mask p s = some t →
      selector_button_toggled_cb (fuel + 1) mask p s = some t) ∧
    (∀ mask b p s t, glade_palette_on_button_toggled fuel mask b p s = some t →
      glade_palette_on_button_toggled (fuel + 1) mask b p s = some t) ∧
    (∀ mask p a s t, glade_palette_deselect_current_item fuel mask p a s = some t →
      glade_palette_deselect_current_item (fuel + 1) mask p a s = some t) := by
  induction fuel with
  | zero =>
    refine ⟨?_, ?_, ?_, ?_, ?_⟩ <;> intros <;>
      simp_all [gtk_toggle_button_set_active_item, gtk_toggle_button_set_active_selector,
        selector_button_toggled_cb, glade_palette_on_button_toggled,
        glade_palette_deselect_current_item]
  | succ n ih =>
    obtain ⟨ih1, ih2, ih3, ih4, ih5⟩ := ih
    refine ⟨?_, ?_, ?_, ?_, ?_⟩
    · intro mask b v s t h
      rw [gtk_toggle_button_set_active_item] at h ⊢
      split at h
      · simp_all
      · rename_i hne
        simp only [hne, if_false]
        split at h
        · rename_i hcon
          simp only [hcon, if_true]
          exact ih4 _ _ _ _ _ h
        · rename_i hcon
          simp only [hcon, if_false]
          exact h
    · intro mask v s t h
      rw [gtk_toggle_button_set_active_selector] at h ⊢
      split at h
      · simp_all
      · rename_i hne
        simp only [hne, if_false]
        exact ih3 _ _ _ _ h
    · intro mask p s t h
      rw [selector_button_toggled_cb] at h ⊢
      split at h
      · rename_i h1
        simp only [h1, if_true]
        exact ih5 _ _ _ _ _ h
      · split at h
        · rename_i h1 h2
          simp only [h1, h2, if_true, if_false]
          exact ih2 _ _ _ _ h
        · rename_i h1 h2
          simp only [h1, h2, if_false]
          exact h
    · intro mask b p s t h
      rw [glade_palette_on_button_toggled] at h ⊢
      by_cases h1 : (!GLADE_IS_PALETTE p) = true
      · simpa only [h1, if_true] using h
      · simp only [h1, if_false, Bool.false_eq_true, ↓reduceIte] at h ⊢
        by_cases h2 : s.current_item = some b
        · simp only [h2, if_true] at h ⊢
          exact bind_mono (fun x hx => ih2 _ _ _ _ hx) _ _ h
        · simp only [h2, if_false] at h ⊢
          by_cases h3 : (!(s.items b).active) = true
          · simpa only [h3, if_true] using h
          · simp only [h3, if_false, Bool.false_eq_true, ↓reduceIte] at h ⊢
            refine bind_mono ?_ _ _ (bind_mono_fun ?_ _ h)
            · intro x hx
              cases hc : s.current_item with
              | none => simpa only [hc] using hx
              | some cur =>
                simp only [hc] at hx ⊢
                by_cases hne : cur ≠ b
                · rw [if_pos hne] at hx ⊢
                  exact ih1 _ _ _ _ _ hx
                · rw [if_neg hne] at hx ⊢
                  exact hx
            · intro x y hy
              exact bind_mono (fun z hz => ih2 _ _ _ _ hz) _ _ hy
    · intro mask p a s t h
      rw [glade_palette_deselect_current_item] at h ⊢
      by_cases h1 : (!GLADE_IS_PALETTE p) = true
      · simpa only [h1, if_true] using h
      · simp only [h1, if_false, Bool.false_eq_true, ↓reduceIte] at h ⊢
        by_cases h2 : (a && s.sticky_selection_mode) = true
        · simpa only [h2, if_true] using h
        · simp only [h2, if_false, Bool.false_eq_true, ↓reduceIte] at h ⊢
          cases hc : s.current_item with
          | none => simpa only [hc] using h
          | some cur =>
            simp only [hc] at h ⊢
            refine bind_mono (fun x hx => ih1 _ _ _ _ _ hx) _ _ (bind_mono_fun ?_ _ h)
            intro x y hy
            exact bind_mono (fun z hz => ih2 _ _ _ _ hz) _ _ hy

/-- A click on an item gives the same result with any larger fuel. -/
theorem toggle_item_fuel_mono {fuel fuel2 : Nat} (h : fuel ≤ fuel2) {mask : Nat} {b : ItemRef}
    {s t : GladePalette} (ht : user_toggle_item fuel mask b s = some t) :
    user_toggle_item fuel2 mask b s = some t := by
  induction h with
  | refl => exact ht
  | step _ ih => exact (fuel_mono_aux _).1 _ _ _ _ _ ih

/-- A click on the selector gives the same result with any larger fuel. -/
theorem toggle_selector_fuel_mono {fuel fuel2 : Nat} (h : fuel ≤ fuel2) {mask : Nat}
    {s t : GladePalette} (ht : user_toggle_selector fuel mask s = some t) :
    user_toggle_selector fuel2 mask s = some t := by
  induction h with
  | refl => exact ht
  | step _ ih => exact (fuel_mono_aux _).2.1 _ _ _ _ ih

/-- Deselecting gives the same result with any larger fuel. -/
theorem deselect_fuel_mono {fuel fuel2 : Nat} (h : fuel ≤ fuel2) {mask : Nat} {p : PaletteArg}
    {a : Bool} {s t : GladePalette}
    (ht : glade_palette_deselect_current_item fuel mask p a s = some t) :
    glade_palette_deselect_current_item fuel2 mask p a s = some t := by
  induction h with
  | refl => exact ht
  | step _ ih => exact (fuel_mono_aux _).2.2.2.2 _ _ _ _ _ ih

/-- Run of the handlers when an item is activated and no item is current. -/
theorem exec_activate (n mask : Nat) (i : ItemRef) (s : GladePalette)
    (hc : s.current_item = none) (hs : s.selector_button_active = true)
    (hi : (s.items i).active = false) (ki : (s.items i).toggled_connected = true) :
    user_toggle_item (n + 8) mask i s =
      some (item_selected s mask i [.notify "current-item", .toggled]) := by
  simp [user_toggle_item, gtk_toggle_button_set_active_item, glade_palette_on_button_toggled,
    gtk_toggle_button_set_active_selector, selector_button_toggled_cb,
    glade_palette_get_current_item, set_item_active, GLADE_IS_PALETTE, hc, hs, hi, ki,
    item_selected]

/-- Run of the handlers when an item is activated while another one is current. -/
theorem exec_switch (n mask : Nat) (i c : ItemRef) (s : GladePalette)
    (hc : s.current_item = some c) (hs : s.selector_button_active = false)
    (hi : (s.items i).active = false) (hca : (s.items c).active = true) (hne : i ≠ c)
    (ki : (s.items i).toggled_connected = true) (kc : (s.items c).toggled_connected = true) :
    user_toggle_item (n + 8) mask i s =
      some (item_selected s mask i
        [.notify "current-item", .toggled, .notify "current-item", .toggled]) := by
  simp [user_toggle_item, gtk_toggle_button_set_active_item, glade_palette_on_button_toggled,
    gtk_toggle_button_set_active_selector, selector_button_toggled_cb,
      glade_palette_deselect_current_item,
    glade_palette_get_current_item, set_item_active, GLADE_IS_PALETTE, hc, hs, hi, hca, hne,
    Ne.symm hne, ki, kc, item_selected]
  funext r
  by_cases h1 : r = i
  · simp [h1, hne]
  · by_cases h2 : r = c
    · subst h2; simp [h1]
    · have h3 : ¬ c = r := fun h => h2 h.symm
      simp [h1, h2, h3]

/-- Run of the handlers when the current item is toggled off. -/
theorem exec_toggle_off (n mask : Nat) (c : ItemRef) (s : GladePalette)
    (hc : s.current_item = some c) (hs : s.selector_button_active = false)
    (hca : (s.items c).active = true)
    (kc : (s.items c).toggled_connected = true) :
    user_toggle_item (n + 8) mask c s =
      some (item_deselected s [.notify "current-item", .toggled]) := by
  simp [user_toggle_item, gtk_toggle_button_set_active_item, glade_palette_on_button_toggled,
    gtk_toggle_button_set_active_selector, selector_button_toggled_cb,
      glade_palette_deselect_current_item,
    glade_palette_get_current_item, set_item_active, GLADE_IS_PALETTE, hc, hs, hca, kc,
    item_deselected]
  funext r
  by_cases h1 : r = c
  · subst h1; simp
  · have h3 : ¬ c = r := fun h => h1 h.symm
    simp [h1, h3]

/-- Run of the handlers when the selector is clicked while an item is current. -/
theorem exec_selector_deselects (n mask : Nat) (c : ItemRef) (s : GladePalette)
    (hc : s.current_item = some c) (hs : s.selector_button_active = false)
    (hca : (s.items c).active = true)
    (kc : (s.items c).toggled_connected = true) :
    user_toggle_selector (n + 8) mask s =
      some (item_deselected s
        [.notify "current-item", .toggled, .notify "current-item", .toggled]) := by
  simp [user_toggle_selector, gtk_toggle_button_set_active_item, glade_palette_on_button_toggled,
    gtk_toggle_button_set_active_selector, selector_button_toggled_cb,
      glade_palette_deselect_current_item,
    glade_palette_get_current_item, set_item_active, GLADE_IS_PALETTE, hc, hs, hca, kc,
    item_deselected]
  funext r
  by_cases h1 : r = c
  · subst h1; simp
  · have h3 : ¬ c = r := fun h => h1 h.symm
    simp [h1, h3]

/-- Run of the handlers when the selector is clicked while no item is current. -/
theorem exec_selector_stays (n mask : Nat) (s : GladePalette)
    (hc : s.current_item = none) (hs : s.selector_button_active = true) :
    user_toggle_selector (n + 8) mask s = some s := by
  simp [user_toggle_selector, gtk_toggle_button_set_active_item, glade_palette_on_button_toggled,
    gtk_toggle_button_set_active_selector, selector_button_toggled_cb,
      glade_palette_deselect_current_item,
    glade_palette_get_current_item, set_item_active, GLADE_IS_PALETTE, hc, hs]
  cases s
  simp only at hc hs
  simp [hc, hs]

/-- Run of `glade_palette_deselect_current_item` when it deselects an item. -/
theorem exec_deselect (n mask : Nat) (c : ItemRef) (sticky_aware : Bool) (s : GladePalette)
    (hst : (sticky_aware && s.sticky_selection_mode) = false)
    (hc : s.current_item = some c) (hs : s.selector_button_active = false)
    (hca : (s.items c).active = true)
    (kc : (s.items c).toggled_connected = true) :
    glade_palette_deselect_current_item (n + 8) mask .palette_instance sticky_aware s =
      some (item_deselected s
        [.notify "current-item", .toggled, .notify "current-item", .toggled]) := by
  simp [gtk_toggle_button_set_active_item, glade_palette_on_button_toggled,
    gtk_toggle_button_set_active_selector, selector_button_toggled_cb,
      glade_palette_deselect_current_item,
    glade_palette_get_current_item, set_item_active, GLADE_IS_PALETTE, hc, hs, hca, kc,
    item_deselected, hst]
  funext r
  by_cases h1 : r = c
  · subst h1; simp
  · have h3 : ¬ c = r := fun h => h1 h.symm
    simp [h1, h3]

/-- Sticky mode makes a sticky-aware deselection return at once. -/
theorem exec_deselect_sticky (n mask : Nat) (sticky_aware : Bool) (s : GladePalette)
    (hst : (sticky_aware && s.sticky_selection_mode) = true) :
    glade_palette_deselect_current_item (n + 1) mask .palette_instance sticky_aware s = some s := by
  simp [glade_palette_deselect_current_item, GLADE_IS_PALETTE, hst]

/-- Deselecting with no current item returns at once. -/
theorem exec_deselect_none (n mask : Nat) (sticky_aware : Bool) (s : GladePalette)
    (hc : s.current_item = none) :
    glade_palette_deselect_current_item (n + 1) mask .palette_instance sticky_aware s = some s := by
  simp [glade_palette_deselect_current_item, GLADE_IS_PALETTE, hc]

/-! ## The exclusivity invariant -/

/-- Making an item of the palette current keeps the invariant. -/
theorem inv_item_selected {s : GladePalette} (h : PaletteInv s) (mask : Nat) {i : ItemRef}
    (hi : i ∈ palette_items s) (log : List PaletteSignal) :
    PaletteInv (item_selected s mask i log) := by
  obtain ⟨h1, h2, h3, h4⟩ := h
  refine ⟨?_, ?_, ?_, ?_⟩
  · intro j hj
    have hj2 : j ∈ palette_items s := hj
    by_cases e : j = i
    · simp [item_selected, e]
    · have e2 : ¬ i = j := fun h => e h.symm
      by_cases c : s.current_item = some j
      · simp [item_selected, e, c, e2]
      · simp [item_selected, e, c, e2]
        have := (h1 j hj2).not.mpr c
        simpa using this
  · intro j hj
    simp only [item_selected, Option.some.injEq] at hj
    subst hj
    exact hi
  · simp [item_selected]
  · intro j hj
    have hj2 : j ∈ palette_items s := hj
    have k := h4 j hj2
    by_cases e : j = i
    · subst e; simpa [item_selected] using k
    · by_cases c : s.current_item = some j <;> simpa [item_selected, e, c] using k

/-- Deselecting the current item keeps the invariant. -/
theorem inv_item_deselected {s : GladePalette} (h : PaletteInv s) (log : List PaletteSignal) :
    PaletteInv (item_deselected s log) := by
  obtain ⟨h1, h2, h3, h4⟩ := h
  refine ⟨?_, ?_, ?_, ?_⟩
  · intro j hj
    have hj2 : j ∈ palette_items s := hj
    by_cases c : s.current_item = some j
    · simp [item_deselected, c]
    · simp [item_deselected, c]
      have := (h1 j hj2).not.mpr c
      simpa using this
  · intro j hj
    simp [item_deselected] at hj
  · simp [item_deselected]
  · intro j hj
    have hj2 : j ∈ palette_items s := hj
    have k := h4 j hj2
    by_cases c : s.current_item = some j <;> simpa [item_deselected, c] using k

/-- Result of a click on an item button in a state that satisfies the invariant. -/
theorem toggle_item_result {s : GladePalette} (h : PaletteInv s) (n mask : Nat) {b : ItemRef}
    (hb : b ∈ palette_items s) :
    user_toggle_item (n + 8) mask b s =
      some (if s.current_item = some b then
              item_deselected s [.notify "current-item", .toggled]
            else if s.current_item = none then
              item_selected s mask b [.notify "current-item", .toggled]
            else
              item_selected s mask b
                [.notify "current-item", .toggled, .notify "current-item", .toggled]) := by
  obtain ⟨h1, h2, h3, h4⟩ := h
  by_cases c : s.current_item = some b
  · have hs : s.selector_button_active = false := by
      cases hsel : s.selector_button_active with
      | false => rfl
      | true => rw [h3.mp hsel] at c; exact absurd c (by simp)
    rw [if_pos c]
    exact exec_toggle_off n mask b s c hs ((h1 b hb).mpr c) (h4 b hb)
  · rw [if_neg c]
    have hbi : (s.items b).active = false := by
      have := (h1 b hb).not.mpr c
      simpa using this
    cases hc : s.current_item with
    | none =>
      rw [if_pos rfl]
      exact exec_activate n mask b s hc (h3.mpr hc) hbi (h4 b hb)
    | some cur =>
      rw [if_neg (by simp)]
      have hs : s.selector_button_active = false := by
        cases hsel : s.selector_button_active with
        | false => rfl
        | true => rw [h3.mp hsel] at hc; exact absurd hc (by simp)
      have hne : b ≠ cur := fun e => c (by rw [hc, e])
      exact exec_switch n mask b cur s hc hs hbi ((h1 cur (h2 cur hc)).mpr hc) hne (h4 b hb)
        (h4 cur (h2 cur hc))

/-- Result of a click on the selector button in a state that satisfies the invariant. -/
theorem toggle_selector_result {s : GladePalette} (h : PaletteInv s) (n mask : Nat) :
    user_toggle_selector (n + 8) mask s =
      some (if s.current_item = none then s
            else item_deselected s
              [.notify "current-item", .toggled, .notify "current-item", .toggled]) := by
  obtain ⟨h1, h2, h3, h4⟩ := h
  cases hc : s.current_item with
  | none =>
    rw [if_pos rfl]
    exact exec_selector_stays n mask s hc (h3.mpr hc)
  | some cur =>
    rw [if_neg (by simp)]
    have hs : s.selector_button_active = false := by
      cases hsel : s.selector_button_active with
      | false => rfl
      | true => rw [h3.mp hsel] at hc; exact absurd hc (by simp)
    exact exec_selector_deselects n mask cur s hc hs ((h1 cur (h2 cur hc)).mpr hc)
      (h4 cur (h2 cur hc))

/-- Result of `glade_palette_deselect_current_item` in a state that satisfies the
invariant. -/
theorem deselect_result {s : GladePalette} (h : PaletteInv s) (n mask : Nat)
    (sticky_aware : Bool) :
    glade_palette_deselect_current_item (n + 8) mask .palette_instance sticky_aware s =
      some (if (sticky_aware && s.sticky_selection_mode) = true ∨ s.current_item = none then s
            else item_deselected s
              [.notify "current-item", .toggled, .notify "current-item", .toggled]) := by
  obtain ⟨h1, h2, h3, h4⟩ := h
  by_cases hst : (sticky_aware && s.sticky_selection_mode) = true
  · rw [if_pos (Or.inl hst)]
    exact exec_deselect_sticky (n + 7) mask sticky_aware s hst
  · cases hc : s.current_item with
    | none =>
      rw [if_pos (Or.inr rfl)]
      exact exec_deselect_none (n + 7) mask sticky_aware s hc
    | some cur =>
      rw [if_neg (by simp [hst])]
      have hs : s.selector_button_active = false := by
        cases hsel : s.selector_button_active with
        | false => rfl
        | true => rw [h3.mp hsel] at hc; exact absurd hc (by simp)
      exact exec_deselect n mask cur sticky_aware s (by simpa using hst) hc hs
        ((h1 cur (h2 cur hc)).mpr hc) (h4 cur (h2 cur hc))

/-- A click on an item of the palette keeps the invariant, whatever the fuel. -/
theorem inv_toggle_item {s t : GladePalette} (h : PaletteInv s) {fuel mask : Nat} {b : ItemRef}
    (hb : b ∈ palette_items s) (ht : user_toggle_item fuel mask b s = some t) :
    PaletteInv t := by
  have h8 := toggle_item_fuel_mono (Nat.le_add_right fuel 8) ht
  rw [toggle_item_result h fuel mask hb] at h8
  injection h8 with h8
  subst h8
  split
  · exact inv_item_deselected h _
  · split
    · exact inv_item_selected h mask hb _
    · exact inv_item_selected h mask hb _

/-- A click on the selector keeps the invariant, whatever the fuel. -/
theorem inv_toggle_selector {s t : GladePalette} (h : PaletteInv s) {fuel mask : Nat}
    (ht : user_toggle_selector fuel mask s = some t) : PaletteInv t := by
  have h8 := toggle_selector_fuel_mono (Nat.le_add_right fuel 8) ht
  rw [toggle_selector_result h fuel mask] at h8
  injection h8 with h8
  subst h8
  split
  · exact h
  · exact inv_item_deselected h _

/-- A call of `glade_palette_deselect_current_item` keeps the invariant. -/
theorem inv_deselect {s t : GladePalette} (h : PaletteInv s) {fuel mask : Nat}
    {sticky_aware : Bool}
    (ht : glade_palette_deselect_current_item fuel mask .palette_instance sticky_aware s
      = some t) : PaletteInv t := by
  have h8 := deselect_fuel_mono (Nat.le_add_right fuel 8) ht
  rw [deselect_result h fuel mask sticky_aware] at h8
  injection h8 with h8
  subst h8
  split
  · exact h
  · exact inv_item_deselected h _

/-! ## Construction -/

/-- The state and the item `glade_palette_new_item` returns for a palette. -/
theorem new_item_eq (adaptor : GladeWidgetAdaptor) (s : GladePalette) :
    glade_palette_new_item .palette_instance adaptor s =
      ({ s with next_item := s.next_item + 1,
                items := fun r => if r = s.next_item then fresh_item s adaptor else s.items r },
       some s.next_item) := by
  simp only [glade_palette_new_item, GLADE_IS_PALETTE, glade_palette_item_new,
    glade_palette_item_set_appearance, gtk_widget_set_tooltip_text, modify_item, fresh_item]
  simp only [Bool.not_true, Bool.false_eq_true, if_false, Prod.mk.injEq, and_true]
  congr 1
  funext r
  by_cases h : r = s.next_item <;> simp [h]


/-- What the loop of `glade_palette_new_item_group` allocates and what it leaves alone. -/
theorem new_item_group_loop_spec (l : List GladeWidgetAdaptor) :
    ∀ (s : GladePalette) (box : List ItemRef),
      (glade_palette_new_item_group_loop .palette_instance l s box).2 =
        box ++ List.range' s.next_item l.length ∧
      (glade_palette_new_item_group_loop .palette_instance l s box).1.next_item =
        s.next_item + l.length ∧
      (∀ r, r < s.next_item →
        (glade_palette_new_item_group_loop .palette_instance l s box).1.items r = s.items r) ∧
      (List.range' s.next_item l.length).map
          (glade_palette_new_item_group_loop .palette_instance l s box).1.items =
        l.map (fresh_item s) ∧
      palette_core (glade_palette_new_item_group_loop .palette_instance l s box).1 =
        palette_core s ∧
      (glade_palette_new_item_group_loop .palette_instance l s box).1.sections = s.sections := by
  induction l with
  | nil => intro s box; simp [glade_palette_new_item_group_loop]
  | cons a l ih =>
    intro s box
    simp only [glade_palette_new_item_group_loop, new_item_eq]
    obtain ⟨h1, h2, h3, h4, h5, h6⟩ := ih
      { s with next_item := s.next_item + 1,
               items := fun r => if r = s.next_item then fresh_item s a else s.items r,
               size_group := s.size_group ++ [s.next_item] } (box ++ [s.next_item])
    simp only at h1 h2 h3 h4 h5 h6
    refine ⟨?_, ?_, ?_, ?_, ?_, ?_⟩
    · rw [h1]; simp [List.range'_succ]
    · rw [h2]; simp only [List.length_cons]; exact Nat.add_right_comm _ _ _ |>.trans (Nat.add_assoc _ _ _)
    · intro r hr
      rw [h3 r (Nat.lt_succ_of_lt hr)]
      simp [Nat.ne_of_lt hr]
    · simp only [List.length_cons, List.range'_succ, List.map_cons]
      rw [h3 s.next_item (Nat.lt_succ_self _)]
      simp only [if_true]
      congr 1
    · rw [h5]; rfl
    · rw [h6]

/-- The section `glade_palette_append_item_group` appends and the items it allocates. -/
theorem append_item_group_spec (g : GladeWidgetGroup) (s : GladePalette) :
    (glade_palette_append_item_group .palette_instance g s).sections =
      s.sections ++ [{ label := g.title, spacing := 2, use_markup := true, border_width := 0,
                       expanded := g.expanded,
                       children := List.range' s.next_item g.adaptors.length }] ∧
    (glade_palette_append_item_group .palette_instance g s).next_item =
      s.next_item + g.adaptors.length ∧
    (∀ r, r < s.next_item →
      (glade_palette_append_item_group .palette_instance g s).items r = s.items r) ∧
    (List.range' s.next_item g.adaptors.length).map
        (glade_palette_append_item_group .palette_instance g s).items =
      g.adaptors.map (fresh_item s) ∧
    palette_core (glade_palette_append_item_group .palette_instance g s) = palette_core s := by
  obtain ⟨h1, h2, h3, h4, h5, h6⟩ := new_item_group_loop_spec g.adaptors s []
  simp only [glade_palette_append_item_group, glade_palette_new_item_group, GLADE_IS_PALETTE,
    Bool.not_true, Bool.false_eq_true, if_false]
  refine ⟨?_, h2, h3, h4, ?_⟩
  · simp only [h6, h1, List.nil_append]
  · rw [← h5]; rfl

/-- The double loop of `glade_palette_set_catalogs` appends one item group for
each group of `palette_groups`, in order. -/
theorem set_catalogs_eq_foldl (catalogs : List GladeCatalog) (s : GladePalette) :
    glade_palette_set_catalogs .palette_instance catalogs s =
      (palette_groups catalogs).foldl
        (fun acc g => glade_palette_append_item_group .palette_instance g acc)
        { s with catalogs := catalogs } := by
  have inner : ∀ (gs : List GladeWidgetGroup) (acc : GladePalette),
      gs.foldl (fun acc group =>
          if group.adaptors ≠ [] then
            glade_palette_append_item_group .palette_instance group acc
          else acc) acc =
        (gs.filter (fun g => decide (g.adaptors ≠ []))).foldl
          (fun acc g => glade_palette_append_item_group .palette_instance g acc) acc := by
    intro gs
    induction gs with
    | nil => intro acc; rfl
    | cons g gs ih =>
      intro acc
      rw [List.foldl_cons, ih]
      by_cases hg : g.adaptors ≠ []
      · rw [if_pos hg, List.filter_cons_of_pos (by simpa using hg), List.foldl_cons]
      · rw [if_neg hg, List.filter_cons_of_neg (by simpa using hg)]
  have outer : ∀ (cs : List GladeCatalog) (acc : GladePalette),
      cs.foldl (fun acc catalog =>
          catalog.widget_groups.foldl (fun acc group =>
            if group.adaptors ≠ [] then
              glade_palette_append_item_group .palette_instance group acc
            else acc) acc) acc =
        (palette_groups cs).foldl
          (fun acc g => glade_palette_append_item_group .palette_instance g acc) acc := by
    intro cs
    induction cs with
    | nil => intro acc; rfl
    | cons c cs ih =>
      intro acc
      rw [List.foldl_cons, ih, inner]
      unfold palette_groups
      rw [List.flatMap_cons, List.filter_append, List.foldl_append]
  simp only [glade_palette_set_catalogs, GLADE_IS_PALETTE, Bool.not_true, Bool.false_eq_true,
    if_false]
  exact outer catalogs _

/-- Induction over the item groups appended by `glade_palette_set_catalogs`. -/
theorem set_catalogs_induction (P : GladePalette → Prop) (catalogs : List GladeCatalog)
    (s : GladePalette) (h0 : P { s with catalogs := catalogs })
    (hstep : ∀ g t, P t → P (glade_palette_append_item_group .palette_instance g t)) :
    P (glade_palette_set_catalogs .palette_instance catalogs s) := by
  rw [set_catalogs_eq_foldl]
  generalize palette_groups catalogs = gs
  generalize ({ s with catalogs := catalogs } : GladePalette) = acc at h0 ⊢
  induction gs generalizing acc with
  | nil => exact h0
  | cons g gs ih => exact ih _ (hstep g acc h0)

/-- Fields that two states with the same core share. -/
theorem core_fields {t u : GladePalette} (h : palette_core t = palette_core u) :
    t.current_item = u.current_item ∧ t.selector_button_active = u.selector_button_active ∧
    t.item_appearance = u.item_appearance ∧ t.use_small_item_icons = u.use_small_item_icons ∧
    t.sticky_selection_mode = u.sticky_selection_mode ∧ t.pointer_mode = u.pointer_mode ∧
    t.emitted = u.emitted ∧ t.new_item_use_small_icon = u.new_item_use_small_icon ∧
    t.new_item_appearance = u.new_item_appearance ∧ t.catalogs = u.catalogs ∧
    t.selector_hbox_visible = u.selector_hbox_visible ∧
    t.selector_button_visible = u.selector_button_visible := by
  simp only [palette_core, GladePalette.mk.injEq, true_and, and_true] at h
  obtain ⟨a1, a2, a3, a4, a5, a6, a7, a8, a9, a10, a11, a12⟩ := h
  exact ⟨a5, a4, a6, a7, a8, a9, a10, a12, a11, a1, a2, a3⟩

/-- The items of the palette after an item group was appended. -/
theorem palette_items_append (g : GladeWidgetGroup) (s : GladePalette) :
    palette_items (glade_palette_append_item_group .palette_instance g s) =
      palette_items s ++ List.range' s.next_item g.adaptors.length := by
  simp [palette_items, (append_item_group_spec g s).1]

/-- A new item of an appended group carries the record of a fresh item. -/
theorem append_item_group_new (g : GladeWidgetGroup) (s : GladePalette) {i : ItemRef}
    (hi : i ∈ List.range' s.next_item g.adaptors.length) :
    ∃ a ∈ g.adaptors,
      (glade_palette_append_item_group .palette_instance g s).items i = fresh_item s a := by
  have h4 := (append_item_group_spec g s).2.2.2.1
  have hm : (glade_palette_append_item_group .palette_instance g s).items i ∈
      (List.range' s.next_item g.adaptors.length).map
        (glade_palette_append_item_group .palette_instance g s).items :=
    List.mem_map_of_mem _ hi
  rw [h4] at hm
  obtain ⟨a, ha, e⟩ := List.mem_map.mp hm
  exact ⟨a, ha, e.symm⟩

/-- Appending an item group keeps a fresh palette fresh. -/
theorem fresh_append (g : GladeWidgetGroup) {t : GladePalette} (h : PaletteFresh t) :
    PaletteFresh (glade_palette_append_item_group .palette_instance g t) := by
  obtain ⟨h1, h2, h3, h4, h5⟩ := h
  obtain ⟨_, k2, k3, _, k5⟩ := append_item_group_spec g t
  obtain ⟨c1, c2, c3, c4, _⟩ := core_fields k5
  refine ⟨?_, c1.trans h2, c2.trans h3, c3.trans h4, c4.trans h5⟩
  intro i hi
  rw [palette_items_append] at hi
  rw [k2, c3]
  rcases List.mem_append.mp hi with ho | hn
  · obtain ⟨a1, a2, a3, a4, a5⟩ := h1 i ho
    rw [k3 i a1]
    exact ⟨Nat.lt_of_lt_of_le a1 (Nat.le_add_right _ _), a2, a3, a4, a5⟩
  · obtain ⟨a, _, e⟩ := append_item_group_new g t hn
    rw [e]
    refine ⟨?_, rfl, rfl, rfl, rfl⟩
    have := (List.mem_range'_1.mp hn).2
    exact this

/-- A palette is fresh after `glade_palette_set_catalogs` on a new instance. -/
theorem fresh_set_catalogs (mem : GladePalette) (catalogs : List GladeCatalog) :
    PaletteFresh
      (glade_palette_set_catalogs .palette_instance catalogs (glade_palette_init mem)) := by
  apply set_catalogs_induction
  · refine ⟨?_, rfl, rfl, rfl, rfl⟩
    intro i hi
    simp [palette_items, glade_palette_init] at hi
  · intro g t ht
    exact fresh_append g ht

/-- A fresh palette satisfies the exclusivity invariant. -/
theorem inv_of_fresh {t : GladePalette} (h : PaletteFresh t) : PaletteInv t := by
  obtain ⟨h1, h2, h3, _, _⟩ := h
  refine ⟨?_, ?_, ?_, ?_⟩
  · intro i hi
    rw [(h1 i hi).2.1, h2]
    simp
  · intro i hi
    rw [h2] at hi
    exact absurd hi (by simp)
  · rw [h2, h3]
    simp
  · intro i hi
    exact (h1 i hi).2.2.2.2

/-- The invariant holds in every reachable state of the palette. -/
theorem inv_of_reachable {s : GladePalette} (h : PaletteReachable s) : PaletteInv s := by
  induction h with
  | init mem catalogs => exact inv_of_fresh (fresh_set_catalogs mem catalogs)
  | toggle_item fuel mask button _ hb ht ih => exact inv_toggle_item ih hb ht
  | toggle_selector fuel mask _ ht ih => exact inv_toggle_selector ih ht
  | deselect fuel mask sticky_aware _ ht ih => exact inv_deselect ih ht

/-! ## Claims on the toggle protocol -/

/-- The palette of "Containers" with Box selected is reachable. -/
theorem box_selected_reachable : PaletteReachable box_selected_palette :=
  PaletteReachable.toggle_item 8 0 0
    (PaletteReachable.init blank_palette [containers_catalog])
    (by decide) (exec_activate 0 0 0 containers_palette rfl rfl rfl rfl)

/-- The palette of "Containers" with Box selected in sticky mode is reachable. -/
theorem box_sticky_reachable : PaletteReachable box_sticky_palette :=
  PaletteReachable.toggle_item 8 GDK_CONTROL_MASK 0
    (PaletteReachable.init blank_palette [containers_catalog])
    (by decide) (exec_activate 0 GDK_CONTROL_MASK 0 containers_palette rfl rfl rfl rfl)

/-- C1: in every state of the palette reachable from its construction by clicks on
item buttons, clicks on the selector button and calls of
`glade_palette_deselect_current_item`, at most one item button is active, and an
active item button is the current item. -/
theorem palette_exclusivity (s : GladePalette) (h : PaletteReachable s) :
    (∀ i ∈ palette_items s, ∀ j ∈ palette_items s,
      (s.items i).active = true → (s.items j).active = true → i = j) ∧
    (∀ i ∈ palette_items s, (s.items i).active = true → s.current_item = some i) := by
  obtain ⟨h1, _, _⟩ := inv_of_reachable h
  refine ⟨?_, fun i hi ha => (h1 i hi).mp ha⟩
  intro i hi j hj ai aj
  have e1 := (h1 i hi).mp ai
  have e2 := (h1 j hj).mp aj
  rw [e1] at e2
  exact Option.some.inj e2

/-- Witness of C1: the palette of "Containers" after a click on Box. -/
theorem palette_exclusivity_witness :
    PaletteReachable box_selected_palette ∧
    ((∀ i ∈ palette_items box_selected_palette, ∀ j ∈ palette_items box_selected_palette,
        (box_selected_palette.items i).active = true →
        (box_selected_palette.items j).active = true → i = j) ∧
     (∀ i ∈ palette_items box_selected_palette,
        (box_selected_palette.items i).active = true →
        box_selected_palette.current_item = some i)) :=
  ⟨box_selected_reachable, palette_exclusivity _ box_selected_reachable⟩

/-- C2: for two distinct items A and B of a newly built palette, a click on A and
then a click on B end with B active, A inactive, the selector inactive, the
pointer mode add-widget and B's adaptor as the current item; after the click on A
alone the current item is A's adaptor and the pointer mode is add-widget. -/
theorem activate_then_activate (mem : GladePalette) (catalogs : List GladeCatalog)
    (A B : ItemRef) (fuel1 fuel2 mask1 mask2 : Nat)
    (hA : A ∈ palette_items
      (glade_palette_set_catalogs .palette_instance catalogs (glade_palette_init mem)))
    (hB : B ∈ palette_items
      (glade_palette_set_catalogs .palette_instance catalogs (glade_palette_init mem)))
    (hAB : A ≠ B) (h1 : 8 ≤ fuel1) (h2 : 8 ≤ fuel2) :
    ∃ s1 s2,
      user_toggle_item fuel1 mask1 A
        (glade_palette_set_catalogs .palette_instance catalogs (glade_palette_init mem))
        = some s1 ∧
      user_toggle_item fuel2 mask2 B s1 = some s2 ∧
      s1.pointer_mode = .GLADE_POINTER_ADD_WIDGET ∧
      glade_palette_get_current_item .palette_instance s1 =
        some ((glade_palette_set_catalogs .palette_instance catalogs
          (glade_palette_init mem)).items A).adaptor ∧
      (s2.items B).active = true ∧ (s2.items A).active = false ∧
      s2.selector_button_active = false ∧
      s2.pointer_mode = .GLADE_POINTER_ADD_WIDGET ∧
      glade_palette_get_current_item .palette_instance s2 =
        some ((glade_palette_set_catalogs .palette_instance catalogs
          (glade_palette_init mem)).items B).adaptor := by
  obtain ⟨n1, rfl⟩ := Nat.exists_eq_add_of_le' h1
  obtain ⟨n2, rfl⟩ := Nat.exists_eq_add_of_le' h2
  generalize hs0 : glade_palette_set_catalogs .palette_instance catalogs
    (glade_palette_init mem) = s0 at hA hB ⊢
  have hf : PaletteFresh s0 := hs0 ▸ fresh_set_catalogs mem catalogs
  have hinv := inv_of_fresh hf
  have hc : s0.current_item = none := hf.2.1
  have e1 := toggle_item_result hinv n1 mask1 hA
  rw [if_neg (by rw [hc]; simp), if_pos hc] at e1
  have hinv1 := inv_item_selected hinv mask1 hA [.notify "current-item", .toggled]
  have e2 := toggle_item_result hinv1 n2 mask2 (b := B) hB
  have hBA : ¬ B = A := fun e => hAB e.symm
  rw [if_neg (by simp [item_selected, hAB]), if_neg (by simp [item_selected])] at e2
  refine ⟨_, _, e1, e2, ?_⟩
  simp [item_selected, glade_palette_get_current_item, GLADE_IS_PALETTE, hAB, hBA, hc]

/-- Witness of C2: the group "Containers" with Box and Frame; Box is clicked, then
Frame. -/
theorem activate_then_activate_witness :
    (0 : ItemRef) ∈ palette_items containers_palette ∧
    (1 : ItemRef) ∈ palette_items containers_palette ∧
    (containers_palette.items 0).adaptor = box_adaptor ∧
    (containers_palette.items 1).adaptor = frame_adaptor ∧
    ∃ s1 s2,
      user_toggle_item 8 0 0 containers_palette = some s1 ∧
      user_toggle_item 8 0 1 s1 = some s2 ∧
      s1.pointer_mode = .GLADE_POINTER_ADD_WIDGET ∧
      glade_palette_get_current_item .palette_instance s1 =
        some (containers_palette.items 0).adaptor ∧
      (s2.items 1).active = true ∧ (s2.items 0).active = false ∧
      s2.selector_button_active = false ∧
      s2.pointer_mode = .GLADE_POINTER_ADD_WIDGET ∧
      glade_palette_get_current_item .palette_instance s2 =
        some (containers_palette.items 1).adaptor :=
  ⟨by decide, by decide, by decide, by decide,
   activate_then_activate blank_palette [containers_catalog] 0 1 8 8 0 0
     (by decide) (by decide) (by decide) (by decide) (by decide)⟩

/-- No item of the palette is active once the current item was deselected. -/
theorem deselected_all_inactive {s : GladePalette} (h : PaletteInv s)
    (log : List PaletteSignal) :
    ∀ i ∈ palette_items (item_deselected s log),
      ((item_deselected s log).items i).active = false := by
  intro i hi
  have h1 := (inv_item_deselected h log).1 i hi
  cases ha : ((item_deselected s log).items i).active with
  | false => rfl
  | true => exact absurd (h1.mp ha) (by simp [item_deselected])

/-! ## Claims on construction and appearance -/

/-- Appending the item group of `g` extends what the sections show by `g`. -/
theorem sections_show_append (g : GladeWidgetGroup) {gs : List GladeWidgetGroup}
    {t : GladePalette} (h : SectionsShow gs t) :
    SectionsShow (gs ++ [g]) (glade_palette_append_item_group .palette_instance g t) := by
  obtain ⟨h1, h2, h3⟩ := h
  obtain ⟨k1, k2, k3, k4, _⟩ := append_item_group_spec g t
  refine ⟨?_, ?_, ?_⟩
  · rw [k1, List.map_append, List.map_append, ← h1]
    congr 1
    · apply List.map_congr_left
      intro e he
      simp only [section_view, Prod.mk.injEq, true_and]
      apply List.map_congr_left
      intro i hi
      have hi2 : i ∈ palette_items t := List.mem_flatMap.mpr ⟨e, he, hi⟩
      rw [k3 i (h2 i hi2)]
    · simp only [List.map_cons, List.map_nil, section_view, List.cons.injEq, Prod.mk.injEq,
        true_and, and_true]
      have : (List.range' t.next_item g.adaptors.length).map
            (fun i => ((glade_palette_append_item_group .palette_instance g t).items i).adaptor)
          = ((List.range' t.next_item g.adaptors.length).map
              (glade_palette_append_item_group .palette_instance g t).items).map
              GladePaletteItem.adaptor := by
        rw [List.map_map]; rfl
      rw [this, k4, List.map_map]
      simp [fresh_item, Function.comp_def]
  · intro i hi
    rw [palette_items_append] at hi
    rw [k2]
    rcases List.mem_append.mp hi with ho | hn
    · exact Nat.lt_of_lt_of_le (h2 i ho) (Nat.le_add_right _ _)
    · exact (List.mem_range'_1.mp hn).2
  · rw [palette_items_append]
    refine List.nodup_append.mpr ⟨h3, List.nodup_range' _ _, ?_⟩
    intro i ho hn
    exact absurd (h2 i ho) (Nat.not_lt.mpr (List.mem_range'_1.mp hn).1)

/-- Appending the item groups of `gs2` one after the other extends what the
sections show by `gs2`. -/
theorem sections_show_foldl (gs2 : List GladeWidgetGroup) :
    ∀ (gs : List GladeWidgetGroup) (t : GladePalette), SectionsShow gs t →
      SectionsShow (gs ++ gs2)
        (gs2.foldl (fun acc g => glade_palette_append_item_group .palette_instance g acc) t) := by
  induction gs2 with
  | nil => intro gs t h; simpa using h
  | cons g gs2 ih =>
    intro gs t h
    have := ih (gs ++ [g]) _ (sections_show_append g h)
    simpa using this

/-- C6, as the code has it: after `glade_palette_set_catalogs` on a new palette
the sections are, in catalog order and within a catalog in group order, one
expander for each widget group that has at least one adaptor (a group without
adaptors gets no section); each section has the title and expanded flag of its
group and holds exactly one item per adaptor of the group, in the order of the
group's adaptor list, and no item belongs to two places. -/
theorem sections_of_set_catalogs (mem : GladePalette) (catalogs : List GladeCatalog) :
    (glade_palette_set_catalogs .palette_instance catalogs
        (glade_palette_init mem)).sections.map
      (section_view (glade_palette_set_catalogs .palette_instance catalogs
        (glade_palette_init mem))) =
      (palette_groups catalogs).map (fun g => (g.title, g.expanded, g.adaptors)) ∧
    (palette_items (glade_palette_set_catalogs .palette_instance catalogs
        (glade_palette_init mem))).Nodup := by
  have h0 : SectionsShow [] ({ glade_palette_init mem with catalogs := catalogs }) := by
    refine ⟨rfl, ?_, ?_⟩
    · intro i hi
      simp [palette_items, glade_palette_init] at hi
    · simp [palette_items, glade_palette_init]
  have h := sections_show_foldl (palette_groups catalogs) [] _ h0
  rw [← set_catalogs_eq_foldl] at h
  exact ⟨by simpa using h.1, h.2.2⟩

/-- Counterexample to C6 as stated: the catalog has two widget groups, the palette
one section. -/
theorem sections_of_set_catalogs_counterexample :
    ([deprecated_catalog].flatMap (fun c => c.widget_groups)).length = 2 ∧
    (glade_palette_set_catalogs .palette_instance [deprecated_catalog]
      (glade_palette_init blank_palette)).sections.length = 1 ∧
    ¬ ((glade_palette_set_catalogs .palette_instance [deprecated_catalog]
          (glade_palette_init blank_palette)).sections.map
        (section_view (glade_palette_set_catalogs .palette_instance [deprecated_catalog]
          (glade_palette_init blank_palette))) =
        ([deprecated_catalog].flatMap (fun c => c.widget_groups)).map
          (fun g => (g.title, g.expanded, g.adaptors))) := by
  decide

/-- The inner loop of `glade_palette_update_appearance` restyles the listed items. -/
theorem update_items_foldl (show_tooltips : Bool) (l : List ItemRef) :
    ∀ acc : GladePalette,
      l.foldl (fun acc i =>
          g_object_set_has_tooltip i show_tooltips
            (glade_palette_item_set_use_small_icon i acc.use_small_item_icons
              (glade_palette_item_set_appearance i acc.item_appearance acc))) acc =
        { acc with items := fun r =>
            if r ∈ l then
              restyle acc.item_appearance acc.use_small_item_icons show_tooltips (acc.items r)
            else acc.items r } := by
  induction l with
  | nil => intro acc; simp
  | cons i l ih =>
    intro acc
    rw [List.foldl_cons, ih]
    simp only [g_object_set_has_tooltip, glade_palette_item_set_use_small_icon,
      glade_palette_item_set_appearance, modify_item, GladePalette.mk.injEq, true_and, and_true]
    funext r
    by_cases h1 : r = i
    · subst h1
      by_cases h2 : r ∈ l <;> simp [h2, restyle]
    · by_cases h2 : r ∈ l <;> simp [h1, h2, restyle]

/-- The outer loop of `glade_palette_update_appearance` restyles the items of the
listed sections. -/
theorem update_sections_foldl (show_tooltips : Bool) (secs : List GladePaletteExpander) :
    ∀ acc : GladePalette,
      secs.foldl (fun acc sec =>
          sec.children.foldl (fun acc i =>
            g_object_set_has_tooltip i show_tooltips
              (glade_palette_item_set_use_small_icon i acc.use_small_item_icons
                (glade_palette_item_set_appearance i acc.item_appearance acc))) acc) acc =
        { acc with items := fun r =>
            if r ∈ List.flatMap secs (fun e => e.children) then
              restyle acc.item_appearance acc.use_small_item_icons show_tooltips (acc.items r)
            else acc.items r } := by
  induction secs with
  | nil => intro acc; simp
  | cons e secs ih =>
    intro acc
    rw [List.foldl_cons, update_items_foldl, ih]
    simp only [GladePalette.mk.injEq, true_and, and_true]
    funext r
    by_cases h1 : r ∈ e.children <;>
      by_cases h2 : r ∈ List.flatMap secs (fun e => e.children) <;> simp [h1, h2, restyle]

/-- Closed form of `glade_palette_update_appearance`: every item of the palette
gets the appearance and small-icon flag of the palette, and shows its tooltip
exactly in icon-only mode; nothing else changes. -/
theorem update_appearance_eq (s : GladePalette) :
    glade_palette_update_appearance s =
      { s with
        items := fun r =>
          if r ∈ palette_items s then
            restyle s.item_appearance s.use_small_item_icons
              (s.item_appearance == .GLADE_ITEM_ICON_ONLY) (s.items r)
          else s.items r } := by
  simp only [glade_palette_update_appearance, palette_items]
  exact update_sections_foldl _ _ _

/-- The palette `glade_palette_new` returns is the new instance after
`glade_palette_set_catalogs`. -/
theorem glade_palette_new_eq (catalogs : List GladeCatalog) (mem : GladePalette)
    (h : catalogs ≠ []) :
    glade_palette_new catalogs mem =
      some (glade_palette_set_catalogs .palette_instance catalogs (glade_palette_init mem)) := by
  have hf := fresh_set_catalogs mem catalogs
  have e1 : g_object_set_property "catalogs" (.catalogs catalogs) (glade_palette_init mem) =
      glade_palette_set_catalogs .palette_instance catalogs (glade_palette_init mem) := by
    simp [g_object_set_property, glade_palette_class_init, glade_palette_set_property,
      g_value_get_pointer, List.find?]
  have e2 : ∀ t : GladePalette, t.item_appearance = .GLADE_ITEM_ICON_ONLY →
      g_object_set_property "item-appearance" (.enum .GLADE_ITEM_ICON_ONLY) t = t := by
    intro t ht
    simp [g_object_set_property, glade_palette_class_init, glade_palette_set_property,
      g_value_get_enum, List.find?, glade_palette_set_item_appearance, ht]
  simp only [glade_palette_new, h, if_false]
  rw [e1, e2 _ hf.2.2.2.1]

/-- Closed form of `glade_palette_set_item_appearance` when the value changes. -/
theorem set_item_appearance_eq (a : GladeItemAppearance) (s : GladePalette)
    (h : s.item_appearance ≠ a) :
    glade_palette_set_item_appearance .palette_instance a s =
      { s with
        item_appearance := a,
        items := fun r =>
          if r ∈ palette_items s then
            restyle a s.use_small_item_icons (a == .GLADE_ITEM_ICON_ONLY) (s.items r)
          else s.items r,
        emitted := s.emitted ++ [.notify "item-appearance"] } := by
  simp only [glade_palette_set_item_appearance, GLADE_IS_PALETTE, Bool.not_true,
    Bool.false_eq_true, if_false, h, ne_eq, not_false_eq_true, if_true, update_appearance_eq]
  rfl

/-- Closed form of `glade_palette_set_use_small_item_icons` when the value changes. -/
theorem set_use_small_item_icons_eq (b : Bool) (s : GladePalette)
    (h : s.use_small_item_icons ≠ b) :
    glade_palette_set_use_small_item_icons .palette_instance b s =
      { s with
        use_small_item_icons := b,
        items := fun r =>
          if r ∈ palette_items s then
            restyle s.item_appearance b (s.item_appearance == .GLADE_ITEM_ICON_ONLY) (s.items r)
          else s.items r,
        emitted := s.emitted ++ [.notify "use-small-item-icons"] } := by
  simp only [glade_palette_set_use_small_item_icons, GLADE_IS_PALETTE, Bool.not_true,
    Bool.false_eq_true, if_false, h, ne_eq, not_false_eq_true, if_true, update_appearance_eq]
  rfl

/-- A setter called with the value the palette already has returns its state. -/
theorem set_item_appearance_same (s : GladePalette) :
    glade_palette_set_item_appearance .palette_instance s.item_appearance s = s := by
  simp [glade_palette_set_item_appearance]

/-- A setter called with the flag the palette already has returns its state. -/
theorem set_use_small_item_icons_same (s : GladePalette) :
    glade_palette_set_use_small_item_icons .palette_instance s.use_small_item_icons s = s := by
  simp [glade_palette_set_use_small_item_icons]

/-- After a call of `glade_palette_set_item_appearance` that changes the value,
every item has the display state of the palette. -/
theorem set_item_appearance_styles (a : GladeItemAppearance) (s : GladePalette)
    (h : s.item_appearance ≠ a) :
    (glade_palette_set_item_appearance .palette_instance a s).item_appearance = a ∧
    (∀ i ∈ palette_items (glade_palette_set_item_appearance .palette_instance a s),
      ((glade_palette_set_item_appearance .palette_instance a s).items i).appearance = a) ∧
    SmallIconOk (glade_palette_set_item_appearance .palette_instance a s) ∧
    TooltipOk (glade_palette_set_item_appearance .palette_instance a s) := by
  rw [set_item_appearance_eq a s h]
  refine ⟨rfl, ?_, ?_, ?_⟩
  · intro i hi
    have hi2 : i ∈ palette_items s := hi
    simp [hi2, restyle]
  · intro i hi
    have hi2 : i ∈ palette_items s := hi
    simp [hi2, restyle]
  · intro i hi
    have hi2 : i ∈ palette_items s := hi
    simp [hi2, restyle]

/-- After a call of `glade_palette_set_use_small_item_icons` that changes the
value, every item has the display state of the palette. -/
theorem set_use_small_item_icons_styles (b : Bool) (s : GladePalette)
    (h : s.use_small_item_icons ≠ b) :
    (glade_palette_set_use_small_item_icons .palette_instance b s).use_small_item_icons = b ∧
    (glade_palette_set_use_small_item_icons .palette_instance b s).item_appearance =
      s.item_appearance ∧
    (∀ i ∈ palette_items (glade_palette_set_use_small_item_icons .palette_instance b s),
      ((glade_palette_set_use_small_item_icons .palette_instance b s).items i).appearance =
        s.item_appearance) ∧
    SmallIconOk (glade_palette_set_use_small_item_icons .palette_instance b s) ∧
    TooltipOk (glade_palette_set_use_small_item_icons .palette_instance b s) := by
  rw [set_use_small_item_icons_eq b s h]
  refine ⟨rfl, rfl, ?_, ?_, ?_⟩
  · intro i hi
    have hi2 : i ∈ palette_items s := hi
    simp [hi2, restyle]
  · intro i hi
    have hi2 : i ∈ palette_items s := hi
    simp [hi2, restyle]
  · intro i hi
    have hi2 : i ∈ palette_items s := hi
    simp [hi2, restyle]

/-- The appearance of the palette after one call. -/
theorem item_appearance_step (op : AppearanceOp) (s : GladePalette) :
    (appearance_step s op).item_appearance =
      last_item_appearance s.item_appearance [op] ∧
    (appearance_step s op).use_small_item_icons =
      last_use_small_item_icons s.use_small_item_icons [op] := by
  cases op with
  | set_item_appearance a =>
    simp only [appearance_step, last_item_appearance, last_use_small_item_icons,
      List.foldl_cons, List.foldl_nil]
    by_cases hc : s.item_appearance = a
    · subst hc; rw [set_item_appearance_same]; exact ⟨rfl, rfl⟩
    · rw [set_item_appearance_eq a s hc]; exact ⟨rfl, rfl⟩
  | set_use_small_item_icons b =>
    simp only [appearance_step, last_item_appearance, last_use_small_item_icons,
      List.foldl_cons, List.foldl_nil]
    by_cases hc : s.use_small_item_icons = b
    · subst hc; rw [set_use_small_item_icons_same]; exact ⟨rfl, rfl⟩
    · rw [set_use_small_item_icons_eq b s hc]; exact ⟨rfl, rfl⟩

/-- The appearance and the small-icon flag of the palette after a sequence of
calls are the values last set. -/
theorem item_appearance_run (ops : List AppearanceOp) :
    ∀ s : GladePalette,
      (appearance_run ops s).item_appearance = last_item_appearance s.item_appearance ops ∧
      (appearance_run ops s).use_small_item_icons =
        last_use_small_item_icons s.use_small_item_icons ops := by
  induction ops with
  | nil => intro s; exact ⟨rfl, rfl⟩
  | cons op ops ih =>
    intro s
    obtain ⟨e1, e2⟩ := ih (appearance_step s op)
    obtain ⟨f1, f2⟩ := item_appearance_step op s
    simp only [appearance_run, List.foldl_cons] at e1 e2 ⊢
    rw [e1, e2, f1, f2]
    exact ⟨rfl, rfl⟩

/-- The setters keep the small-icon flags of the items equal to the palette's. -/
theorem small_icon_ok_setters {s : GladePalette} (h : SmallIconOk s)
    (a : GladeItemAppearance) (b : Bool) :
    SmallIconOk (glade_palette_set_item_appearance .palette_instance a s) ∧
    SmallIconOk (glade_palette_set_use_small_item_icons .palette_instance b s) := by
  refine ⟨?_, ?_⟩
  · by_cases hc : s.item_appearance = a
    · subst hc; rw [set_item_appearance_same]; exact h
    · exact (set_item_appearance_styles a s hc).2.2.1
  · by_cases hc : s.use_small_item_icons = b
    · subst hc; rw [set_use_small_item_icons_same]; exact h
    · exact (set_use_small_item_icons_styles b s hc).2.2.2.1

/-- Items created while the flag of the palette equals the flag of a new item
agree with the palette. -/
theorem small_icon_ok_created (groups : List GladeWidgetGroup) :
    ∀ s : GladePalette, s.new_item_use_small_icon = s.use_small_item_icons →
      (∀ i ∈ palette_items s, i < s.next_item) → SmallIconOk s →
      SmallIconOk
        (groups.foldl
          (fun acc g => glade_palette_append_item_group .palette_instance g acc) s) := by
  induction groups with
  | nil => intro s _ _ h; exact h
  | cons g groups ih =>
    intro s hd ha h
    obtain ⟨_, k2, k3, _, k5⟩ := append_item_group_spec g s
    obtain ⟨_, _, _, c4, _, _, _, c8, _⟩ := core_fields k5
    simp only [List.foldl_cons]
    apply ih
    · rw [c8, c4]; exact hd
    · intro i hi
      rw [palette_items_append] at hi
      rw [k2]
      rcases List.mem_append.mp hi with ho | hn
      · exact Nat.lt_of_lt_of_le (ha i ho) (Nat.le_add_right _ _)
      · exact (List.mem_range'_1.mp hn).2
    · intro i hi
      rw [palette_items_append] at hi
      rw [c4]
      rcases List.mem_append.mp hi with ho | hn
      · rw [k3 i (ha i ho)]; exact h i ho
      · obtain ⟨a, _, e⟩ := append_item_group_new g s hn
        rw [e]; exact hd

/-- C8: after every call of `glade_palette_set_item_appearance` or
`glade_palette_set_use_small_item_icons` that changes a value, every item of the
palette has its has-tooltip flag set exactly when the item appearance of the
palette is icon-only; the same holds for the palette `glade_palette_new` returns. -/
theorem tooltips_follow_appearance (s : GladePalette) (a : GladeItemAppearance) (b : Bool)
    (catalogs : List GladeCatalog) (mem : GladePalette) :
    (s.item_appearance ≠ a →
      TooltipOk (glade_palette_set_item_appearance .palette_instance a s)) ∧
    (s.use_small_item_icons ≠ b →
      TooltipOk (glade_palette_set_use_small_item_icons .palette_instance b s)) ∧
    (∀ t, glade_palette_new catalogs mem = some t → TooltipOk t) := by
  refine ⟨fun h => (set_item_appearance_styles a s h).2.2.2,
    fun h => (set_use_small_item_icons_styles b s h).2.2.2.2, ?_⟩
  intro t ht
  have hne : catalogs ≠ [] := by
    intro e
    simp [glade_palette_new, e] at ht
  rw [glade_palette_new_eq catalogs mem hne] at ht
  injection ht with ht
  subst ht
  obtain ⟨h1, _, _, h4, _⟩ := fresh_set_catalogs mem catalogs
  intro i hi
  rw [(h1 i hi).2.2.1, h4]
  simp

/-- Witness of C8: the palette of "Containers" is switched to label-only and its
small icons are switched on; it is also what `glade_palette_new` returns. -/
theorem tooltips_follow_appearance_witness :
    containers_palette.item_appearance ≠ .GLADE_ITEM_LABEL_ONLY ∧
    containers_palette.use_small_item_icons ≠ true ∧
    glade_palette_new [containers_catalog] blank_palette = some containers_palette ∧
    TooltipOk (glade_palette_set_item_appearance .palette_instance .GLADE_ITEM_LABEL_ONLY
      containers_palette) ∧
    TooltipOk (glade_palette_set_use_small_item_icons .palette_instance true
      containers_palette) ∧
    TooltipOk containers_palette :=
  ⟨by decide, by decide, glade_palette_new_eq _ _ (by decide),
   (tooltips_follow_appearance containers_palette .GLADE_ITEM_LABEL_ONLY true
      [containers_catalog] blank_palette).1 (by decide),
   (tooltips_follow_appearance containers_palette .GLADE_ITEM_LABEL_ONLY true
      [containers_catalog] blank_palette).2.1 (by decide),
   (tooltips_follow_appearance containers_palette .GLADE_ITEM_LABEL_ONLY true
      [containers_catalog] blank_palette).2.2 containers_palette
      (glade_palette_new_eq _ _ (by decide))⟩

/-- C9: with a `palette` argument that is `NULL` or not a palette, the three
setters and `glade_palette_deselect_current_item` return the state unchanged,
`glade_palette_get_current_item` returns `NULL`,
`glade_palette_get_item_appearance` returns `GLADE_ITEM_ICON_ONLY`, the two boolean
getters return `FALSE`; and `glade_palette_new (NULL)` returns `NULL`. -/
theorem invalid_palette_argument (palette : PaletteArg)
    (h : palette = .null ∨ palette = .other_instance) (s : GladePalette)
    (a : GladeItemAppearance) (b c sticky_aware : Bool) (fuel mask : Nat) (hf : 1 ≤ fuel)
    (mem : GladePalette) :
    glade_palette_set_item_appearance palette a s = s ∧
    glade_palette_set_use_small_item_icons palette b s = s ∧
    glade_palette_set_show_selector_button palette c s = s ∧
    glade_palette_deselect_current_item fuel mask palette sticky_aware s = some s ∧
    glade_palette_get_current_item palette s = none ∧
    glade_palette_get_item_appearance palette s = .GLADE_ITEM_ICON_ONLY ∧
    glade_palette_get_use_small_item_icons palette s = false ∧
    glade_palette_get_show_selector_button palette s = false ∧
    glade_palette_new [] mem = none := by
  obtain ⟨n, rfl⟩ := Nat.exists_eq_add_of_le' hf
  have hp : GLADE_IS_PALETTE palette = false := by
    rcases h with h | h <;> subst h <;> rfl
  simp [glade_palette_set_item_appearance, glade_palette_set_use_small_item_icons,
    glade_palette_set_show_selector_button, glade_palette_deselect_current_item,
    glade_palette_get_current_item, glade_palette_get_item_appearance,
    glade_palette_get_use_small_item_icons, glade_palette_get_show_selector_button,
    glade_palette_new, hp]

/-- Witness of C9: the entry points called with `NULL` while Box is current in the
palette of "Containers", whose small icons and selector they would change. -/
theorem invalid_palette_argument_witness :
    glade_palette_set_item_appearance .null .GLADE_ITEM_LABEL_ONLY box_selected_palette
      = box_selected_palette ∧
    glade_palette_set_use_small_item_icons .null true box_selected_palette
      = box_selected_palette ∧
    glade_palette_set_show_selector_button .null false box_selected_palette
      = box_selected_palette ∧
    glade_palette_deselect_current_item 8 0 .null false box_selected_palette
      = some box_selected_palette ∧
    glade_palette_get_current_item .null box_selected_palette = none ∧
    glade_palette_get_item_appearance .null box_selected_palette = .GLADE_ITEM_ICON_ONLY ∧
    glade_palette_get_use_small_item_icons .null box_selected_palette = false ∧
    glade_palette_get_show_selector_button .null box_selected_palette = false ∧
    glade_palette_new [] blank_palette = none :=
  invalid_palette_argument .null (Or.inl rfl) box_selected_palette .GLADE_ITEM_LABEL_ONLY
    true false false 8 0 (by decide) blank_palette

/-! ## The tree store -/

/-- The widget of a row built from its parts. -/
@[simp] theorem Row.widget_mk (w : Option WidgetRef) (cs : List Row) :
    (Row.mk w cs).widget = w := rfl

/-- The children of a row built from its parts. -/
@[simp] theorem Row.children_mk (w : Option WidgetRef) (cs : List Row) :
    (Row.mk w cs).children = cs := rfl

/-- Two changes of the rows below one path compose. -/
theorem modify_children_at_comp (f g : List Row → List Row) (p : GtkTreePath) :
    ∀ rows : List Row,
      modify_children_at f (modify_children_at g rows p) p =
        modify_children_at (fun l => f (g l)) rows p := by
  induction p with
  | nil => intro rows; rfl
  | cons i p ih =>
    intro rows
    simp only [modify_children_at]
    cases h : rows[i]? with
    | none => simp [h]
    | some r =>
      have hi : i < rows.length := by
        rcases List.getElem?_eq_some_iff.mp h with ⟨hi, _⟩
        exact hi
      simp only [List.getElem?_set_self hi, Row.widget_mk, Row.children_mk, ih, List.set_set]

/-- A change of the rows below a valid path only depends on what it does to the
rows that are there. -/
theorem modify_children_at_congr (f g : List Row → List Row) (p : GtkTreePath) :
    ∀ rows : List Row, f (children_at rows p) = g (children_at rows p) →
      modify_children_at f rows p = modify_children_at g rows p := by
  induction p with
  | nil => intro rows h; exact h
  | cons i p ih =>
    intro rows h
    simp only [modify_children_at]
    cases hr : rows[i]? with
    | none => rfl
    | some r =>
      simp only [children_at, hr] at h
      simp only [ih r.children h]

/-- A change of the rows below a path keeps the path valid. -/
theorem valid_path_modify (f : List Row → List Row) (p : GtkTreePath) :
    ∀ rows : List Row, valid_path rows p = true →
      valid_path (modify_children_at f rows p) p = true := by
  induction p with
  | nil => intro rows _; rfl
  | cons i p ih =>
    intro rows h
    simp only [valid_path, modify_children_at] at h ⊢
    cases hr : rows[i]? with
    | none => simp [hr] at h
    | some r =>
      have hi : i < rows.length := (List.getElem?_eq_some_iff.mp hr).1
      simp only [hr] at h
      simp only [List.getElem?_set_self hi, Row.children_mk]
      exact ih _ h

/-- The rows below a valid path after they were changed. -/
theorem children_at_modify (f : List Row → List Row) (p : GtkTreePath) :
    ∀ rows : List Row, valid_path rows p = true →
      children_at (modify_children_at f rows p) p = f (children_at rows p) := by
  induction p with
  | nil => intro rows _; rfl
  | cons i p ih =>
    intro rows h
    simp only [valid_path, modify_children_at, children_at] at h ⊢
    cases hr : rows[i]? with
    | none => simp [hr] at h
    | some r =>
      have hi : i < rows.length := (List.getElem?_eq_some_iff.mp hr).1
      simp only [hr] at h
      simp only [List.getElem?_set_self hi, Row.children_mk]
      exact ih _ h

/-- Changing the children of a row that was just appended below a valid path is
appending the row with its children changed. -/
theorem modify_children_at_new_row (h : List Row → List Row) (r : Row) (p : GtkTreePath) :
    ∀ rows : List Row, valid_path rows p = true →
      modify_children_at h (modify_children_at (fun l => l ++ [r]) rows p)
          (p ++ [(children_at rows p).length]) =
        modify_children_at (fun l => l ++ [Row.mk r.widget (h r.children)]) rows p := by
  induction p with
  | nil =>
    intro rows _
    simp [modify_children_at, children_at]
  | cons i p ih =>
    intro rows hv
    simp only [valid_path, modify_children_at, children_at, List.cons_append] at hv ⊢
    cases hr : rows[i]? with
    | none => simp [hr] at hv
    | some q =>
      have hi : i < rows.length := (List.getElem?_eq_some_iff.mp hr).1
      simp only [hr] at hv
      simp only [List.getElem?_set_self hi, Row.children_mk, Row.widget_mk, List.set_set]
      exact congrArg (fun z => rows.set i (Row.mk q.widget z)) (ih _ hv)

/-- The path of a row that was just appended below a valid path is valid. -/
theorem valid_path_new_row (r : Row) (p : GtkTreePath) :
    ∀ rows : List Row, valid_path rows p = true →
      valid_path (modify_children_at (fun l => l ++ [r]) rows p)
        (p ++ [(children_at rows p).length]) = true := by
  induction p with
  | nil =>
    intro rows _
    simp [modify_children_at, children_at, valid_path]
  | cons i p ih =>
    intro rows hv
    simp only [valid_path, modify_children_at, children_at, List.cons_append] at hv ⊢
    cases hr : rows[i]? with
    | none => simp [hr] at hv
    | some q =>
      have hi : i < rows.length := (List.getElem?_eq_some_iff.mp hr).1
      simp only [hr] at hv
      simp only [List.getElem?_set_self hi, Row.children_mk]
      exact ih _ hv

/-- Modifying the element just appended to a list. -/
theorem modify_append_last (f : Row → Row) (x : Row) :
    ∀ l : List Row, List.modify f l.length (l ++ [x]) = l ++ [f x] := by
  intro l
  induction l with
  | nil => rfl
  | cons a l ih =>
    rw [List.length_cons, List.cons_append, List.modify_succ_cons, ih, List.cons_append]

/-- Appending a row and setting its widget, as `fill_model` does, is appending a
row that holds the widget. -/
theorem append_then_set (model : List Row) (parent_iter : Option GtkTreeIter)
    (widget : WidgetRef) :
    gtk_tree_store_set (gtk_tree_store_append model parent_iter).1
        (gtk_tree_store_append model parent_iter).2 widget =
      modify_children_at (fun l => l ++ [Row.mk (some widget) []]) model
        (parent_path parent_iter) := by
  simp only [gtk_tree_store_set, gtk_tree_store_append, modify_children_at_comp]
  apply modify_children_at_congr
  rw [modify_append_last]
  rfl

/-- The loop of `fill_model` leaves the store alone when no object has a widget. -/
theorem fill_model_no_widget (core : GladeCore) (fuel : Nat) (parent_iter : Option GtkTreeIter) :
    ∀ (widgets : List GObject) (model : List Row),
      widgets.filterMap core.glade_widget_get_from_gobject = [] →
      fill_model core (fuel + 1) model widgets parent_iter = some model := by
  intro widgets
  induction widgets with
  | nil => intro model _; rfl
  | cons o os ih =>
    intro model h
    cases ho : core.glade_widget_get_from_gobject o with
    | some w => simp [List.filterMap_cons, ho] at h
    | none =>
      simp only [List.filterMap_cons, ho] at h
      have := ih model h
      simp only [fill_model, List.foldlM_cons, fill_model_row, ho] at this ⊢
      exact this

/-- Writing to a position of a list the element that is there changes nothing. -/
theorem set_same (l : List Row) :
    ∀ (i : Nat) (r : Row), l[i]? = some r → l.set i r = l := by
  induction l with
  | nil => intro i r h; simp at h
  | cons a l ih =>
    intro i r h
    cases i with
    | zero =>
      simp only [List.getElem?_cons_zero, Option.some.injEq] at h
      rw [List.set_cons_zero, h]
    | succ j =>
      simp only [List.getElem?_cons_succ] at h
      rw [List.set_cons_succ, ih j r h]

/-- Changing the rows below a path into themselves changes nothing. -/
theorem modify_children_at_id (p : GtkTreePath) :
    ∀ rows : List Row, modify_children_at (fun l => l) rows p = rows := by
  induction p with
  | nil => intro rows; rfl
  | cons i p ih =>
    intro rows
    simp only [modify_children_at]
    cases hr : rows[i]? with
    | none => rfl
    | some r =>
      simp only [ih]
      cases r with
      | mk w cs => exact set_same rows i _ hr

/-- What the body of the loop of `fill_model` appends for an object with a widget
of height at most `n`, when the recursive call does its part. -/
theorem fill_model_row_eq (core : GladeCore) (height : WidgetRef → Nat)
    (hh : ∀ w c, IsChildOf core w c → height c < height w) (n : Nat)
    (recurse : List Row → List GObject → Option GtkTreeIter → Option (List Row))
    (hrec0 : n = 0 → ∀ model widgets it,
      widgets.filterMap core.glade_widget_get_from_gobject = [] →
      recurse model widgets it = some model)
    (hrec : ∀ m, n = m + 1 → ∀ (widgets : List GObject) (model : List Row)
      (it : Option GtkTreeIter),
      valid_path model (parent_path it) = true →
      (∀ w ∈ widgets.filterMap core.glade_widget_get_from_gobject, height w ≤ m) →
      recurse model widgets it =
        some (modify_children_at
          (fun l => l ++ (widgets.filterMap core.glade_widget_get_from_gobject).map
            (subtree core m)) model (parent_path it)))
    (model : List Row) (parent_iter : Option GtkTreeIter) (l : GObject) (w : WidgetRef)
    (hl : core.glade_widget_get_from_gobject l = some w) (hw : height w ≤ n)
    (hv : valid_path model (parent_path parent_iter) = true) :
    fill_model_row core recurse parent_iter model l =
      some (modify_children_at (fun rows => rows ++ [subtree core n w]) model
        (parent_path parent_iter)) := by
  simp only [fill_model_row, hl, append_then_set]
  by_cases hc : core.glade_widget_adaptor_get_children w = []
  · have hcw : child_widgets core w = [] := by simp [child_widgets, hc]
    simp only [hc, ne_eq, not_true_eq_false, if_false]
    cases n with
    | zero => rfl
    | succ m => simp [subtree, hcw]
  · simp only [hc, ne_eq, not_false_eq_true, if_true]
    cases n with
    | zero =>
      have hcw : child_widgets core w = [] := by
        cases hcs : child_widgets core w with
        | nil => rfl
        | cons c cs =>
          have hlt := hh w c (by simp [IsChildOf, hcs])
          exact absurd hlt (by omega)
      rw [hrec0 rfl _ _ _ hcw]
      rfl
    | succ m =>
      have hv2 := valid_path_new_row (Row.mk (some w) []) (parent_path parent_iter) model hv
      have hm : ∀ c ∈ (core.glade_widget_adaptor_get_children w).filterMap
          core.glade_widget_get_from_gobject, height c ≤ m := by
        intro c hc2
        have hlt := hh w c hc2
        omega
      have e : parent_path (some (gtk_tree_store_append model parent_iter).2) =
          parent_path parent_iter ++ [(children_at model (parent_path parent_iter)).length] :=
        rfl
      rw [hrec m rfl _ _ (some (gtk_tree_store_append model parent_iter).2)
        (by rw [e]; exact hv2) hm, e, modify_children_at_new_row _ _ _ _ hv]
      simp [subtree, child_widgets]

/-- What the loop of `fill_model` appends below a valid path for objects whose
widgets have height at most `n`, when the recursive call does its part. -/
theorem fill_model_loop_eq (core : GladeCore) (height : WidgetRef → Nat)
    (hh : ∀ w c, IsChildOf core w c → height c < height w) (n : Nat)
    (recurse : List Row → List GObject → Option GtkTreeIter → Option (List Row))
    (hrec0 : n = 0 → ∀ model widgets it,
      widgets.filterMap core.glade_widget_get_from_gobject = [] →
      recurse model widgets it = some model)
    (hrec : ∀ m, n = m + 1 → ∀ (widgets : List GObject) (model : List Row)
      (it : Option GtkTreeIter),
      valid_path model (parent_path it) = true →
      (∀ w ∈ widgets.filterMap core.glade_widget_get_from_gobject, height w ≤ m) →
      recurse model widgets it =
        some (modify_children_at
          (fun l => l ++ (widgets.filterMap core.glade_widget_get_from_gobject).map
            (subtree core m)) model (parent_path it)))
    (parent_iter : Option GtkTreeIter) :
    ∀ (widgets : List GObject) (model : List Row),
      valid_path model (parent_path parent_iter) = true →
      (∀ w ∈ widgets.filterMap core.glade_widget_get_from_gobject, height w ≤ n) →
      List.foldlM (fill_model_row core recurse parent_iter) model widgets =
        some (modify_children_at
          (fun l => l ++ (widgets.filterMap core.glade_widget_get_from_gobject).map
            (subtree core n)) model (parent_path parent_iter)) := by
  intro widgets
  induction widgets with
  | nil =>
    intro model _ _
    simp only [List.foldlM_nil, List.filterMap_nil, List.map_nil, List.append_nil]
    rw [modify_children_at_id]
    rfl
  | cons o os ih =>
    intro model hv hw
    rw [List.foldlM_cons]
    cases ho : core.glade_widget_get_from_gobject o with
    | none =>
      have e : fill_model_row core recurse parent_iter model o = some model := by
        simp only [fill_model_row, ho]
      simp only [List.filterMap_cons, ho] at hw ⊢
      rw [e]
      exact ih model hv hw
    | some w =>
      simp only [List.filterMap_cons, ho] at hw ⊢
      have e := fill_model_row_eq core height hh n recurse hrec0 hrec model parent_iter o w ho
        (hw w (List.mem_cons_self _ _)) hv
      rw [e]
      have hv2 := valid_path_modify (fun rows => rows ++ [subtree core n w])
        (parent_path parent_iter) model hv
      have := ih _ hv2 (fun c hc => hw c (List.mem_cons_of_mem _ hc))
      simp only [Option.bind_eq_bind, Option.some_bind]
      rw [this, modify_children_at_comp]
      simp

/-- The rows `fill_model` appends below a valid path: one tree of rows for each
object of the list that has a widget, in the order of the list. -/
theorem fill_model_eq (core : GladeCore) (height : WidgetRef → Nat)
    (hh : ∀ w c, IsChildOf core w c → height c < height w) (n : Nat) :
    ∀ (widgets : List GObject) (model : List Row) (parent_iter : Option GtkTreeIter),
      valid_path model (parent_path parent_iter) = true →
      (∀ w ∈ widgets.filterMap core.glade_widget_get_from_gobject, height w ≤ n) →
      fill_model core (n + 2) model widgets parent_iter =
        some (modify_children_at
          (fun l => l ++ (widgets.filterMap core.glade_widget_get_from_gobject).map
            (subtree core n)) model (parent_path parent_iter)) := by
  induction n with
  | zero =>
    intro widgets model parent_iter hv hw
    exact fill_model_loop_eq core height hh 0 (fill_model core 1)
      (fun _ model widgets it h => fill_model_no_widget core 0 it widgets model h)
      (fun m hm => absurd hm (by omega)) parent_iter widgets model hv hw
  | succ m ih =>
    intro widgets model parent_iter hv hw
    exact fill_model_loop_eq core height hh (m + 1) (fill_model core (m + 2))
      (fun h => absurd h (by omega))
      (fun k hk => by
        have : m = k := by omega
        subst this
        intro widgets model it hv hw
        exact ih widgets model it hv hw) parent_iter widgets model hv hw

/-! ## The rows of the widget forest -/

/-- The rows of a forest are the rows of its trees. -/
theorem rows_of_list_eq (l : List Row) : Row.rows_of_list l = l.flatMap Row.rows := by
  induction l with
  | nil => rfl
  | cons r rs ih => simp [Row.rows_of_list, ih]

/-- The rows of a tree: its root, then the rows of the trees below it. -/
theorem rows_mk (w : Option WidgetRef) (cs : List Row) :
    (Row.mk w cs).rows = Row.mk w cs :: cs.flatMap Row.rows := by
  rw [Row.rows, rows_of_list_eq]

/-- The root of `subtree` holds the widget. -/
theorem subtree_widget (core : GladeCore) (n : Nat) (w : WidgetRef) :
    (subtree core n w).widget = some w := by
  cases n <;> rfl

/-- The widgets of the rows of `subtree`, in display order. -/
theorem subtree_rows_widgets (core : GladeCore) (n : Nat) :
    ∀ w, (subtree core n w).rows.map Row.widget = (descendants core n w).map some := by
  induction n with
  | zero => intro w; simp [subtree, descendants, rows_mk]
  | succ m ih =>
    intro w
    simp only [subtree, descendants, rows_mk, List.map_cons, Row.widget_mk, List.map_flatMap,
      List.flatMap_map, ih]

/-- The widgets of the rows of a forest of subtrees, in display order. -/
theorem forest_rows_widgets (core : GladeCore) (n : Nat) (ws : List WidgetRef) :
    (Row.rows_of_list (ws.map (subtree core n))).map Row.widget =
      (ws.flatMap (descendants core n)).map some := by
  simp only [rows_of_list_eq, List.map_flatMap, List.flatMap_map, subtree_rows_widgets]

/-- In `subtree`, every row holds a widget and its child rows hold the widgets the
child accessor returns for it, in the same order. -/
theorem subtree_rows_local (core : GladeCore) (height : WidgetRef → Nat)
    (hh : ∀ w c, IsChildOf core w c → height c < height w) (n : Nat) :
    ∀ w, height w ≤ n → ∀ r ∈ (subtree core n w).rows,
      ∃ x, r.widget = some x ∧ r.children.map Row.widget = (child_widgets core x).map some := by
  induction n with
  | zero =>
    intro w hw r hr
    simp only [subtree, rows_mk, List.flatMap_nil, List.mem_singleton] at hr
    subst hr
    refine ⟨w, rfl, ?_⟩
    cases hcs : child_widgets core w with
    | nil => rfl
    | cons c cs =>
      have hlt := hh w c (by simp [IsChildOf, hcs])
      exact absurd hlt (by omega)
  | succ m ih =>
    intro w hw r hr
    simp only [subtree, rows_mk, List.mem_cons, List.mem_flatMap, List.mem_map] at hr
    rcases hr with hr | ⟨t, ⟨c, hc, rfl⟩, hr⟩
    · subst hr
      refine ⟨w, rfl, ?_⟩
      simp only [Row.children_mk, List.map_map]
      apply List.map_congr_left
      intro c _
      exact subtree_widget core m c
    · have hlt := hh w c hc
      exact ih c (by omega) r hr

/-- A widget listed by `descendants` is a descendant. -/
theorem descendants_sound (core : GladeCore) (n : Nat) :
    ∀ w x, x ∈ descendants core n w → IsDescendant core w x := by
  induction n with
  | zero =>
    intro w x hx
    simp only [descendants, List.mem_singleton] at hx
    subst hx
    exact Relation.ReflTransGen.refl
  | succ m ih =>
    intro w x hx
    simp only [descendants, List.mem_cons, List.mem_flatMap] at hx
    rcases hx with hx | ⟨c, hc, hx⟩
    · subst hx; exact Relation.ReflTransGen.refl
    · exact Relation.ReflTransGen.head hc (ih c x hx)

/-- Every descendant of a widget of height at most `n` is listed by `descendants`. -/
theorem descendants_complete (core : GladeCore) (height : WidgetRef → Nat)
    (hh : ∀ w c, IsChildOf core w c → height c < height w) (n : Nat) :
    ∀ w x, height w ≤ n → IsDescendant core w x → x ∈ descendants core n w := by
  induction n with
  | zero =>
    intro w x hw hd
    rcases Relation.ReflTransGen.cases_head hd with e | ⟨c, hc, _⟩
    · subst e; simp [descendants]
    · have hlt := hh w c hc
      exact absurd hlt (by omega)
  | succ m ih =>
    intro w x hw hd
    rcases Relation.ReflTransGen.cases_head hd with e | ⟨c, hc, hcx⟩
    · subst e; simp [descendants]
    · have hlt := hh w c hc
      simp only [descendants, List.mem_cons, List.mem_flatMap]
      exact Or.inr ⟨c, hc, ih c x (by omega) hcx⟩

/-- A descendant is not higher than its ancestor. -/
theorem descendant_height (core : GladeCore) (height : WidgetRef → Nat)
    (hh : ∀ w c, IsChildOf core w c → height c < height w) {w x : WidgetRef}
    (hd : IsDescendant core w x) : height x ≤ height w := by
  induction hd with
  | refl => exact Nat.le_refl _
  | tail _ hbc ih =>
    have hlt := hh _ _ hbc
    omega

/-- Two ancestors of one widget are comparable, since a widget has one parent. -/
theorem descendant_chain (core : GladeCore)
    (hp : ∀ w c, IsChildOf core w c → core.glade_widget_get_parent c = some w)
    {a b x : WidgetRef} (ha : IsDescendant core a x) :
    IsDescendant core b x → IsDescendant core a b ∨ IsDescendant core b a := by
  induction ha with
  | refl => intro hb; exact Or.inr hb
  | @tail y z hay hyz ih =>
    intro hb
    rcases Relation.ReflTransGen.cases_tail hb with e | ⟨y2, hby, hyz2⟩
    · subst e
      exact Or.inl (Relation.ReflTransGen.tail hay hyz)
    · have e1 := hp _ _ hyz
      have e2 := hp _ _ hyz2
      rw [e1] at e2
      have e3 : y = y2 := Option.some.inj e2
      subst e3
      exact ih hby

/-- Of two siblings none is a proper descendant of the other. -/
theorem sibling_not_descendant (core : GladeCore) (height : WidgetRef → Nat)
    (hh : ∀ w c, IsChildOf core w c → height c < height w)
    (hp : ∀ w c, IsChildOf core w c → core.glade_widget_get_parent c = some w)
    {ws : List WidgetRef} (hs : Siblings core ws) {a b : WidgetRef} (ha : a ∈ ws)
    (hb : b ∈ ws) (hd : IsDescendant core a b) : b = a := by
  rcases Relation.ReflTransGen.cases_tail hd with e | ⟨y, hay, hyb⟩
  · exact e
  · have e1 := hp _ _ hyb
    rcases hs with h0 | ⟨u, hu⟩
    · rw [h0 b hb] at e1
      exact absurd e1 (by simp)
    · have e2 := hp _ _ (hu b hb)
      rw [e1] at e2
      have e3 : y = u := Option.some.inj e2
      subst e3
      have h1 := hh _ _ (hu a ha)
      have h2 := descendant_height core height hh hay
      omega

/-- With distinct siblings at the roots, no widget occurs twice among the
descendants. -/
theorem forest_nodup (core : GladeCore) (height : WidgetRef → Nat)
    (hh : ∀ w c, IsChildOf core w c → height c < height w)
    (hp : ∀ w c, IsChildOf core w c → core.glade_widget_get_parent c = some w)
    (hc : ∀ w, (child_widgets core w).Nodup) (n : Nat) :
    ∀ ws : List WidgetRef, ws.Nodup → Siblings core ws → (∀ w ∈ ws, height w ≤ n) →
      (ws.flatMap (descendants core n)).Nodup := by
  induction n with
  | zero =>
    intro ws hnd _ _
    have : ws.flatMap (descendants core 0) = ws := by
      induction ws with
      | nil => rfl
      | cons a l ih => simp [descendants]
    rw [this]
    exact hnd
  | succ m ih =>
    intro ws hnd hs hw
    rw [List.nodup_flatMap]
    refine ⟨?_, ?_⟩
    · intro w hwm
      simp only [descendants, List.nodup_cons]
      refine ⟨?_, ?_⟩
      · intro hmem
        obtain ⟨c, hcm, hx⟩ := List.mem_flatMap.mp hmem
        have h1 := hh w c hcm
        have h2 := descendant_height core height hh (descendants_sound core m c w hx)
        omega
      · apply ih _ (hc w) (Or.inr ⟨w, fun c hcm => hcm⟩)
        intro c hcm
        have h1 := hh w c hcm
        have h2 := hw w hwm
        omega
    · refine hnd.imp_of_mem ?_
      intro a b ha hb hne x hxa hxb
      have da := descendants_sound core (m + 1) a x hxa
      have db := descendants_sound core (m + 1) b x hxb
      rcases descendant_chain core hp da db with h | h
      · exact hne (sibling_not_descendant core height hh hp hs ha hb h).symm
      · exact hne (sibling_not_descendant core height hh hp hs hb ha h)

/-! ## Rebuilding the view -/

/-- The list of toplevel objects `update_model` builds: the toplevel widgets of the
project, last object first. -/
theorem update_model_toplevels_eq (core : GladeCore) :
    ∀ (objects acc : List GObject),
      (∀ o ∈ objects, core.glade_widget_get_from_gobject o ≠ none) →
      ∃ toplevels, update_model_toplevels core objects acc = some toplevels ∧
        toplevels.filterMap core.glade_widget_get_from_gobject =
          ((objects.filterMap core.glade_widget_get_from_gobject).filter
            (fun w => decide (core.glade_widget_get_parent w = none))).reverse ++
            acc.filterMap core.glade_widget_get_from_gobject := by
  intro objects
  induction objects with
  | nil => intro acc _; exact ⟨acc, rfl, by simp⟩
  | cons o os ih =>
    intro acc h
    have hos : ∀ x ∈ os, core.glade_widget_get_from_gobject x ≠ none :=
      fun x hx => h x (List.mem_cons_of_mem _ hx)
    cases ho : core.glade_widget_get_from_gobject o with
    | none => exact absurd ho (h o (List.mem_cons_self _ _))
    | some w =>
      by_cases hp : core.glade_widget_get_parent w = none
      · obtain ⟨t, e1, e2⟩ := ih (o :: acc) hos
        refine ⟨t, ?_, ?_⟩
        · simp only [update_model_toplevels, ho, hp, if_true]
          exact e1
        · rw [e2]
          simp [List.filterMap_cons, ho, List.filter_cons, hp]
      · obtain ⟨t, e1, e2⟩ := ih acc hos
        refine ⟨t, ?_, ?_⟩
        · simp only [update_model_toplevels, ho, hp, if_false]
          exact e1
        · rw [e2]
          simp [List.filterMap_cons, ho, List.filter_cons, hp]

/-- The view tree after `update_model` for an inspector bound to a project forest:
one tree of rows for each toplevel widget, last object first. -/
theorem update_model_eq (core : GladeCore) (project : ProjectRef) (height : WidgetRef → Nat)
    (inspector : GladeInspector) (n : Nat) (hf : ProjectForest core project height)
    (hn : ∀ w ∈ toplevel_widgets core project, height w ≤ n)
    (hp : inspector.project = some project) :
    update_model core (n + 2) inspector =
      some { inspector with
        model := (toplevel_widgets core project).reverse.map (subtree core n),
        selected := [] } := by
  obtain ⟨t, e1, e2⟩ := update_model_toplevels_eq core
    (core.glade_project_get_objects project) [] hf.has_widget
  simp only [List.filterMap_nil, List.append_nil] at e2
  have e3 := fill_model_eq core height hf.height_child n t [] none rfl (by
    intro w hw
    rw [e2] at hw
    exact hn w (List.mem_reverse.mp hw))
  rw [e2] at e3
  simp only [update_model, hp, e1, Option.some_bind, e3]
  simp [modify_children_at, parent_path, toplevel_widgets]

/-- The view tree after `glade_inspector_set_project` on a project forest: one
tree of rows for each toplevel widget, last object first. -/
theorem set_project_eq (core : GladeCore) (project : ProjectRef) (height : WidgetRef → Nat)
    (inspector : GladeInspector) (n : Nat) (hf : ProjectForest core project height)
    (hn : ∀ w ∈ toplevel_widgets core project, height w ≤ n) :
    ∃ bound, glade_inspector_set_project core (n + 2) inspector (some project) = some bound ∧
      bound.project = some project ∧
      bound.model = (toplevel_widgets core project).reverse.map (subtree core n) := by
  simp only [glade_inspector_set_project, inspector_notify_cb]
  rw [update_model_eq core project height _ n hf hn (by
    cases inspector.project <;> rfl)]
  refine ⟨_, rfl, ?_, rfl⟩
  cases inspector.project <;> rfl

/-- The widgets a project reaches are the descendants of its toplevel widgets. -/
theorem project_reaches_iff (core : GladeCore) (project : ProjectRef) (x : WidgetRef) :
    ProjectReaches core project x ↔
      ∃ w ∈ toplevel_widgets core project, IsDescendant core w x := by
  constructor
  · intro h
    induction h with
    | toplevel hw => exact ⟨_, hw, Relation.ReflTransGen.refl⟩
    | child _ hc ih =>
      obtain ⟨w, hw, hd⟩ := ih
      exact ⟨w, hw, Relation.ReflTransGen.tail hd hc⟩
  · rintro ⟨w, hw, hd⟩
    induction hd with
    | refl => exact ProjectReaches.toplevel hw
    | tail _ hc ih => exact ProjectReaches.child ih hc

/-- C10: after `glade_inspector_set_project (inspector, P)` and the `update_model`
it triggers, whatever rows the view held before, the view tree has exactly one row
for each widget reachable from the toplevel widgets of `P` through the child
accessor of the adaptors; the top-level rows are the rows of the toplevel
widgets, and the child rows of the row of a widget are the rows of the widgets
returned as its children, in the order of the accessor.  After binding `NULL` the
view tree is empty. -/
theorem rebuild_on_bind (core : GladeCore) (project : ProjectRef) (height : WidgetRef → Nat)
    (inspector : GladeInspector) (fuel : Nat) (hf : ProjectForest core project height)
    (h2 : 2 ≤ fuel) (hfuel : ∀ w ∈ toplevel_widgets core project, height w + 2 ≤ fuel) :
    (∃ bound, glade_inspector_set_project core fuel inspector (some project) = some bound ∧
      glade_inspector_get_project bound = some project ∧
      ((Row.rows_of_list bound.model).map Row.widget).Nodup ∧
      (∀ x, some x ∈ (Row.rows_of_list bound.model).map Row.widget ↔
        ProjectReaches core project x) ∧
      (∀ x, some x ∈ bound.model.map Row.widget ↔ x ∈ toplevel_widgets core project) ∧
      (∀ r ∈ Row.rows_of_list bound.model, ∃ x, r.widget = some x ∧
        r.children.map Row.widget = (child_widgets core x).map some)) ∧
    (∃ unbound, glade_inspector_set_project core fuel inspector none = some unbound ∧
      glade_inspector_get_project unbound = none ∧ unbound.model = []) := by
  obtain ⟨n, rfl⟩ := Nat.exists_eq_add_of_le' h2
  have hn : ∀ w ∈ toplevel_widgets core project, height w ≤ n := by
    intro w hw
    have := hfuel w hw
    omega
  have hnr : ∀ w ∈ (toplevel_widgets core project).reverse, height w ≤ n :=
    fun w hw => hn w (List.mem_reverse.mp hw)
  refine ⟨?_, ?_⟩
  · obtain ⟨bound, e, hp, hm⟩ := set_project_eq core project height inspector n hf hn
    refine ⟨bound, e, hp, ?_, ?_, ?_, ?_⟩
    · rw [hm, forest_rows_widgets]
      refine List.Nodup.map (fun a b hab => Option.some.inj hab) ?_
      refine forest_nodup core height hf.height_child hf.parent_of_child hf.children_nodup n
        _ ?_ (Or.inl ?_) hnr
      · exact List.nodup_reverse.mpr (hf.objects_nodup.filter _)
      · intro w hw
        have := (List.mem_filter.mp (List.mem_reverse.mp hw)).2
        simpa using this
    · intro x
      rw [hm, forest_rows_widgets, project_reaches_iff]
      simp only [List.mem_map, Option.some.injEq, exists_eq_right, List.mem_flatMap,
        List.mem_reverse]
      constructor
      · rintro ⟨w, hw, hx⟩
        exact ⟨w, hw, descendants_sound core n w x hx⟩
      · rintro ⟨w, hw, hx⟩
        exact ⟨w, hw, descendants_complete core height hf.height_child n w x (hn w hw) hx⟩
    · intro x
      rw [hm]
      simp only [List.map_map, List.mem_map, List.mem_reverse, Function.comp_apply,
        subtree_widget, Option.some.injEq, exists_eq_right]
    · intro r hr
      rw [hm, rows_of_list_eq] at hr
      obtain ⟨t, ht, hr⟩ := List.mem_flatMap.mp hr
      obtain ⟨w, hw, rfl⟩ := List.mem_map.mp ht
      exact subtree_rows_local core height hf.height_child n w (hnr w hw) r hr
  · cases hp : inspector.project with
    | none =>
      refine ⟨{ inspector with
                model := []
                selected := []
                emitted := inspector.emitted ++ [.notify "project"] }, ?_, hp, rfl⟩
      simp only [glade_inspector_set_project, inspector_notify_cb, update_model, hp]
    | some old =>
      refine ⟨{ disconnect_project_signals inspector old with
                project := none
                model := []
                selected := []
                emitted := inspector.emitted ++ [.notify "project"] }, ?_, rfl, rfl⟩
      simp only [glade_inspector_set_project, inspector_notify_cb, update_model, hp]
      rfl

/-- The concrete project is a forest. -/
theorem window_core_forest : ProjectForest window_core 0 window_height where
  has_widget := by decide
  objects_nodup := by decide
  parent_of_child := by
    intro w c h
    simp only [IsChildOf, child_widgets, window_core] at h
    by_cases h11 : w = 11
    · subst h11
      simp at h
      subst h
      rfl
    · by_cases h12 : w = 12
      · subst h12
        simp at h
        rcases h with h | h <;> subst h <;> rfl
      · simp [h11, h12] at h
  children_nodup := by
    intro w
    simp only [child_widgets, window_core]
    by_cases h11 : w = 11
    · subst h11; decide
    · by_cases h12 : w = 12
      · subst h12; decide
      · simp [h11, h12]
  height_child := by
    intro w c h
    simp only [IsChildOf, child_widgets, window_core] at h
    by_cases h11 : w = 11
    · subst h11
      simp at h
      subst h
      decide
    · by_cases h12 : w = 12
      · subst h12
        simp at h
        rcases h with h | h <;> subst h <;> decide
      · simp [h11, h12] at h

/-- Witness of C10: the concrete project is bound to an inspector whose view holds
a stale row. -/
theorem rebuild_on_bind_witness :
    (∃ bound, glade_inspector_set_project window_core 4 stale_inspector (some 0) = some bound ∧
      glade_inspector_get_project bound = some 0 ∧
      ((Row.rows_of_list bound.model).map Row.widget).Nodup ∧
      (∀ x, some x ∈ (Row.rows_of_list bound.model).map Row.widget ↔
        ProjectReaches window_core 0 x) ∧
      (∀ x, some x ∈ bound.model.map Row.widget ↔ x ∈ toplevel_widgets window_core 0) ∧
      (∀ r ∈ Row.rows_of_list bound.model, ∃ x, r.widget = some x ∧
        r.children.map Row.widget = (child_widgets window_core x).map some)) ∧
    (∃ unbound, glade_inspector_set_project window_core 4 stale_inspector none
        = some unbound ∧
      glade_inspector_get_project unbound = none ∧ unbound.model = []) :=
  rebuild_on_bind window_core 0 window_height stale_inspector 4 window_core_forest
    (by decide) (by decide)

/-! ## The lookup of a row -/

/-- The widgets held by the rows of a forest, in display order. -/
theorem rows_widgets_cons (r : Row) (rs : List Row) :
    (Row.rows_of_list (r :: rs)).map Row.widget =
      r.rows.map Row.widget ++ (Row.rows_of_list rs).map Row.widget := by
  simp [Row.rows_of_list]

mutual

/-- The lookup finds no iterator in a tree none of whose rows holds the widget. -/
theorem find_iter_row_none (w : WidgetRef) :
    ∀ (r : Row) (index : Nat), some w ∉ r.rows.map Row.widget →
      find_iter_row w r index = none
  | .mk v cs, index, h => by
    simp only [Row.rows, List.map_cons, Row.widget_mk, List.mem_cons, not_or] at h
    rw [find_iter_row, if_neg (fun e => h.1 e.symm), find_iter_rows_none w cs 0 h.2]
    rfl

/-- The lookup finds no iterator in a forest none of whose rows holds the widget. -/
theorem find_iter_rows_none (w : WidgetRef) :
    ∀ (rs : List Row) (index : Nat), some w ∉ (Row.rows_of_list rs).map Row.widget →
      find_iter_rows w rs index = none
  | [], _, _ => rfl
  | r :: rs, index, h => by
    rw [rows_widgets_cons, List.mem_append, not_or] at h
    rw [find_iter_rows, find_iter_row_none w r index h.1]
    exact find_iter_rows_none w rs (index + 1) h.2

end

mutual

/-- The lookup finds an iterator in a tree one of whose rows holds the widget. -/
theorem find_iter_row_some (w : WidgetRef) :
    ∀ (r : Row) (index : Nat), some w ∈ r.rows.map Row.widget →
      ∃ iter, find_iter_row w r index = some iter
  | .mk v cs, index, h => by
    simp only [Row.rows, List.map_cons, Row.widget_mk, List.mem_cons] at h
    by_cases e : v = some w
    · exact ⟨_, by rw [find_iter_row, if_pos e]⟩
    · rcases h with h | h
      · exact absurd h.symm e
      · obtain ⟨iter, hi⟩ := find_iter_rows_some w cs 0 h
        exact ⟨_, by rw [find_iter_row, if_neg e, hi]; rfl⟩

/-- The lookup finds an iterator in a forest one of whose rows holds the widget. -/
theorem find_iter_rows_some (w : WidgetRef) :
    ∀ (rs : List Row) (index : Nat), some w ∈ (Row.rows_of_list rs).map Row.widget →
      ∃ iter, find_iter_rows w rs index = some iter
  | [], _, h => by simp [Row.rows_of_list] at h
  | r :: rs, index, h => by
    rw [rows_widgets_cons, List.mem_append] at h
    rw [find_iter_rows]
    cases hr : find_iter_row w r index with
    | some iter => exact ⟨iter, rfl⟩
    | none =>
      rcases h with h | h
      · obtain ⟨iter, hi⟩ := find_iter_row_some w r index h
        rw [hr] at hi
        exact absurd hi (by simp)
      · exact find_iter_rows_some w rs (index + 1) h

end

/-- The lookup returns `NULL` exactly when no row of the model holds the widget. -/
theorem find_iter_eq_none_iff (model : List Row) (w : WidgetRef) :
    glade_util_find_iter_by_widget model w = none ↔
      some w ∉ (Row.rows_of_list model).map Row.widget := by
  constructor
  · intro h hm
    obtain ⟨iter, hi⟩ := find_iter_rows_some w model 0 hm
    rw [glade_util_find_iter_by_widget, hi] at h
    exact absurd h (by simp)
  · exact find_iter_rows_none w model 0
/-! ## Claims on the project notifications -/

/-- A notification for a widget whose parent has no row is dropped. -/
theorem add_widget_dropped (core : GladeCore) (fuel : Nat) (inspector : GladeInspector)
    (widget parent : WidgetRef) (hp : core.glade_widget_get_parent widget = some parent)
    (hr : some parent ∉ (Row.rows_of_list inspector.model).map Row.widget) :
    project_add_widget_cb core fuel inspector widget = some inspector := by
  have hf := (find_iter_eq_none_iff inspector.model parent).mpr hr
  simp only [project_add_widget_cb, hp, hf]
  simp

/-- C13: the view is left as it is, with the same rows in the same places and the
same selected rows, by `project_add_widget_cb` for a widget whose parent widget is
not `NULL` and has no row, by `project_remove_widget_cb` for a widget that has no
row, and by `project_widget_name_changed_cb` for any widget. -/
theorem silent_drop (core : GladeCore) (fuel : Nat) (inspector : GladeInspector)
    (widget : WidgetRef) :
    (∀ parent, core.glade_widget_get_parent widget = some parent →
      some parent ∉ (Row.rows_of_list inspector.model).map Row.widget →
      project_add_widget_cb core fuel inspector widget = some inspector) ∧
    (some widget ∉ (Row.rows_of_list inspector.model).map Row.widget →
      project_remove_widget_cb inspector widget = inspector) ∧
    (project_widget_name_changed_cb inspector widget).1 = inspector := by
  refine ⟨fun parent hp hr => add_widget_dropped core fuel inspector widget parent hp hr, ?_, ?_⟩
  · intro hr
    have hf := (find_iter_eq_none_iff inspector.model widget).mpr hr
    simp only [project_remove_widget_cb, hf]
  · simp only [project_widget_name_changed_cb]
    cases glade_util_find_iter_by_widget inspector.model widget <;> rfl

/-- C13 on the stale view, whose rows hold widget 7 and no widget: the button (13,
a child of the box 12) is not added, the box is not removed, and a change of the
name of widget 7 leaves the view as it is. -/
theorem silent_drop_witness :
    project_add_widget_cb window_core 0 stale_inspector 13 = some stale_inspector ∧
    project_remove_widget_cb stale_inspector 12 = stale_inspector ∧
    (project_widget_name_changed_cb stale_inspector 7).1 = stale_inspector :=
  ⟨(silent_drop window_core 0 stale_inspector 13).1 12 (by decide) (by decide),
   (silent_drop window_core 0 stale_inspector 12).2.1 (by decide),
   (silent_drop window_core 0 stale_inspector 7).2.2⟩
/-- Notifications for widgets that have a parent leave a view without rows as it
is. -/
theorem deliver_dropped (core : GladeCore) (fuel : Nat) (inspector : GladeInspector)
    (hm : inspector.model = []) :
    ∀ ws : List WidgetRef, (∀ w ∈ ws, core.glade_widget_get_parent w ≠ none) →
      deliver_add_widget core fuel inspector ws = some inspector := by
  intro ws
  induction ws with
  | nil => intro _; rfl
  | cons w ws ih =>
    intro h
    have hw := h w (List.mem_cons_self _ _)
    obtain ⟨p, hp⟩ := Option.ne_none_iff_exists'.mp hw
    have hd := add_widget_dropped core fuel inspector w p hp (by rw [hm]; simp [Row.rows_of_list])
    simp only [deliver_add_widget, List.foldlM_cons, hd, Option.bind_eq_bind, Option.some_bind]
    exact ih (fun x hx => h x (List.mem_cons_of_mem _ hx))

/-- The notification for a toplevel widget in a view without rows inserts the rows
of the widget and of all the widgets below it. -/
theorem add_toplevel_to_empty (core : GladeCore) (height : WidgetRef → Nat)
    (hh : ∀ w c, IsChildOf core w c → height c < height w) (n : Nat)
    (inspector : GladeInspector) (hm : inspector.model = []) (root : WidgetRef)
    (hroot : core.glade_widget_get_parent root = none) (hn : height root ≤ n + 1) :
    project_add_widget_cb core (n + 2) inspector root =
      some { inspector with model := [subtree core (n + 1) root] } := by
  simp only [project_add_widget_cb, hroot, append_then_set, hm]
  have hv : valid_path (modify_children_at (fun l => l ++ [Row.mk (some root) []]) []
      (parent_path none))
      (parent_path (some (gtk_tree_store_append [] none).2)) = true := rfl
  have hc : ∀ w ∈ (core.glade_widget_adaptor_get_children root).filterMap
      core.glade_widget_get_from_gobject, height w ≤ n := by
    intro w hw
    have := hh root w hw
    omega
  rw [if_neg (by simp), fill_model_eq core height hh n _ _ _ hv hc]
  simp [parent_path, gtk_tree_store_append, GtkTreeIter.path, children_at, modify_children_at,
    subtree, child_widgets]

/-- In a list of the widgets of a tree in which no widget comes before one of its
children, the root is the last widget. -/
theorem root_is_last (core : GladeCore) (height : WidgetRef → Nat)
    (hh : ∀ w c, IsChildOf core w c → height c < height w)
    (hp : ∀ w c, IsChildOf core w c → core.glade_widget_get_parent c = some w)
    (hc : ∀ w, (child_widgets core w).Nodup) (n : Nat) (root : WidgetRef)
    (hroot : core.glade_widget_get_parent root = none) (hn : height root ≤ n)
    (ws : List WidgetRef) (hperm : ws.Perm (descendants core n root))
    (horder : ws.Pairwise (fun a b => ¬ IsChildOf core a b)) :
    ∃ pre, ws = pre ++ [root] ∧ ∀ x ∈ pre, core.glade_widget_get_parent x ≠ none := by
  have hnd : ws.Nodup := by
    have := forest_nodup core height hh hp hc n [root] (by simp)
      (Or.inl (by simpa using hroot)) (by simpa using hn)
    rw [List.flatMap_singleton] at this
    exact hperm.nodup_iff.mpr this
  have hmem : ∀ x, x ∈ ws ↔ IsDescendant core root x := by
    intro x
    rw [hperm.mem_iff]
    exact ⟨descendants_sound core n root x, descendants_complete core height hh n root x hn⟩
  have hrw : root ∈ ws := (hmem root).mpr Relation.ReflTransGen.refl
  obtain ⟨l1, l2, e⟩ := List.append_of_mem hrw
  subst e
  have hpw := List.pairwise_append.mp horder
  have hpw2 := List.pairwise_cons.mp hpw.2.1
  have hchain : ∀ x, IsDescendant core root x → x = root ∨ x ∈ l1 := by
    intro x hx
    induction hx with
    | refl => exact Or.inl rfl
    | @tail y z hy hyz ih =>
      have hz : z ∈ l1 ++ root :: l2 := (hmem z).mpr (Relation.ReflTransGen.tail hy hyz)
      rcases List.mem_append.mp hz with h1 | h2
      · exact Or.inr h1
      · rcases List.mem_cons.mp h2 with h3 | h3
        · exact Or.inl h3
        · exfalso
          rcases ih with e | hy1
          · subst e
            exact hpw2.1 z h3 hyz
          · exact hpw.2.2 y hy1 z h2 hyz
  have hl2 : l2 = [] := by
    cases l2 with
    | nil => rfl
    | cons x l2 =>
      exfalso
      have hx : x ∈ l1 ++ root :: x :: l2 := by simp
      have hnd2 := List.nodup_append.mp hnd
      have hnd3 := List.nodup_cons.mp hnd2.2.1
      rcases hchain x ((hmem x).mp hx) with e | h1
      · exact hnd3.1 (by rw [e]; simp)
      · exact hnd2.2.2 h1 (by simp)
  subst hl2
  refine ⟨l1, rfl, ?_⟩
  intro x hx
  have hxd : IsDescendant core root x := (hmem x).mp (by simp [hx])
  rcases Relation.ReflTransGen.cases_tail hxd with e | ⟨y, _, hyx⟩
  · exfalso
    have hnd2 := List.nodup_append.mp hnd
    exact hnd2.2.2 hx (by rw [e]; simp)
  · rw [hp y x hyx]
    simp
/-- C20: for a widget tree of a project whose root is a toplevel widget of height
at most `n + 1`, and for every list `ws` of all its widgets in which no widget
comes before one of its children, the notifications `project_add_widget_cb` for
`ws`, delivered in order to an inspector whose view has no row, end with the
notification for the root; every notification before it is dropped and leaves the
view without rows, and the one for the root inserts the row of the root with the
rows of the whole tree below it, so that the view is the widget tree with one row
for each widget. -/
theorem children_first_delivery (core : GladeCore) (project : ProjectRef)
    (height : WidgetRef → Nat) (n : Nat) (root : WidgetRef) (ws : List WidgetRef)
    (inspector : GladeInspector) (hf : ProjectForest core project height)
    (hroot : root ∈ toplevel_widgets core project) (hn : height root ≤ n + 1)
    (hm : inspector.model = [])
    (hperm : ws.Perm (descendants core (n + 1) root))
    (horder : ws.Pairwise (fun a b => ¬ IsChildOf core a b)) :
    ∃ pre, ws = pre ++ [root] ∧
      (∀ w ∈ pre, project_add_widget_cb core (n + 2) inspector w = some inspector) ∧
      deliver_add_widget core (n + 2) inspector pre = some inspector ∧
      deliver_add_widget core (n + 2) inspector ws =
        some { inspector with model := [subtree core (n + 1) root] } ∧
      ((Row.rows_of_list [subtree core (n + 1) root]).map Row.widget).Perm (ws.map some) ∧
      ws.Nodup := by
  have hr0 : core.glade_widget_get_parent root = none := by
    simp only [toplevel_widgets, List.mem_filter, decide_eq_true_eq] at hroot
    exact hroot.2
  obtain ⟨pre, e, hpre⟩ := root_is_last core height hf.height_child hf.parent_of_child
    hf.children_nodup (n + 1) root hr0 hn ws hperm horder
  have hdrop := deliver_dropped core (n + 2) inspector hm pre hpre
  have hnd : (descendants core (n + 1) root).Nodup := by
    have := forest_nodup core height hf.height_child hf.parent_of_child hf.children_nodup
      (n + 1) [root] (by simp) (Or.inl (by simpa using hr0)) (by simpa using hn)
    rw [List.flatMap_singleton] at this
    exact this
  refine ⟨pre, e, ?_, hdrop, ?_, ?_, hperm.nodup_iff.mpr hnd⟩
  · intro w hw
    obtain ⟨p, hp⟩ := Option.ne_none_iff_exists'.mp (hpre w hw)
    exact add_widget_dropped core (n + 2) inspector w p hp
      (by rw [hm]; simp [Row.rows_of_list])
  · have hd2 : deliver_add_widget core (n + 2) inspector (pre ++ [root]) =
        (deliver_add_widget core (n + 2) inspector pre).bind
          (fun s => deliver_add_widget core (n + 2) s [root]) := by
      simp only [deliver_add_widget, List.foldlM_append, Option.bind_eq_bind]
    rw [e, hd2, hdrop, Option.some_bind]
    simp only [deliver_add_widget, List.foldlM_cons, List.foldlM_nil, Option.bind_eq_bind]
    rw [add_toplevel_to_empty core height hf.height_child n inspector hm root hr0 hn]
    rfl
  · simp only [Row.rows_of_list, List.append_nil, subtree_rows_widgets]
    exact (hperm.map some).symm

/-- C20 on the concrete project: the notifications for the label, the button, the
box and the window, in this order, give the rows of the window tree. -/
theorem children_first_delivery_witness :
    ∃ pre, [14, 13, 12, 11] = pre ++ [11] ∧
      (∀ w ∈ pre, project_add_widget_cb window_core 3 (empty_inspector (some 0) []) w =
        some (empty_inspector (some 0) [])) ∧
      deliver_add_widget window_core 3 (empty_inspector (some 0) []) pre =
        some (empty_inspector (some 0) []) ∧
      deliver_add_widget window_core 3 (empty_inspector (some 0) []) [14, 13, 12, 11] =
        some { empty_inspector (some 0) [] with model := [subtree window_core 2 11] } ∧
      ((Row.rows_of_list [subtree window_core 2 11]).map Row.widget).Perm
        ([14, 13, 12, 11].map some) ∧
      [14, 13, 12, 11].Nodup :=
  children_first_delivery window_core 0 window_height 1 11 [14, 13, 12, 11]
    (empty_inspector (some 0) []) window_core_forest (by decide) (by decide) rfl
    (by decide) (by simp [IsChildOf, child_widgets, window_core])

/-! ## Rows and the rows above them -/

/-- The pairs of a forest that is the concatenation of two forests. -/
theorem edges_of_list_append (up : Option WidgetRef) (a b : List Row) :
    Row.edges_of_list up (a ++ b) = Row.edges_of_list up a ++ Row.edges_of_list up b := by
  induction a with
  | nil => rfl
  | cons r rs ih => simp [Row.edges_of_list, ih]

/-- The pairs of a tree built from its parts. -/
theorem edges_mk (up v : Option WidgetRef) (cs : List Row) :
    (Row.mk v cs).edges up = (up, v) :: Row.edges_of_list v cs := by
  rw [Row.edges]

/-- A change of the rows below the row that follows the rows `pre`. -/
theorem modify_children_at_index (f : List Row → List Row) (pre : List Row) (r : Row)
    (post : List Row) (q : GtkTreePath) :
    modify_children_at f (pre ++ r :: post) (pre.length :: q) =
      pre ++ Row.mk r.widget (modify_children_at f r.children q) :: post := by
  have h : (pre ++ r :: post)[pre.length]? = some r := by
    rw [List.getElem?_append_right (Nat.le_refl _), Nat.sub_self]
    simp
  rw [modify_children_at, h]
  simp

mutual

/-- A row appended below the row the lookup finds in a tree is one more pair,
below the widget looked up. -/
theorem find_iter_row_edges (p : WidgetRef) :
    ∀ (r : Row) (k : Nat) (iter : GtkTreeIter), find_iter_row p r k = some iter →
      ∀ (pre post : List Row), pre.length = k → ∀ (up : Option WidgetRef) (new : Row),
      (Row.edges_of_list up
        (modify_children_at (fun l => l ++ [new]) (pre ++ r :: post) iter.path)).Perm
        (Row.edges_of_list up (pre ++ r :: post) ++ new.edges (some p))
  | .mk v cs, k, iter, h, pre, post, hk, up, new => by
    rw [find_iter_row] at h
    by_cases e : v = some p
    · rw [if_pos e] at h
      cases h
      subst hk
      have hpath : GtkTreeIter.path { parent := [], index := pre.length } = [pre.length] := rfl
      rw [hpath, modify_children_at_index]
      simp only [modify_children_at, Row.widget_mk, Row.children_mk, edges_of_list_append,
        Row.edges_of_list, edges_mk, List.append_nil, e]
      apply Multiset.coe_eq_coe.mp
      simp only [← Multiset.coe_add, ← Multiset.cons_coe, ← Multiset.singleton_add]
      abel
    · rw [if_neg e] at h
      cases hf : find_iter_rows p cs 0 with
      | none => rw [hf] at h; exact absurd h (by simp)
      | some it =>
        rw [hf] at h
        cases h
        subst hk
        have ih := find_iter_rows_edges p cs 0 it hf [] rfl v new
        have ih2 := Multiset.coe_eq_coe.mpr ih
        simp only [List.nil_append, ← Multiset.coe_add] at ih2
        have hpath : GtkTreeIter.path { parent := pre.length :: it.parent, index := it.index } =
            pre.length :: it.path := rfl
        simp only [hpath, modify_children_at_index, Row.widget_mk, Row.children_mk,
          edges_of_list_append, Row.edges_of_list, edges_mk]
        apply Multiset.coe_eq_coe.mp
        simp only [← Multiset.coe_add, ← Multiset.cons_coe, ← Multiset.singleton_add, ih2]
        abel

/-- A row appended below the row the lookup finds in a forest is one more pair,
below the widget looked up. -/
theorem find_iter_rows_edges (p : WidgetRef) :
    ∀ (rs : List Row) (k : Nat) (iter : GtkTreeIter), find_iter_rows p rs k = some iter →
      ∀ (pre : List Row), pre.length = k → ∀ (up : Option WidgetRef) (new : Row),
      (Row.edges_of_list up
        (modify_children_at (fun l => l ++ [new]) (pre ++ rs) iter.path)).Perm
        (Row.edges_of_list up (pre ++ rs) ++ new.edges (some p))
  | [], _, _, h, _, _, _, _ => by simp [find_iter_rows] at h
  | r :: rs, k, iter, h, pre, hk, up, new => by
    rw [find_iter_rows] at h
    cases hr : find_iter_row p r k with
    | some it =>
      rw [hr] at h
      have e := Option.some.inj h
      subst e
      exact find_iter_row_edges p r k it hr pre rs hk up new
    | none =>
      rw [hr] at h
      have ih := find_iter_rows_edges p rs (k + 1) iter h (pre ++ [r]) (by simp [hk]) up new
      simpa using ih

end

mutual

/-- The widgets of the rows of a tree are the second parts of its pairs. -/
theorem edges_snd_row : ∀ (r : Row) (up : Option WidgetRef),
    (r.edges up).map Prod.snd = r.rows.map Row.widget
  | .mk v cs, up => by
    rw [Row.edges, Row.rows, List.map_cons, List.map_cons, edges_snd_list cs v]
    rfl

/-- The widgets of the rows of a forest are the second parts of its pairs. -/
theorem edges_snd_list : ∀ (rs : List Row) (up : Option WidgetRef),
    (Row.edges_of_list up rs).map Prod.snd = (Row.rows_of_list rs).map Row.widget
  | [], _ => rfl
  | r :: rs, up => by
    rw [Row.edges_of_list, Row.rows_of_list, List.map_append, List.map_append,
      edges_snd_row r up, edges_snd_list rs up]

end
/-- The notification for a widget that has no children yet and whose parent, if
it has one, has a row: one row is added, below a row of the parent. -/
theorem add_widget_leaf (core : GladeCore) (fuel : Nat) (inspector : GladeInspector)
    (w : WidgetRef) (hleaf : core.glade_widget_adaptor_get_children w = [])
    (hp : ∀ p, core.glade_widget_get_parent w = some p →
      some p ∈ (Row.rows_of_list inspector.model).map Row.widget) :
    ∃ model, project_add_widget_cb core (fuel + 1) inspector w =
        some { inspector with model := model } ∧
      (Row.edges_of_list none model).Perm
        (Row.edges_of_list none inspector.model ++ [widget_edge core w]) := by
  have hfill : ∀ (m : List Row) (it : Option GtkTreeIter),
      fill_model core (fuel + 1) m [] it = some m := fun _ _ => rfl
  cases hpw : core.glade_widget_get_parent w with
  | none =>
    refine ⟨inspector.model ++ [Row.mk (some w) []], ?_, ?_⟩
    · simp only [project_add_widget_cb, hpw, append_then_set, hleaf, hfill]
      simp [parent_path, modify_children_at]
    · rw [edges_of_list_append]
      simp [Row.edges_of_list, edges_mk, widget_edge, hpw]
  | some p =>
    obtain ⟨iter, hi⟩ := find_iter_rows_some p inspector.model 0 (hp p hpw)
    have hi2 : glade_util_find_iter_by_widget inspector.model p = some iter := hi
    refine ⟨modify_children_at (fun l => l ++ [Row.mk (some w) []]) inspector.model iter.path,
      ?_, ?_⟩
    · simp only [project_add_widget_cb, hpw, hi2, append_then_set, hleaf, hfill]
      simp [parent_path]
    · have h := find_iter_rows_edges p inspector.model 0 iter hi [] rfl none
        (Row.mk (some w) [])
      simpa [edges_mk, Row.edges_of_list, widget_edge, hpw] using h

/-- Widgets without children delivered parents first to a view that has a row for
each widget delivered before: each of them gets one row below a row of its
parent. -/
theorem deliver_leaves (core : GladeCore) (fuel : Nat) :
    ∀ (ws before : List WidgetRef) (inspector : GladeInspector),
      (∀ w ∈ ws, core.glade_widget_adaptor_get_children w = []) →
      ParentsFirst core before ws →
      (Row.edges_of_list none inspector.model).Perm (before.map (widget_edge core)) →
      ∃ model, deliver_add_widget core (fuel + 1) inspector ws =
          some { inspector with model := model } ∧
        (Row.edges_of_list none model).Perm ((before ++ ws).map (widget_edge core)) := by
  intro ws
  induction ws with
  | nil =>
    intro before inspector _ _ hinv
    exact ⟨inspector.model, rfl, by simpa using hinv⟩
  | cons w ws ih =>
    intro before inspector hleaf hpf hinv
    obtain ⟨hpw, hrest⟩ := hpf
    have hrow : ∀ p, core.glade_widget_get_parent w = some p →
        some p ∈ (Row.rows_of_list inspector.model).map Row.widget := by
      intro p hp
      have h1 : widget_edge core p ∈ before.map (widget_edge core) :=
        List.mem_map_of_mem _ (hpw p hp)
      have h2 := hinv.mem_iff.mpr h1
      rw [← edges_snd_list inspector.model none]
      exact List.mem_map.mpr ⟨_, h2, rfl⟩
    obtain ⟨m1, e1, hm1⟩ := add_widget_leaf core fuel inspector w
      (hleaf w (List.mem_cons_self _ _)) hrow
    have hinv1 : (Row.edges_of_list none
        ({ inspector with model := m1 } : GladeInspector).model).Perm
        ((before ++ [w]).map (widget_edge core)) := by
      rw [List.map_append]
      exact hm1.trans (List.Perm.append_right _ hinv)
    obtain ⟨m2, e2, hm2⟩ := ih (before ++ [w]) { inspector with model := m1 }
      (fun x hx => hleaf x (List.mem_cons_of_mem _ hx)) hrest hinv1
    refine ⟨m2, ?_, ?_⟩
    · simp only [deliver_add_widget, List.foldlM_cons, e1, Option.bind_eq_bind,
        Option.some_bind]
      exact e2
    · simpa using hm2

/-- C11, amended: for every list of widgets none of which has children attached
when it is notified, delivered parents first to an inspector whose view has no
row, every notification `project_add_widget_cb` returns and the view has one row
for each notification, the row of a toplevel widget at the top level and the row
of any other widget below a row of its parent; if no widget is notified twice,
each widget has exactly one row. -/
theorem parents_first_delivery (core : GladeCore) (fuel : Nat) (ws : List WidgetRef)
    (inspector : GladeInspector) (hm : inspector.model = [])
    (hleaf : ∀ w ∈ ws, core.glade_widget_adaptor_get_children w = [])
    (hpf : ParentsFirst core [] ws) :
    ∃ model, deliver_add_widget core (fuel + 1) inspector ws =
        some { inspector with model := model } ∧
      (Row.edges_of_list none model).Perm (ws.map (widget_edge core)) ∧
      (ws.Nodup → ((Row.rows_of_list model).map Row.widget).Nodup) := by
  obtain ⟨model, e, hp⟩ := deliver_leaves core fuel ws [] inspector hleaf hpf
    (by rw [hm]; exact List.Perm.refl _)
  rw [List.nil_append] at hp
  refine ⟨model, e, hp, ?_⟩
  intro hnd
  rw [← edges_snd_list model none]
  have h2 := (hp.map Prod.snd).nodup_iff.mpr
  apply h2
  rw [List.map_map]
  exact hnd.map (fun a b hab => by simpa [widget_edge] using hab)

/-- C11 with the widgets of the concrete project, added one after the other: the
window, the box, the button, the dialog and the label. -/
theorem parents_first_delivery_witness :
    ∃ model, deliver_add_widget window_core_growing 1 (empty_inspector (some 0) [])
        [11, 12, 13, 15, 14] = some { empty_inspector (some 0) [] with model := model } ∧
      (Row.edges_of_list none model).Perm
        ([11, 12, 13, 15, 14].map (widget_edge window_core_growing)) ∧
      ([11, 12, 13, 15, 14].Nodup → ((Row.rows_of_list model).map Row.widget).Nodup) :=
  parents_first_delivery window_core_growing 0 [11, 12, 13, 15, 14]
    (empty_inspector (some 0) []) rfl (fun _ _ => rfl)
    (by simp [ParentsFirst, window_core_growing, window_core])

/-- The five notifications for the concrete project in the order window, box,
button, label, dialog, one after the other. -/
theorem window_parents_first :
    deliver_add_widget window_core 3 (empty_inspector (some 0) []) [11, 12, 13, 14, 15] =
      some { empty_inspector (some 0) [] with
        model :=
          [Row.mk (some 11)
            [Row.mk (some 12)
              [Row.mk (some 13) [], Row.mk (some 14) [], Row.mk (some 13) [],
                Row.mk (some 14) []],
             Row.mk (some 12) [Row.mk (some 13) [], Row.mk (some 14) []]],
           Row.mk (some 15) []] } := by
  have s1 : project_add_widget_cb window_core 3 (empty_inspector (some 0) []) 11 =
      some { empty_inspector (some 0) [] with
        model := [Row.mk (some 11)
          [Row.mk (some 12) [Row.mk (some 13) [], Row.mk (some 14) []]]] } := by decide
  have s2 : project_add_widget_cb window_core 3
      { empty_inspector (some 0) [] with
        model := [Row.mk (some 11)
          [Row.mk (some 12) [Row.mk (some 13) [], Row.mk (some 14) []]]] } 12 =
      some { empty_inspector (some 0) [] with
        model := [Row.mk (some 11)
          [Row.mk (some 12) [Row.mk (some 13) [], Row.mk (some 14) []],
           Row.mk (some 12) [Row.mk (some 13) [], Row.mk (some 14) []]]] } := by decide
  have s3 : project_add_widget_cb window_core 3
      { empty_inspector (some 0) [] with
        model := [Row.mk (some 11)
          [Row.mk (some 12) [Row.mk (some 13) [], Row.mk (some 14) []],
           Row.mk (some 12) [Row.mk (some 13) [], Row.mk (some 14) []]]] } 13 =
      some { empty_inspector (some 0) [] with
        model := [Row.mk (some 11)
          [Row.mk (some 12) [Row.mk (some 13) [], Row.mk (some 14) [], Row.mk (some 13) []],
           Row.mk (some 12) [Row.mk (some 13) [], Row.mk (some 14) []]]] } := by decide
  have s4 : project_add_widget_cb window_core 3
      { empty_inspector (some 0) [] with
        model := [Row.mk (some 11)
          [Row.mk (some 12) [Row.mk (some 13) [], Row.mk (some 14) [], Row.mk (some 13) []],
           Row.mk (some 12) [Row.mk (some 13) [], Row.mk (some 14) []]]] } 14 =
      some { empty_inspector (some 0) [] with
        model := [Row.mk (some 11)
          [Row.mk (some 12)
            [Row.mk (some 13) [], Row.mk (some 14) [], Row.mk (some 13) [],
              Row.mk (some 14) []],
           Row.mk (some 12) [Row.mk (some 13) [], Row.mk (some 14) []]]] } := by decide
  have s5 : project_add_widget_cb window_core 3
      { empty_inspector (some 0) [] with
        model := [Row.mk (some 11)
          [Row.mk (some 12)
            [Row.mk (some 13) [], Row.mk (some 14) [], Row.mk (some 13) [],
              Row.mk (some 14) []],
           Row.mk (some 12) [Row.mk (some 13) [], Row.mk (some 14) []]]] } 15 =
      some { empty_inspector (some 0) [] with
        model :=
          [Row.mk (some 11)
            [Row.mk (some 12)
              [Row.mk (some 13) [], Row.mk (some 14) [], Row.mk (some 13) [],
                Row.mk (some 14) []],
             Row.mk (some 12) [Row.mk (some 13) [], Row.mk (some 14) []]],
           Row.mk (some 15) []] } := by decide
  simp only [deliver_add_widget, List.foldlM_cons, List.foldlM_nil, Option.bind_eq_bind,
    s1, s2, s3, s4, s5, Option.some_bind]
  rfl

/-- C11 fails on the concrete project, whose forest is in the project when the
notifications are delivered: in the order window, box, button, label, dialog,
which has every parent before its children, the notification for the window
already inserts the rows of the box, the button and the label, and the
notifications for these three insert rows again; the view has ten rows for five
widgets, two of them for the box. -/
theorem parents_first_delivery_counterexample :
    ParentsFirst window_core [] [11, 12, 13, 14, 15] ∧
    [11, 12, 13, 14, 15].Perm
      ((toplevel_widgets window_core 0).flatMap (descendants window_core 2)) ∧
    (∃ s, deliver_add_widget window_core 3 (empty_inspector (some 0) [])
        [11, 12, 13, 14, 15] = some s ∧
      s.model ≠ (toplevel_widgets window_core 0).map (subtree window_core 2) ∧
      (Row.rows_of_list s.model).length = 10 ∧
      ((Row.rows_of_list s.model).map Row.widget).count (some 12) = 2) :=
  ⟨by simp [ParentsFirst, window_core], by decide, _, window_parents_first, by decide,
    by decide, by decide⟩

/-! ## Removing the row of a widget -/

mutual

/-- A tree none of whose rows holds the widget has nothing to lose. -/
theorem without_row_id (w : WidgetRef) :
    ∀ r : Row, some w ∉ r.rows.map Row.widget → r.without w = r
  | .mk v cs, h => by
    simp only [Row.rows, List.map_cons, Row.widget_mk, List.mem_cons, not_or] at h
    rw [Row.without, without_list_id w cs h.2]

/-- A forest none of whose rows holds the widget has nothing to lose. -/
theorem without_list_id (w : WidgetRef) :
    ∀ rs : List Row, some w ∉ (Row.rows_of_list rs).map Row.widget →
      Row.without_list w rs = rs
  | [], _ => rfl
  | r :: rs, h => by
    rw [rows_widgets_cons, List.mem_append, not_or] at h
    have hr : r.widget ≠ some w := by
      intro e
      apply h.1
      cases r with
      | mk v cs => simp only [Row.rows, List.map_cons, Row.widget_mk, List.mem_cons]
                   exact Or.inl e.symm
    rw [Row.without_list, if_neg hr, without_row_id w r h.1, without_list_id w rs h.2]

end

/-- The widget of the root is among the widgets of the rows of a tree. -/
theorem root_widget_mem (r : Row) : r.widget ∈ r.rows.map Row.widget := by
  cases r with
  | mk v cs => simp [Row.rows]

/-- A list in which `a` occurs at most once and that has `a` in its first part
has no `a` in its second part. -/
theorem not_mem_of_count_le_one {α : Type} [BEq α] [LawfulBEq α] {a : α} {l1 l2 : List α}
    (h : (l1 ++ l2).count a ≤ 1) (h1 : a ∈ l1) : a ∉ l2 := by
  intro h2
  have c1 := List.count_pos_iff.mpr h1
  have c2 := List.count_pos_iff.mpr h2
  rw [List.count_append] at h
  omega

/-- An element occurs at most once in a list without duplicates. -/
theorem count_le_one_of_nodup {α : Type} [BEq α] [LawfulBEq α] (a : α) :
    ∀ l : List α, l.Nodup → l.count a ≤ 1 := by
  intro l
  induction l with
  | nil => intro _; simp
  | cons b l ih =>
    intro h
    obtain ⟨hb, hl⟩ := List.nodup_cons.mp h
    by_cases e : b = a
    · subst e
      rw [List.count_cons_self, List.count_eq_zero_of_not_mem hb]
    · rw [List.count_cons_of_ne (fun e2 => e e2.symm)]
      exact ih hl

mutual

/-- Removing the row the lookup finds in a tree that holds the widget once. -/
theorem find_iter_row_remove (w : WidgetRef) :
    ∀ (r : Row) (k : Nat) (iter : GtkTreeIter), find_iter_row w r k = some iter →
      (r.rows.map Row.widget).count (some w) ≤ 1 →
      ∀ (pre post : List Row), pre.length = k →
      some w ∉ (Row.rows_of_list post).map Row.widget →
      modify_children_at (fun rows => rows.eraseIdx iter.index) (pre ++ r :: post)
        iter.parent = pre ++ Row.without_list w (r :: post)
  | .mk v cs, k, iter, h, hc, pre, post, hk, hpost => by
    rw [find_iter_row] at h
    by_cases e : v = some w
    · rw [if_pos e] at h
      cases h
      subst hk
      rw [Row.without_list, if_pos (by simpa using e), without_list_id w post hpost]
      simp [modify_children_at, List.eraseIdx_append_of_length_le]
    · rw [if_neg e] at h
      cases hf : find_iter_rows w cs 0 with
      | none => rw [hf] at h; exact absurd h (by simp)
      | some it =>
        rw [hf] at h
        cases h
        subst hk
        have hc2 : ((Row.rows_of_list cs).map Row.widget).count (some w) ≤ 1 := by
          simp only [Row.rows, List.map_cons, Row.widget_mk] at hc
          rw [List.count_cons_of_ne (fun e2 => e e2.symm)] at hc
          exact hc
        have ih := find_iter_rows_remove w cs 0 it hf hc2 [] rfl
        rw [List.nil_append, List.nil_append] at ih
        rw [Row.without_list, if_neg (by simpa using e), without_list_id w post hpost,
          Row.without, ← ih]
        exact modify_children_at_index _ pre (Row.mk v cs) post it.parent

/-- Removing the row the lookup finds in a forest that holds the widget once. -/
theorem find_iter_rows_remove (w : WidgetRef) :
    ∀ (rs : List Row) (k : Nat) (iter : GtkTreeIter), find_iter_rows w rs k = some iter →
      ((Row.rows_of_list rs).map Row.widget).count (some w) ≤ 1 →
      ∀ (pre : List Row), pre.length = k →
      modify_children_at (fun rows => rows.eraseIdx iter.index) (pre ++ rs) iter.parent =
        pre ++ Row.without_list w rs
  | [], _, _, h, _, _, _ => by simp [find_iter_rows] at h
  | r :: rs, k, iter, h, hc, pre, hk => by
    rw [find_iter_rows] at h
    rw [rows_widgets_cons] at hc
    cases hr : find_iter_row w r k with
    | some it =>
      rw [hr] at h
      have e := Option.some.inj h
      subst e
      have hmem : some w ∈ r.rows.map Row.widget := by
        by_contra hn
        rw [find_iter_row_none w r k hn] at hr
        exact absurd hr (by simp)
      have hc1 : (r.rows.map Row.widget).count (some w) ≤ 1 := by
        rw [List.count_append] at hc
        omega
      exact find_iter_row_remove w r k it hr hc1 pre rs hk (not_mem_of_count_le_one hc hmem)
    | none =>
      rw [hr] at h
      have hnr : some w ∉ r.rows.map Row.widget := by
        intro hm
        obtain ⟨it, hi⟩ := find_iter_row_some w r k hm
        rw [hr] at hi
        exact absurd hi (by simp)
      have hc2 : ((Row.rows_of_list rs).map Row.widget).count (some w) ≤ 1 := by
        rw [List.count_append] at hc
        omega
      have ih := find_iter_rows_remove w rs (k + 1) iter h hc2 (pre ++ [r]) (by simp [hk])
      have hrw : r.widget ≠ some w := fun e => hnr (e ▸ root_widget_mem r)
      rw [Row.without_list, if_neg hrw, without_row_id w r hnr]
      simpa using ih

end
mutual

/-- In the display order of a tree that holds the widget once, below its root, the
rows that go away with the widget are one block: the row of the widget and the
rows that descend from it. -/
theorem without_row_edges (w : WidgetRef) :
    ∀ (r : Row) (up : Option WidgetRef), some w ∈ r.rows.map Row.widget →
      r.widget ≠ some w → (r.rows.map Row.widget).count (some w) ≤ 1 →
      ∃ (pre : List (Option WidgetRef × Option WidgetRef)) (sub : Row)
        (post : List (Option WidgetRef × Option WidgetRef)) (u : Option WidgetRef), sub.widget = some w ∧
        r.edges up = pre ++ sub.edges u ++ post ∧ (r.without w).edges up = pre ++ post
  | .mk v cs, up, hm, hv, hc => by
    simp only [Row.widget_mk] at hv
    simp only [Row.rows, List.map_cons, Row.widget_mk, List.mem_cons] at hm
    simp only [Row.rows, List.map_cons, Row.widget_mk] at hc
    rw [List.count_cons_of_ne hv.symm] at hc
    rcases hm with hm | hm
    · exact absurd hm.symm hv
    · obtain ⟨pre, sub, post, u, hs, e1, e2⟩ := without_list_edges w cs v hm hc
      exact ⟨(up, v) :: pre, sub, post, u, hs, by rw [edges_mk, e1]; rfl,
        by rw [Row.without, edges_mk, e2]; rfl⟩

/-- In the display order of a forest that holds the widget once, the rows that go
away with the widget are one block: the row of the widget and the rows that
descend from it. -/
theorem without_list_edges (w : WidgetRef) :
    ∀ (rs : List Row) (up : Option WidgetRef),
      some w ∈ (Row.rows_of_list rs).map Row.widget →
      ((Row.rows_of_list rs).map Row.widget).count (some w) ≤ 1 →
      ∃ (pre : List (Option WidgetRef × Option WidgetRef)) (sub : Row)
        (post : List (Option WidgetRef × Option WidgetRef)) (u : Option WidgetRef), sub.widget = some w ∧
        Row.edges_of_list up rs = pre ++ sub.edges u ++ post ∧
        Row.edges_of_list up (Row.without_list w rs) = pre ++ post
  | [], _, hm, _ => by simp [Row.rows_of_list] at hm
  | r :: rs, up, hm, hc => by
    rw [rows_widgets_cons] at hm hc
    by_cases hr : r.widget = some w
    · have hnot := not_mem_of_count_le_one hc (hr ▸ root_widget_mem r)
      exact ⟨[], r, Row.edges_of_list up rs, up, hr, by rw [Row.edges_of_list]; rfl,
        by rw [Row.without_list, if_pos hr, without_list_id w rs hnot]; rfl⟩
    · by_cases hin : some w ∈ r.rows.map Row.widget
      · have hnot := not_mem_of_count_le_one hc hin
        have hc1 : (r.rows.map Row.widget).count (some w) ≤ 1 := by
          rw [List.count_append] at hc
          omega
        obtain ⟨pre, sub, post, u, hs, e1, e2⟩ := without_row_edges w r up hin hr hc1
        refine ⟨pre, sub, post ++ Row.edges_of_list up rs, u, hs, ?_, ?_⟩
        · rw [Row.edges_of_list, e1]
          simp
        · rw [Row.without_list, if_neg hr, without_list_id w rs hnot, Row.edges_of_list, e2]
          simp
      · have hin2 : some w ∈ (Row.rows_of_list rs).map Row.widget := by
          rcases List.mem_append.mp hm with h | h
          · exact absurd h hin
          · exact h
        have hc2 : ((Row.rows_of_list rs).map Row.widget).count (some w) ≤ 1 := by
          rw [List.count_append] at hc
          omega
        obtain ⟨pre, sub, post, u, hs, e1, e2⟩ := without_list_edges w rs up hin2 hc2
        refine ⟨r.edges up ++ pre, sub, post, u, hs, ?_, ?_⟩
        · rw [Row.edges_of_list, e1]
          simp
        · rw [Row.without_list, if_neg hr, without_row_id w r hin, Row.edges_of_list, e2]
          simp

end

/-- The model after `project_remove_widget_cb`, in a view that holds the widget at
most once. -/
theorem remove_widget_model (inspector : GladeInspector) (w : WidgetRef)
    (hc : ((Row.rows_of_list inspector.model).map Row.widget).count (some w) ≤ 1) :
    (project_remove_widget_cb inspector w).model = Row.without_list w inspector.model := by
  rw [project_remove_widget_cb]
  cases hf : glade_util_find_iter_by_widget inspector.model w with
  | none =>
    rw [without_list_id w inspector.model ((find_iter_eq_none_iff _ _).mp hf)]
  | some iter =>
    have h := find_iter_rows_remove w inspector.model 0 iter hf hc [] rfl
    simpa [gtk_tree_store_remove] using h

/-- C12: in a view in which each widget has at most one row, for a widget `w` that
has a row, `project_remove_widget_cb` for `w` yields the view without the row of
`w` and without the rows that descend from it: in display order these rows are
one block, which starts with the row of `w`, and the rows before and after the
block are kept in their order, each below a row of the same widget as before; no
row of the view holds `w` afterwards. -/
theorem remove_widget_rows (inspector : GladeInspector) (w : WidgetRef)
    (hone : ∀ v, ((Row.rows_of_list inspector.model).map Row.widget).count (some v) ≤ 1)
    (hrow : some w ∈ (Row.rows_of_list inspector.model).map Row.widget) :
    (project_remove_widget_cb inspector w).model = Row.without_list w inspector.model ∧
    (∃ (pre : List (Option WidgetRef × Option WidgetRef)) (sub : Row)
        (post : List (Option WidgetRef × Option WidgetRef)) (u : Option WidgetRef), sub.widget = some w ∧
      Row.edges_of_list none inspector.model = pre ++ sub.edges u ++ post ∧
      Row.edges_of_list none (project_remove_widget_cb inspector w).model = pre ++ post) ∧
    some w ∉ (Row.rows_of_list (project_remove_widget_cb inspector w).model).map
      Row.widget := by
  have hm := remove_widget_model inspector w (hone w)
  obtain ⟨pre, sub, post, u, hs, e1, e2⟩ :=
    without_list_edges w inspector.model none hrow (hone w)
  refine ⟨hm, ⟨pre, sub, post, u, hs, e1, by rw [hm]; exact e2⟩, ?_⟩
  rw [hm, ← edges_snd_list _ none, e2]
  have hcount := hone w
  rw [← edges_snd_list _ none, e1] at hcount
  intro hmem
  have hsub : some w ∈ (sub.edges u).map Prod.snd := by
    rw [edges_snd_row]
    exact hs ▸ root_widget_mem sub
  simp only [List.map_append, List.count_append] at hcount
  have c1 := List.count_pos_iff.mpr hsub
  rw [List.map_append, List.mem_append] at hmem
  rcases hmem with h | h
  · have c2 := List.count_pos_iff.mpr h
    omega
  · have c2 := List.count_pos_iff.mpr h
    omega

/-- C12 on the rows of the concrete project: removing the box removes its row and
the rows of the button and the label, and keeps the rows of the window and of the
dialog. -/
theorem remove_widget_rows_witness :
    (project_remove_widget_cb
      { empty_inspector (some 0) [] with
        model := [subtree window_core 2 11, subtree window_core 2 15] } 12).model =
      Row.without_list 12 [subtree window_core 2 11, subtree window_core 2 15] ∧
    (∃ (pre : List (Option WidgetRef × Option WidgetRef)) (sub : Row)
        (post : List (Option WidgetRef × Option WidgetRef)) (u : Option WidgetRef), sub.widget = some 12 ∧
      Row.edges_of_list none [subtree window_core 2 11, subtree window_core 2 15] =
        pre ++ sub.edges u ++ post ∧
      Row.edges_of_list none (project_remove_widget_cb
        { empty_inspector (some 0) [] with
          model := [subtree window_core 2 11, subtree window_core 2 15] } 12).model =
        pre ++ post) ∧
    some 12 ∉ (Row.rows_of_list (project_remove_widget_cb
      { empty_inspector (some 0) [] with
        model := [subtree window_core 2 11, subtree window_core 2 15] } 12).model).map
      Row.widget :=
  remove_widget_rows
    { empty_inspector (some 0) [] with
      model := [subtree window_core 2 11, subtree window_core 2 15] } 12
    (by
      intro v
      have h : ((Row.rows_of_list ({ empty_inspector (some 0) [] with
          model := [subtree window_core 2 11, subtree window_core 2 15] } :
          GladeInspector).model).map Row.widget) =
          [some 11, some 12, some 13, some 14, some 15] := by decide
      rw [h]
      exact count_le_one_of_nodup (some v) _ (by decide))
    (by decide)

/-! ## Claims on the binding of the inspector -/

/-- One call of `glade_inspector_set_project` on an inspector that holds the
handlers of its project and no other. -/
theorem set_project_step (core : GladeCore) (height : WidgetRef → Nat) (n : Nat)
    (s : GladeInspector) (project : Option ProjectRef)
    (hs : s.connections = project_connections s.project)
    (hf : ∀ p, project = some p → ProjectForest core p height ∧
      ∀ w ∈ toplevel_widgets core p, height w ≤ n) :
    (set_project_release s).project = none ∧ (set_project_release s).connections = [] ∧
    ∃ t, glade_inspector_set_project core (n + 2) s project = some t ∧
      t.project = project ∧ t.connections = project_connections project := by
  have hrel : (set_project_release s).project = none ∧
      (set_project_release s).connections = [] := by
    rw [set_project_release]
    cases hp : s.project with
    | none =>
      rw [hp] at hs
      exact ⟨hp, hs⟩
    | some old =>
      rw [hp] at hs
      simp [disconnect_project_signals, hs, project_connections]
  refine ⟨hrel.1, hrel.2, ?_⟩
  have hdef : glade_inspector_set_project core (n + 2) s project =
      inspector_notify_cb core (n + 2)
        { set_project_install (set_project_release s) project with
          emitted := (set_project_install (set_project_release s) project).emitted ++
            [.notify "project"] } := rfl
  rw [hdef, inspector_notify_cb]
  cases project with
  | none =>
    have hu : ∀ x : GladeInspector, x.project = none →
        update_model core (n + 2) x = some { x with model := [], selected := [] } := by
      intro x hx
      simp [update_model, hx]
    rw [hu _ (by simpa [set_project_install] using hrel.1)]
    refine ⟨_, rfl, ?_, ?_⟩
    · simpa [set_project_install] using hrel.1
    · simpa [set_project_install, project_connections] using hrel.2
  | some p =>
    obtain ⟨hfp, hn⟩ := hf p rfl
    rw [update_model_eq core p height _ n hfp hn (by simp [set_project_install,
      connect_project_signals])]
    refine ⟨_, rfl, ?_, ?_⟩
    · simp [set_project_install, connect_project_signals]
    · simp [set_project_install, connect_project_signals, hrel.2, project_connections]

/-- A sequence of calls of `glade_inspector_set_project` on an inspector that
holds the handlers of its project and no other. -/
theorem set_project_calls_eq (core : GladeCore) (height : WidgetRef → Nat) (n : Nat) :
    ∀ (projects : List (Option ProjectRef)) (s : GladeInspector),
      s.connections = project_connections s.project →
      (∀ p, some p ∈ projects → ProjectForest core p height ∧
        ∀ w ∈ toplevel_widgets core p, height w ≤ n) →
      ∃ t, set_project_calls core (n + 2) s projects = some t ∧
        t.project = projects.getLast?.getD s.project ∧
        t.connections = project_connections t.project := by
  intro projects
  induction projects with
  | nil => intro s hs _; exact ⟨s, rfl, rfl, hs⟩
  | cons p ps ih =>
    intro s hs hf
    obtain ⟨_, _, t, e, hp, hc⟩ := set_project_step core height n s p hs
      (fun q hq => hf q (by simp [hq]))
    obtain ⟨u, e2, hp2, hc2⟩ := ih t (by rw [hc, hp])
      (fun q hq => hf q (List.mem_cons_of_mem _ hq))
    refine ⟨u, ?_, ?_, hc2⟩
    · simp only [set_project_calls, List.foldlM_cons, e, Option.bind_eq_bind,
        Option.some_bind]
      exact e2
    · rw [hp2, hp]
      cases ps with
      | nil => rfl
      | cons q qs =>
        rw [List.getLast?_cons_cons, List.getLast?_eq_getLast (q :: qs) (by simp)]
        rfl

/-- C18: after any sequence of calls of `glade_inspector_set_project` on a new
inspector, with projects whose widgets form finite forests or with `NULL`, every
call returns, `glade_inspector_get_project` returns the project of the last call
(`NULL` when that call passed `NULL` or when there was no call) and the handlers
the inspector has connected are exactly the four callbacks "add-widget",
"remove-widget", "widget-name-changed" and "selection-changed" of that project,
once each (none for `NULL`); in every call, from every state that holds the
handlers of its project and no other, the first block leaves the inspector
without project and without any handler before the second block stores the new
project and connects the four handlers. -/
theorem binding_invariant (core : GladeCore) (height : WidgetRef → Nat) (n : Nat)
    (projects : List (Option ProjectRef))
    (hf : ∀ p, some p ∈ projects → ProjectForest core p height ∧
      ∀ w ∈ toplevel_widgets core p, height w ≤ n) :
    (∃ t, set_project_calls core (n + 2) glade_inspector_new projects = some t ∧
      glade_inspector_get_project t = projects.getLast?.getD none ∧
      t.connections = project_connections (glade_inspector_get_project t) ∧
      (∀ c ∈ t.connections, some c.project = glade_inspector_get_project t) ∧
      t.connections.Nodup) ∧
    (∀ (s : GladeInspector) (project : Option ProjectRef) (fuel : Nat),
      s.connections = project_connections s.project →
      glade_inspector_set_project core fuel s project =
        inspector_notify_cb core fuel
          { set_project_install (set_project_release s) project with
            emitted := (set_project_install (set_project_release s) project).emitted ++
              [.notify "project"] } ∧
      glade_inspector_get_project (set_project_release s) = none ∧
      (set_project_release s).connections = [] ∧
      (set_project_install (set_project_release s) project).connections =
        project_connections project) := by
  refine ⟨?_, ?_⟩
  · obtain ⟨t, e, hp, hc⟩ := set_project_calls_eq core height n projects glade_inspector_new
      rfl hf
    refine ⟨t, e, hp, hc, ?_, ?_⟩
    · intro c hcm
      rw [hc] at hcm
      show some c.project = t.project
      cases hq : t.project with
      | none => rw [hq] at hcm; simp [project_connections] at hcm
      | some q =>
        rw [hq] at hcm
        simp only [project_connections, List.mem_cons, List.mem_singleton,
          List.not_mem_nil, or_false] at hcm
        rcases hcm with h | h | h | h <;> rw [h]
    · rw [hc]
      cases t.project with
      | none => simp [project_connections]
      | some q => simp [project_connections]
  · intro s project fuel hs
    have hrel : (set_project_release s).project = none ∧
        (set_project_release s).connections = [] := by
      rw [set_project_release]
      cases hp : s.project with
      | none =>
        rw [hp] at hs
        exact ⟨hp, hs⟩
      | some old =>
        rw [hp] at hs
        simp [disconnect_project_signals, hs, project_connections]
    refine ⟨rfl, hrel.1, hrel.2, ?_⟩
    cases project with
    | none => simpa [set_project_install, project_connections] using hrel.2
    | some p => simp [set_project_install, connect_project_signals, hrel.2, project_connections]

/-- C18 on the concrete project: bound, bound again, unbound and bound once more. -/
theorem binding_invariant_witness :
    (∃ t, set_project_calls window_core 4 glade_inspector_new [some 0, some 0, none, some 0] =
        some t ∧
      glade_inspector_get_project t = [some 0, some 0, none, some 0].getLast?.getD none ∧
      t.connections = project_connections (glade_inspector_get_project t) ∧
      (∀ c ∈ t.connections, some c.project = glade_inspector_get_project t) ∧
      t.connections.Nodup) ∧
    (∀ (s : GladeInspector) (project : Option ProjectRef) (fuel : Nat),
      s.connections = project_connections s.project →
      glade_inspector_set_project window_core fuel s project =
        inspector_notify_cb window_core fuel
          { set_project_install (set_project_release s) project with
            emitted := (set_project_install (set_project_release s) project).emitted ++
              [.notify "project"] } ∧
      glade_inspector_get_project (set_project_release s) = none ∧
      (set_project_release s).connections = [] ∧
      (set_project_install (set_project_release s) project).connections =
        project_connections project) :=
  binding_invariant window_core window_height 2 [some 0, some 0, none, some 0]
    (fun p _ => ⟨by
      have h : ∀ q : ProjectRef, ProjectForest window_core q window_height := fun q =>
        { has_widget := window_core_forest.has_widget
          objects_nodup := window_core_forest.objects_nodup
          parent_of_child := window_core_forest.parent_of_child
          children_nodup := window_core_forest.children_nodup
          height_child := window_core_forest.height_child }
      exact h p, by
      have h : ∀ w ∈ toplevel_widgets window_core 0, window_height w ≤ 2 := by decide
      exact h⟩)
/-! ## Claims on the selector button -/

/-- Building the sections leaves the pointer mode of the application as it is. -/
theorem set_catalogs_pointer_mode (mem : GladePalette) (catalogs : List GladeCatalog) :
    (glade_palette_set_catalogs .palette_instance catalogs (glade_palette_init mem)).pointer_mode =
      mem.pointer_mode := by
  apply set_catalogs_induction
      (fun t => t.pointer_mode = mem.pointer_mode)
  · rfl
  · intro g t ht
    rw [← ht]
    exact (core_fields (append_item_group_spec g t).2.2.2.2).2.2.2.2.2.1

/-! ## The selection handlers: runs with the other handler blocked -/

/-- An emission of "changed" while `selection_changed_cb` is blocked runs no
handler. -/
theorem emit_changed_blocked (n : Nat) (core : GladeCore) (app : InspectorApp)
    (hb : app.selection_changed_cb_blocked ≠ 0) :
    gtk_tree_selection_emit_changed (n + 1) core app = some app := by
  simp [gtk_tree_selection_emit_changed, hb]

/-- The call `gtk_tree_selection_unselect_all` while `selection_changed_cb` is
blocked. -/
theorem unselect_all_blocked (n : Nat) (core : GladeCore) (app : InspectorApp)
    (hb : app.selection_changed_cb_blocked ≠ 0) :
    gtk_tree_selection_unselect_all (n + 2) core app =
      some { app with inspector := { app.inspector with selected := [] } } := by
  rw [gtk_tree_selection_unselect_all]
  by_cases h : app.inspector.selected = []
  · rw [if_pos h]
    cases app with
    | mk inspector a b c d e f g =>
      cases inspector with
      | mk p m s cn em =>
        simp only at h
        subst h
        rfl
  · rw [if_neg h]
    exact emit_changed_blocked n core _ hb

/-- The call `gtk_tree_selection_select_iter` while `selection_changed_cb` is
blocked. -/
theorem select_iter_blocked (n : Nat) (core : GladeCore) (iter : GtkTreeIter)
    (app : InspectorApp) (hb : app.selection_changed_cb_blocked ≠ 0) :
    gtk_tree_selection_select_iter (n + 2) core iter app =
      some { app with
        inspector := { app.inspector with
          selected := if iter.path ∈ app.inspector.selected then app.inspector.selected
            else app.inspector.selected ++ [iter.path] } } := by
  rw [gtk_tree_selection_select_iter]
  by_cases h : iter.path ∈ app.inspector.selected
  · rw [if_pos h, if_pos h]
  · rw [if_neg h, if_neg h]
    exact emit_changed_blocked n core _ hb

/-- The body of the loop of `project_selection_changed_cb` while
`selection_changed_cb` is blocked. -/
theorem selection_changed_row_blocked (n : Nat) (core : GladeCore) (app : InspectorApp)
    (object : GObject) (hb : app.selection_changed_cb_blocked ≠ 0) :
    project_selection_changed_row (n + 3) core app object =
      some { app with
        inspector := { app.inspector with
          selected := select_object_row core app.inspector.model app.inspector.selected
            object } } := by
  rw [project_selection_changed_row, select_object_row]
  cases core.glade_widget_get_from_gobject object with
  | none => rfl
  | some widget =>
    simp only
    cases glade_util_find_iter_by_widget app.inspector.model widget with
    | none => rfl
    | some iter => exact select_iter_blocked n core iter app hb

/-- The loop of `project_selection_changed_cb` while `selection_changed_cb` is
blocked. -/
theorem selection_changed_loop_blocked (n : Nat) (core : GladeCore) :
    ∀ (objects : List GObject) (app : InspectorApp), app.selection_changed_cb_blocked ≠ 0 →
      List.foldlM (project_selection_changed_row (n + 3) core) app objects =
        some { app with
          inspector := { app.inspector with
            selected := objects.foldl (select_object_row core app.inspector.model)
              app.inspector.selected } } := by
  intro objects
  induction objects with
  | nil => intro app _; rfl
  | cons o os ih =>
    intro app hb
    rw [List.foldlM_cons, selection_changed_row_blocked n core app o hb]
    simp only [Option.bind_eq_bind, Option.some_bind]
    exact ih { app with
      inspector := { app.inspector with
        selected := select_object_row core app.inspector.model app.inspector.selected o } } hb

/-- The run of `project_selection_changed_cb` for the bound project when the view
has its selection object. -/
theorem project_selection_changed_eq (n : Nat) (core : GladeCore) (project : ProjectRef)
    (app : InspectorApp) (hp : app.inspector.project = some project)
    (hv : app.view_selection = true) :
    project_selection_changed_cb (n + 4) core project app =
      some { app with
        inspector := { app.inspector with
          selected := (selection_loop_objects (core.glade_project_selection_get project)).foldl
            (select_object_row core app.inspector.model) [] } } := by
  have hb : (block_selection_changed_cb app).selection_changed_cb_blocked ≠ 0 := by
    simp [block_selection_changed_cb, hv]
  rw [project_selection_changed_cb, if_neg (by simp [hp]),
    if_neg (by simp [block_selection_changed_cb, hv]),
    unselect_all_blocked (n + 1) core _ hb]
  simp only [Option.some_bind]
  have hl := selection_changed_loop_blocked n core
    (selection_loop_objects (core.glade_project_selection_get project))
    { block_selection_changed_cb app with
      inspector := { (block_selection_changed_cb app).inspector with selected := [] } } hb
  rw [hl]
  simp [block_selection_changed_cb, unblock_selection_changed_cb, hv]
/-- The row at a path that goes on below child `k`. -/
theorem row_at_cons (rows : List Row) (k : Nat) (q : GtkTreePath) (hq : q ≠ []) :
    row_at rows (k :: q) = (rows[k]?).bind fun r => row_at r.children q := by
  cases q with
  | nil => exact absurd rfl hq
  | cons j p =>
    rw [row_at]
    cases rows[k]? <;> rfl

/-- The path of an iterator is not empty. -/
theorem iter_path_ne_nil (iter : GtkTreeIter) : iter.path ≠ [] := by
  simp [GtkTreeIter.path]

/-- The element that follows the list `pre`. -/
theorem getElem?_after (pre : List Row) (r : Row) (post : List Row) :
    (pre ++ r :: post)[pre.length]? = some r := by
  rw [List.getElem?_append_right (Nat.le_refl _), Nat.sub_self]
  simp

mutual

/-- The iterator the lookup finds in a tree points to a row that holds the
widget. -/
theorem find_iter_row_at (w : WidgetRef) :
    ∀ (r : Row) (k : Nat) (iter : GtkTreeIter), find_iter_row w r k = some iter →
      ∀ (pre post : List Row), pre.length = k →
      ∃ row, row_at (pre ++ r :: post) iter.path = some row ∧ row.widget = some w
  | .mk v cs, k, iter, h, pre, post, hk => by
    rw [find_iter_row] at h
    by_cases e : v = some w
    · rw [if_pos e] at h
      cases h
      subst hk
      refine ⟨Row.mk v cs, ?_, e⟩
      show row_at (pre ++ Row.mk v cs :: post) [pre.length] = _
      rw [row_at]
      exact getElem?_after pre _ post
    · rw [if_neg e] at h
      cases hf : find_iter_rows w cs 0 with
      | none => rw [hf] at h; exact absurd h (by simp)
      | some it =>
        rw [hf] at h
        cases h
        subst hk
        obtain ⟨row, hr, hw⟩ := find_iter_rows_at w cs 0 it hf [] rfl
        refine ⟨row, ?_, hw⟩
        show row_at (pre ++ Row.mk v cs :: post) (pre.length :: it.path) = _
        rw [row_at_cons _ _ _ (iter_path_ne_nil it), getElem?_after]
        exact hr

/-- The iterator the lookup finds in a forest points to a row that holds the
widget. -/
theorem find_iter_rows_at (w : WidgetRef) :
    ∀ (rs : List Row) (k : Nat) (iter : GtkTreeIter), find_iter_rows w rs k = some iter →
      ∀ (pre : List Row), pre.length = k →
      ∃ row, row_at (pre ++ rs) iter.path = some row ∧ row.widget = some w
  | [], _, _, h, _, _ => by simp [find_iter_rows] at h
  | r :: rs, k, iter, h, pre, hk => by
    rw [find_iter_rows] at h
    cases hr : find_iter_row w r k with
    | some it =>
      rw [hr] at h
      have e := Option.some.inj h
      subst e
      exact find_iter_row_at w r k it hr pre rs hk
    | none =>
      rw [hr] at h
      have ih := find_iter_rows_at w rs (k + 1) iter h (pre ++ [r]) (by simp [hk])
      simpa using ih

end

/-- The iterator `glade_util_find_iter_by_widget` returns points to a row of the
model that holds the widget. -/
theorem find_iter_row_at_model (model : List Row) (w : WidgetRef) (iter : GtkTreeIter)
    (h : glade_util_find_iter_by_widget model w = some iter) :
    ∃ row, row_at model iter.path = some row ∧ row.widget = some w := by
  have := find_iter_rows_at w model 0 iter h [] rfl
  simpa using this

/-- The rows selected by the loop of `project_selection_changed_cb`: the rows
selected before and the rows found for the widgets of the objects. -/
theorem mem_select_objects (core : GladeCore) (model : List Row) (p : GtkTreePath) :
    ∀ (objects : List GObject) (selected : List GtkTreePath),
      p ∈ objects.foldl (select_object_row core model) selected ↔
        p ∈ selected ∨ ∃ o ∈ objects, ∃ w iter, core.glade_widget_get_from_gobject o = some w ∧
          glade_util_find_iter_by_widget model w = some iter ∧ p = iter.path := by
  intro objects
  induction objects with
  | nil => intro selected; simp
  | cons o os ih =>
    intro selected
    rw [List.foldl_cons, ih]
    have hstep : p ∈ select_object_row core model selected o ↔
        p ∈ selected ∨ ∃ w iter, core.glade_widget_get_from_gobject o = some w ∧
          glade_util_find_iter_by_widget model w = some iter ∧ p = iter.path := by
      rw [select_object_row]
      cases hw : core.glade_widget_get_from_gobject o with
      | none =>
        constructor
        · exact Or.inl
        · rintro (h | ⟨w, it, h1, _⟩)
          · exact h
          · exact absurd h1 (by simp)
      | some w =>
        simp only
        cases hi : glade_util_find_iter_by_widget model w with
        | none =>
          constructor
          · exact Or.inl
          · rintro (h | ⟨w2, it, h1, h2, _⟩)
            · exact h
            · rw [← Option.some.inj h1, hi] at h2
              exact absurd h2 (by simp)
        | some iter =>
          simp only
          constructor
          · intro h
            by_cases hm : iter.path ∈ selected
            · rw [if_pos hm] at h
              exact Or.inl h
            · rw [if_neg hm, List.mem_append, List.mem_singleton] at h
              rcases h with h | h
              · exact Or.inl h
              · exact Or.inr ⟨w, iter, rfl, hi, h⟩
          · rintro (h | ⟨w2, it, h1, h2, h3⟩)
            · by_cases hm : iter.path ∈ selected
              · rw [if_pos hm]; exact h
              · rw [if_neg hm]; exact List.mem_append_left _ h
            · rw [← Option.some.inj h1, hi] at h2
              have e := Option.some.inj h2
              subst e
              by_cases hm : iter.path ∈ selected
              · rw [if_pos hm, h3]; exact hm
              · rw [if_neg hm, h3]; simp
    rw [hstep]
    simp only [List.mem_cons, exists_eq_or_imp]
    exact or_assoc

/-- The selected rows `gtk_tree_selection_get_selected_rows` returns are the
selected paths that lead to a row of the model. -/
theorem mem_selected_rows (inspector : GladeInspector) (p : GtkTreePath) :
    p ∈ gtk_tree_selection_get_selected_rows inspector ↔
      p ∈ inspector.selected ∧ (row_at inspector.model p).isSome = true := by
  rw [gtk_tree_selection_get_selected_rows, (List.perm_insertionSort _ _).mem_iff,
    List.mem_filter]

/-- The widgets a loop that prepends collects. -/
theorem mem_foldl_prepend {α β : Type} (f : α → β) (x : β) :
    ∀ (l : List α) (acc : List β),
      x ∈ l.foldl (fun items a => f a :: items) acc ↔ x ∈ acc ∨ ∃ a ∈ l, x = f a := by
  intro l
  induction l with
  | nil => intro acc; simp
  | cons a l ih =>
    intro acc
    rw [List.foldl_cons, ih]
    simp only [List.mem_cons, exists_eq_or_imp]
    tauto

/-- The items `glade_inspector_get_selected_items` returns: the widgets of the
selected rows. -/
theorem mem_selected_items (app : InspectorApp) (hv : app.view_selection = true)
    (x : Option WidgetRef) :
    x ∈ glade_inspector_get_selected_items app ↔
      ∃ p ∈ app.inspector.selected, ∃ row, row_at app.inspector.model p = some row ∧
        x = row.widget := by
  rw [glade_inspector_get_selected_items, if_pos hv, mem_foldl_prepend]
  simp only [List.not_mem_nil, false_or, mem_selected_rows]
  constructor
  · rintro ⟨p, ⟨hp, hr⟩, hx⟩
    obtain ⟨row, hrow⟩ := Option.isSome_iff_exists.mp hr
    exact ⟨p, hp, row, hrow, by rw [hx, hrow]; rfl⟩
  · rintro ⟨p, hp, row, hrow, hx⟩
    exact ⟨p, ⟨hp, by rw [hrow]; rfl⟩, by rw [hx, hrow]; rfl⟩
/-! ## Claims on the selection handlers -/

/-- C14: for a project bound to the inspector whose selection holds objects of
widgets that each have a row in the view, and whatever rows were selected before,
`project_selection_changed_cb` returns for all fuel from 4 on, leaves the model as
it is, and afterwards `glade_inspector_get_selected_items` returns a list whose
elements are exactly the widgets of the objects of the selection: every widget of
the selection is in the list, and nothing else is. -/
theorem selection_round_trip (core : GladeCore) (project : ProjectRef) (app : InspectorApp)
    (n : Nat) (hp : app.inspector.project = some project) (hv : app.view_selection = true)
    (hsel : ∀ o ∈ core.glade_project_selection_get project, o ≠ 0 ∧
      ∃ w, core.glade_widget_get_from_gobject o = some w ∧
        some w ∈ (Row.rows_of_list app.inspector.model).map Row.widget) :
    ∃ app2, project_selection_changed_cb (n + 4) core project app = some app2 ∧
      app2.inspector.model = app.inspector.model ∧
      (∀ x, x ∈ glade_inspector_get_selected_items app2 ↔
        ∃ o ∈ core.glade_project_selection_get project,
          x = core.glade_widget_get_from_gobject o) ∧
      (∀ w, some w ∈ glade_inspector_get_selected_items app2 ↔
        w ∈ (core.glade_project_selection_get project).filterMap
          core.glade_widget_get_from_gobject) := by
  have hloop : selection_loop_objects (core.glade_project_selection_get project) =
      core.glade_project_selection_get project := by
    rw [selection_loop_objects, List.takeWhile_eq_self_iff]
    intro o ho
    simpa using (hsel o ho).1
  have hitems : ∀ x, x ∈ glade_inspector_get_selected_items
      { app with
        inspector := { app.inspector with
          selected := (core.glade_project_selection_get project).foldl
            (select_object_row core app.inspector.model) [] } } ↔
      ∃ o ∈ core.glade_project_selection_get project,
        x = core.glade_widget_get_from_gobject o := by
    intro x
    rw [mem_selected_items
      { app with
        inspector := { app.inspector with
          selected := (core.glade_project_selection_get project).foldl
            (select_object_row core app.inspector.model) [] } } hv]
    simp only [mem_select_objects, List.not_mem_nil, false_or]
    constructor
    · rintro ⟨p, ⟨o, ho, w, iter, hw, hi, hpi⟩, row, hrow, hx⟩
      obtain ⟨row2, hrow2, hw2⟩ := find_iter_row_at_model _ w iter hi
      rw [hpi, hrow2] at hrow
      have e := Option.some.inj hrow
      subst e
      exact ⟨o, ho, by rw [hx, hw2, hw]⟩
    · rintro ⟨o, ho, hx⟩
      obtain ⟨_, w, hw, hrow⟩ := hsel o ho
      obtain ⟨iter, hi⟩ := find_iter_rows_some w app.inspector.model 0 hrow
      obtain ⟨row, hrow2, hw2⟩ := find_iter_row_at_model _ w iter hi
      exact ⟨iter.path, ⟨o, ho, w, iter, hw, hi, rfl⟩, row, hrow2, by rw [hx, hw, hw2]⟩
  refine ⟨_, project_selection_changed_eq n core project app hp hv, rfl, ?_, ?_⟩
  · rw [hloop]
    exact hitems
  · intro w
    rw [hloop, hitems (some w)]
    simp only [List.mem_filterMap]
    constructor
    · rintro ⟨o, ho, hx⟩
      exact ⟨o, ho, hx.symm⟩
    · rintro ⟨o, ho, hx⟩
      exact ⟨o, ho, hx.symm⟩

/-- C14 on the concrete project: the window and the dialog are selected in the
view and the project selects the button and the label, the button twice;
afterwards the selected items are the button and the label. -/
theorem selection_round_trip_witness :
    ∃ app2, project_selection_changed_cb 4 button_label_core 0 window_app = some app2 ∧
      app2.inspector.model = window_app.inspector.model ∧
      (∀ x, x ∈ glade_inspector_get_selected_items app2 ↔
        ∃ o ∈ button_label_core.glade_project_selection_get 0,
          x = button_label_core.glade_widget_get_from_gobject o) ∧
      (∀ w, some w ∈ glade_inspector_get_selected_items app2 ↔
        w ∈ (button_label_core.glade_project_selection_get 0).filterMap
          button_label_core.glade_widget_get_from_gobject) :=
  selection_round_trip button_label_core 0 window_app 0 rfl rfl (by decide)

/-- The call `glade_app_selection_add (object, FALSE)`. -/
theorem selection_add_quiet (n : Nat) (core : GladeCore) (object : Option GObject)
    (app : InspectorApp) :
    glade_app_selection_add (n + 1) core object false app =
      some { app with
        app_selection :=
          match object with
          | some o => if o ∈ app.app_selection then app.app_selection
            else app.app_selection ++ [o]
          | none => app.app_selection } := by
  cases object with
  | none => simp [glade_app_selection_add]
  | some o => simp [glade_app_selection_add]

/-- The call of `selection_foreach_func` for one selected row. -/
theorem selection_foreach_eq (n : Nat) (core : GladeCore) (app : InspectorApp)
    (path : GtkTreePath) :
    selection_foreach_func (n + 2) core app path =
      some { app with
        app_selection := add_row_object core app.inspector.model app.app_selection path } := by
  rw [selection_foreach_func, selection_add_quiet, add_row_object]

/-- The calls of `selection_foreach_func` for the selected rows. -/
theorem selection_foreach_loop (n : Nat) (core : GladeCore) :
    ∀ (paths : List GtkTreePath) (app : InspectorApp),
      List.foldlM (selection_foreach_func (n + 2) core) app paths =
        some { app with
          app_selection := paths.foldl (add_row_object core app.inspector.model)
            app.app_selection } := by
  intro paths
  induction paths with
  | nil => intro app; rfl
  | cons p ps ih =>
    intro app
    rw [List.foldlM_cons, selection_foreach_eq]
    simp only [Option.bind_eq_bind, Option.some_bind]
    exact ih { app with
      app_selection := add_row_object core app.inspector.model app.app_selection p }

/-- The commit of the selection while the handler of the inspector is blocked or
not connected: the project emits its signal and the handler does not run. -/
theorem selection_changed_quiet (n : Nat) (core : GladeCore) (app : InspectorApp)
    (hb : project_handler_connected app.inspector = true →
      app.project_selection_changed_cb_blocked ≠ 0) :
    glade_app_selection_changed (n + 1) core app =
      some { app with project_selection_changed := app.project_selection_changed + 1 } := by
  rw [glade_app_selection_changed]
  cases hp : app.inspector.project with
  | none => rfl
  | some project =>
    simp only
    rw [if_neg]
    intro h
    exact hb h.1 h.2

/-- The run of `selection_changed_cb`. -/
theorem selection_changed_eq (n : Nat) (core : GladeCore) (app : InspectorApp) :
    selection_changed_cb (n + 3) core app =
      some { app with
        app_selection := (gtk_tree_selection_get_selected_rows app.inspector).foldl
          (add_row_object core app.inspector.model) []
        project_selection_changed := app.project_selection_changed + 1
        inspector := { app.inspector with
          emitted := app.inspector.emitted ++ [InspectorSignal.selection_changed] } } := by
  rw [selection_changed_cb]
  have hclear : glade_app_selection_clear (n + 2) core false
      (block_project_selection_changed_cb app) =
      some { block_project_selection_changed_cb app with app_selection := [] } := by
    simp [glade_app_selection_clear]
  rw [hclear]
  simp only [Option.some_bind]
  rw [selection_foreach_loop n core]
  simp only [Option.some_bind]
  rw [selection_changed_quiet (n + 1) core _ (by
    intro h
    have h2 : project_handler_connected app.inspector = true := by
      by_cases c : project_handler_connected app.inspector = true
      · exact c
      · simp [block_project_selection_changed_cb, c] at h
    simp [block_project_selection_changed_cb, h2])]
  simp only [Option.some_bind]
  by_cases c : project_handler_connected app.inspector = true
  · simp [block_project_selection_changed_cb, unblock_project_selection_changed_cb, c]
  · simp [block_project_selection_changed_cb, unblock_project_selection_changed_cb, c]

/-- The objects `selection_foreach_func` adds for a list of rows: the objects of
the widgets of the rows. -/
theorem mem_add_row_objects (core : GladeCore) (model : List Row) (o : GObject) :
    ∀ (paths : List GtkTreePath) (acc : List GObject),
      o ∈ paths.foldl (add_row_object core model) acc ↔
        o ∈ acc ∨ ∃ p ∈ paths, ∃ row w, row_at model p = some row ∧ row.widget = some w ∧
          o = core.glade_widget_get_object w := by
  intro paths
  induction paths with
  | nil => intro acc; simp
  | cons p ps ih =>
    intro acc
    rw [List.foldl_cons, ih]
    have hstep : o ∈ add_row_object core model acc p ↔
        o ∈ acc ∨ ∃ row w, row_at model p = some row ∧ row.widget = some w ∧
          o = core.glade_widget_get_object w := by
      rw [add_row_object]
      cases hr : row_at model p with
      | none =>
        constructor
        · exact Or.inl
        · rintro (h | ⟨row, w, h1, _⟩)
          · exact h
          · exact absurd h1 (by simp)
      | some row =>
        cases hw : row.widget with
        | none =>
          simp only [Option.some_bind, hw, Option.map_none']
          constructor
          · exact Or.inl
          · rintro (h | ⟨row2, w, h1, h2, _⟩)
            · exact h
            · rw [← Option.some.inj h1, hw] at h2
              exact absurd h2 (by simp)
        | some w =>
          simp only [Option.some_bind, hw, Option.map_some']
          constructor
          · intro h
            by_cases hm : core.glade_widget_get_object w ∈ acc
            · rw [if_pos hm] at h
              exact Or.inl h
            · rw [if_neg hm, List.mem_append, List.mem_singleton] at h
              rcases h with h | h
              · exact Or.inl h
              · exact Or.inr ⟨row, w, rfl, hw, h⟩
          · rintro (h | ⟨row2, w2, h1, h2, h3⟩)
            · by_cases hm : core.glade_widget_get_object w ∈ acc
              · rw [if_pos hm]; exact h
              · rw [if_neg hm]; exact List.mem_append_left _ h
            · rw [← Option.some.inj h1, hw] at h2
              have e := Option.some.inj h2
              subst e
              by_cases hm : core.glade_widget_get_object w ∈ acc
              · rw [if_pos hm, h3]; exact hm
              · rw [if_neg hm, h3]; simp
    rw [hstep]
    simp only [List.mem_cons, exists_eq_or_imp]
    exact or_assoc

/-- No object is added twice by `selection_foreach_func`. -/
theorem nodup_add_row_objects (core : GladeCore) (model : List Row) :
    ∀ (paths : List GtkTreePath) (acc : List GObject), acc.Nodup →
      (paths.foldl (add_row_object core model) acc).Nodup := by
  intro paths
  induction paths with
  | nil => intro acc h; exact h
  | cons p ps ih =>
    intro acc h
    rw [List.foldl_cons]
    apply ih
    rw [add_row_object]
    cases ((row_at model p).bind Row.widget).map core.glade_widget_get_object with
    | none => exact h
    | some o =>
      simp only
      by_cases hm : o ∈ acc
      · rw [if_pos hm]; exact h
      · rw [if_neg hm]
        exact List.Nodup.append h (List.nodup_singleton o) (by simpa using hm)

/-- C15: whatever the selection of the application was before, and whether or not
the handlers of the inspector are connected or blocked, `selection_changed_cb`
returns for all fuel from 3 on; afterwards the selection of the application
consists of exactly the objects of the widgets of the selected rows, each once;
the project has emitted "selection-changed" once; no handler of the inspector has
run in between, so `project_selection_changed_cb` has not; the model and the
selected rows are as before and the inspector has emitted "selection-changed". -/
theorem view_to_project_selection (core : GladeCore) (app : InspectorApp) (n : Nat) :
    ∃ app2, selection_changed_cb (n + 3) core app = some app2 ∧
      (∀ o, o ∈ app2.app_selection ↔
        ∃ p ∈ gtk_tree_selection_get_selected_rows app.inspector,
          ∃ row w, row_at app.inspector.model p = some row ∧ row.widget = some w ∧
            o = core.glade_widget_get_object w) ∧
      app2.app_selection.Nodup ∧
      app2.project_selection_changed = app.project_selection_changed + 1 ∧
      app2.handler_runs = app.handler_runs ∧
      app2.inspector.model = app.inspector.model ∧
      app2.inspector.selected = app.inspector.selected ∧
      app2.inspector.emitted = app.inspector.emitted ++ [InspectorSignal.selection_changed] := by
  refine ⟨_, selection_changed_eq n core app, ?_, ?_, rfl, rfl, rfl, rfl, rfl⟩
  · intro o
    have h := mem_add_row_objects core app.inspector.model o
      (gtk_tree_selection_get_selected_rows app.inspector) []
    simp only [List.not_mem_nil, false_or] at h
    exact h
  · exact nodup_add_row_objects core app.inspector.model _ [] List.nodup_nil

/-- The run of `selection_changed_cb` on the concrete project, where the rows of
the dialog and of the window are selected and the application had the objects in
the other order. -/
theorem window_selection_changed :
    selection_changed_cb 3 window_core window_app =
      some { window_app with
        app_selection := [5, 1]
        project_selection_changed := 1
        inspector := { window_app.inspector with
          emitted := [InspectorSignal.selection_changed] } } := by
  rw [selection_changed_eq 0 window_core window_app]
  decide

/-- C15 on the concrete project, with the rows of the dialog and of the window
selected. -/
theorem view_to_project_selection_witness :
    ∃ app2, selection_changed_cb 3 window_core window_app = some app2 ∧
      (∀ o, o ∈ app2.app_selection ↔
        ∃ p ∈ gtk_tree_selection_get_selected_rows window_app.inspector,
          ∃ row w, row_at window_app.inspector.model p = some row ∧ row.widget = some w ∧
            o = window_core.glade_widget_get_object w) ∧
      app2.app_selection.Nodup ∧
      app2.project_selection_changed = window_app.project_selection_changed + 1 ∧
      app2.handler_runs = window_app.handler_runs ∧
      app2.inspector.model = window_app.inspector.model ∧
      app2.inspector.selected = window_app.inspector.selected ∧
      app2.inspector.emitted =
        window_app.inspector.emitted ++ [InspectorSignal.selection_changed] :=
  view_to_project_selection window_core window_app 0
/-- C16: on every path through `project_selection_changed_cb` and through
`selection_changed_cb`, for all fuel from 4 on, the callback returns with the
block count of `selection_changed_cb` and the block count of
`project_selection_changed_cb` as they were before the call, and no handler of the
inspector has run in between: when the project is not the bound one nothing is
blocked; when the view has no selection object the call that blocks finds no
handler, so the early return that follows leaves nothing blocked; on the other
paths the handler blocked at the start is unblocked at the end. -/
theorem scoped_suppression (core : GladeCore) (project : ProjectRef) (app : InspectorApp)
    (n : Nat) :
    (∃ app2, project_selection_changed_cb (n + 4) core project app = some app2 ∧
      app2.selection_changed_cb_blocked = app.selection_changed_cb_blocked ∧
      app2.project_selection_changed_cb_blocked = app.project_selection_changed_cb_blocked ∧
      app2.handler_runs = app.handler_runs) ∧
    (∃ app3, selection_changed_cb (n + 4) core app = some app3 ∧
      app3.selection_changed_cb_blocked = app.selection_changed_cb_blocked ∧
      app3.project_selection_changed_cb_blocked = app.project_selection_changed_cb_blocked ∧
      app3.handler_runs = app.handler_runs) := by
  refine ⟨?_, _, selection_changed_eq (n + 1) core app, rfl, rfl, rfl⟩
  by_cases hp : app.inspector.project = some project
  · cases hv : app.view_selection with
    | true => exact ⟨_, project_selection_changed_eq n core project app hp hv, rfl, rfl, rfl⟩
    | false =>
      refine ⟨app, ?_, rfl, rfl, rfl⟩
      rw [project_selection_changed_cb, if_neg (by simp [hp]),
        if_pos (by simp [block_selection_changed_cb, hv])]
      simp [block_selection_changed_cb, hv]
  · refine ⟨app, ?_, rfl, rfl, rfl⟩
    rw [project_selection_changed_cb, if_pos hp]

/-- The concrete inspector after its view was destroyed: there is no selection
object. -/
theorem window_no_selection_object :
    project_selection_changed_cb 4 button_label_core 0
        { window_app with view_selection := false } =
      some { window_app with view_selection := false } := by
  decide

/-- C16 on the concrete project, whose handlers are connected and not blocked. -/
theorem scoped_suppression_witness :
    (∃ app2, project_selection_changed_cb 4 button_label_core 0 window_app = some app2 ∧
      app2.selection_changed_cb_blocked = window_app.selection_changed_cb_blocked ∧
      app2.project_selection_changed_cb_blocked =
        window_app.project_selection_changed_cb_blocked ∧
      app2.handler_runs = window_app.handler_runs) ∧
    (∃ app3, selection_changed_cb 4 button_label_core window_app = some app3 ∧
      app3.selection_changed_cb_blocked = window_app.selection_changed_cb_blocked ∧
      app3.project_selection_changed_cb_blocked =
        window_app.project_selection_changed_cb_blocked ∧
      app3.handler_runs = window_app.handler_runs) :=
  scoped_suppression button_label_core 0 window_app 0

/-- C17: `button_press_cb` returns `TRUE` exactly when the event was delivered to
the bin window of the view, `gtk_tree_view_get_path_at_pos` finds a path at the
position of the pointer, the path leads to a row of the model, the row holds a
widget and the button is 3; it then opens the context menu for that widget and
does nothing else; in every other case it returns `FALSE` and changes nothing;
in no case does it change the inspector, with its model and its selected rows, or
the selection of the application. -/
theorem button_press_popup (view : GtkTreeView) (event : GdkEventButton)
    (app : InspectorApp) :
    ((button_press_cb view event app).1 = true ↔
      event.window = view.gtk_tree_view_get_bin_window ∧
      ∃ path row widget,
        view.gtk_tree_view_get_path_at_pos event.x event.y = (true, some path) ∧
        row_at app.inspector.model path = some row ∧ row.widget = some widget ∧
        event.button = 3) ∧
    (∀ path row widget, event.window = view.gtk_tree_view_get_bin_window →
      view.gtk_tree_view_get_path_at_pos event.x event.y = (true, some path) →
      row_at app.inspector.model path = some row → row.widget = some widget →
      event.button = 3 →
      button_press_cb view event app = (true, { app with popups := app.popups ++ [widget] })) ∧
    ((button_press_cb view event app).1 = false → (button_press_cb view event app).2 = app) ∧
    (button_press_cb view event app).2.inspector = app.inspector ∧
    (button_press_cb view event app).2.app_selection = app.app_selection := by
  have hpos : ∀ path row widget, event.window = view.gtk_tree_view_get_bin_window →
      view.gtk_tree_view_get_path_at_pos event.x event.y = (true, some path) →
      row_at app.inspector.model path = some row → row.widget = some widget →
      event.button = 3 →
      button_press_cb view event app =
        (true, { app with popups := app.popups ++ [widget] }) := by
    intro path row widget h1 h2 h3 h4 h5
    simp [button_press_cb, h1, h2, h3, h4, h5, glade_popup_widget_pop]
  have hneg : (¬ (event.window = view.gtk_tree_view_get_bin_window ∧
      ∃ path row widget,
        view.gtk_tree_view_get_path_at_pos event.x event.y = (true, some path) ∧
        row_at app.inspector.model path = some row ∧ row.widget = some widget ∧
        event.button = 3)) → button_press_cb view event app = (false, app) := by
    intro hn
    rw [button_press_cb]
    by_cases c : event.window = view.gtk_tree_view_get_bin_window ∧
        (view.gtk_tree_view_get_path_at_pos event.x event.y).1 = true
    · rw [if_pos c]
      cases hpath : (view.gtk_tree_view_get_path_at_pos event.x event.y).2 with
      | none => rfl
      | some path =>
        simp only
        cases hrow : row_at app.inspector.model path with
        | none => rfl
        | some row =>
          simp only
          cases hw : row.widget with
          | none => rfl
          | some widget =>
            simp only
            by_cases hb : event.button = 3
            · exfalso
              apply hn
              exact ⟨c.1, path, row, widget, Prod.ext c.2 hpath, hrow, hw, hb⟩
            · rw [if_neg hb]
    · rw [if_neg c]
  by_cases hc : event.window = view.gtk_tree_view_get_bin_window ∧
      ∃ path row widget,
        view.gtk_tree_view_get_path_at_pos event.x event.y = (true, some path) ∧
        row_at app.inspector.model path = some row ∧ row.widget = some widget ∧
        event.button = 3
  · obtain ⟨h1, path, row, widget, h2, h3, h4, h5⟩ := hc
    have e := hpos path row widget h1 h2 h3 h4 h5
    refine ⟨?_, hpos, ?_, ?_, ?_⟩
    · rw [e]
      simp only [true_iff]
      exact ⟨h1, path, row, widget, h2, h3, h4, h5⟩
    · rw [e]
      intro h
      exact absurd h (by simp)
    · rw [e]
    · rw [e]
  · have e := hneg hc
    refine ⟨?_, hpos, ?_, ?_, ?_⟩
    · rw [e]
      simp only [Bool.false_eq_true, false_iff]
      exact hc
    · rw [e]
      intro _
      rfl
    · rw [e]
    · rw [e]

/-- C17 on the concrete project: a press of button 3 on the row of the window
opens the context menu for the window. -/
theorem button_press_popup_witness :
    button_press_cb window_view right_click window_app =
      (true, { window_app with popups := window_app.popups ++ [11] }) :=
  (button_press_popup window_view right_click window_app).2.1 [1]
    (subtree window_core 2 11) 11 rfl rfl rfl rfl rfl

/-! ## Claims on the emissions of "toggled" -/

/-- The emissions of "toggled" after an item was made current. -/
theorem toggled_item_selected (s : GladePalette) (mask : Nat) (b : ItemRef)
    (log : List PaletteSignal) :
    toggled_emissions (item_selected s mask b log) =
      toggled_emissions s + log.count PaletteSignal.toggled := by
  simp [toggled_emissions, item_selected, List.count_append]

/-- The emissions of "toggled" after the current item was deselected. -/
theorem toggled_item_deselected (s : GladePalette) (log : List PaletteSignal) :
    toggled_emissions (item_deselected s log) =
      toggled_emissions s + log.count PaletteSignal.toggled := by
  simp [toggled_emissions, item_deselected, List.count_append]

/-! ## Claims on the properties of the palette class -/

/-! ## Claims on the order of the rows and on the search -/

/-- C23: after `update_model` on an inspector bound to a project whose widgets form
a finite forest, the top-level rows of the view hold the toplevel widgets of the
project in the reverse of their order in the object list, and below every row
the child rows hold the widgets the child accessor of the adaptor returns for the
widget of the row, in the order of the accessor. -/
theorem toplevel_rows_reversed (core : GladeCore) (project : ProjectRef)
    (height : WidgetRef → Nat) (inspector : GladeInspector) (n : Nat)
    (hf : ProjectForest core project height)
    (hn : ∀ w ∈ toplevel_widgets core project, height w ≤ n)
    (hp : inspector.project = some project) :
    ∃ s, update_model core (n + 2) inspector = some s ∧
      s.model.map Row.widget = (toplevel_widgets core project).reverse.map some ∧
      (∀ r ∈ Row.rows_of_list s.model, ∃ x, r.widget = some x ∧
        r.children.map Row.widget = (child_widgets core x).map some) := by
  refine ⟨_, update_model_eq core project height inspector n hf hn hp, ?_, ?_⟩
  · simp only [List.map_map, List.map_inj_left, Function.comp_apply]
    intro w _
    exact subtree_widget core n w
  · intro r hr
    simp only [rows_of_list_eq] at hr
    obtain ⟨t, ht, hr⟩ := List.mem_flatMap.mp hr
    obtain ⟨w, hw, rfl⟩ := List.mem_map.mp ht
    exact subtree_rows_local core height hf.height_child n w
      (hn w (List.mem_reverse.mp hw)) r hr

/-- C23 on the concrete project, whose object list has the window before the
dialog: the row of the dialog comes first, and the rows below the box are the
button and the label in the order of the accessor. -/
theorem toplevel_rows_reversed_witness :
    toplevel_widgets window_core 0 = [11, 15] ∧
    child_widgets window_core 12 = [13, 14] ∧
    ∃ s, update_model window_core 4 { stale_inspector with project := some 0 } = some s ∧
      s.model.map Row.widget = ([11, 15] : List WidgetRef).reverse.map some ∧
      (∀ r ∈ Row.rows_of_list s.model, ∃ x, r.widget = some x ∧
        r.children.map Row.widget = (child_widgets window_core x).map some) :=
  ⟨by decide, by decide,
   toplevel_rows_reversed window_core 0 window_height { stale_inspector with project := some 0 }
    2 window_core_forest (by decide) rfl⟩

/-- C24: for every model, every iterator and every key,
`glade_inspector_search_func` returns `FALSE` exactly when the iterator points to
a row that holds a widget whose name is not `NULL` and begins with the key; it
returns `TRUE` for a row without widget, for a widget whose name is `NULL` and for
a name that does not begin with the key; with the empty key it returns `FALSE` for
every row that holds a widget with a name. -/
theorem search_matches_key (core : GladeCore) (model : List Row) (key : String)
    (iter : GtkTreeIter) :
    (glade_inspector_search_func core model key iter = false ↔
      ∃ row w name, row_at model iter.path = some row ∧ row.widget = some w ∧
        core.glade_widget_get_name w = some name ∧ key.data <+: name.data) ∧
    (∀ row, row_at model iter.path = some row → row.widget = none →
      glade_inspector_search_func core model key iter = true) ∧
    (∀ row w, row_at model iter.path = some row → row.widget = some w →
      core.glade_widget_get_name w = none →
      glade_inspector_search_func core model key iter = true) ∧
    (∀ row w name, row_at model iter.path = some row → row.widget = some w →
      core.glade_widget_get_name w = some name → ¬ key.data <+: name.data →
      glade_inspector_search_func core model key iter = true) ∧
    (∀ row w name, row_at model iter.path = some row → row.widget = some w →
      core.glade_widget_get_name w = some name →
      glade_inspector_search_func core model "" iter = false) := by
  have hnamed : ∀ (k : String) row w name, row_at model iter.path = some row →
      row.widget = some w → core.glade_widget_get_name w = some name →
      glade_inspector_search_func core model k iter = !decide (k.data <+: name.data) := by
    intro k row w name h1 h2 h3
    simp only [glade_inspector_search_func, h1, h2, h3, g_str_has_prefix, Option.some_bind]
    congr 1
    rw [Bool.eq_iff_iff, List.isPrefixOf_iff_prefix, decide_eq_true_iff]
  refine ⟨?_, ?_, ?_, ?_, ?_⟩
  · constructor
    · intro h
      cases h1 : row_at model iter.path with
      | none => simp [glade_inspector_search_func, h1] at h
      | some row =>
        cases h2 : row.widget with
        | none => simp [glade_inspector_search_func, h1, h2] at h
        | some w =>
          cases h3 : core.glade_widget_get_name w with
          | none => simp [glade_inspector_search_func, h1, h2, h3] at h
          | some name =>
            rw [hnamed key row w name h1 h2 h3] at h
            exact ⟨row, w, name, rfl, h2, h3, by simpa using h⟩
    · rintro ⟨row, w, name, h1, h2, h3, h4⟩
      rw [hnamed key row w name h1 h2 h3]
      simpa using h4
  · intro row h1 h2
    simp [glade_inspector_search_func, h1, h2]
  · intro row w h1 h2 h3
    simp [glade_inspector_search_func, h1, h2, h3]
  · intro row w name h1 h2 h3 h4
    rw [hnamed key row w name h1 h2 h3]
    simpa using h4
  · intro row w name h1 h2 h3
    rw [hnamed "" row w name h1 h2 h3]
    simp

/-- C24 on the rows of the concrete project: the key "bu" matches the row of
"button1" and not the row of "label1". -/
theorem search_matches_key_witness :
    glade_inspector_search_func window_core window_app.inspector.model "bu"
      { parent := [1, 0], index := 0 } = false ∧
    glade_inspector_search_func window_core window_app.inspector.model "bu"
      { parent := [1, 0], index := 1 } = true :=
  ⟨(search_matches_key window_core window_app.inspector.model "bu"
      { parent := [1, 0], index := 0 }).1.mpr
      ⟨Row.mk (some 13) [], 13, "button1", rfl, rfl, rfl, by decide⟩,
   (search_matches_key window_core window_app.inspector.model "bu"
      { parent := [1, 0], index := 1 }).2.2.2.1 (Row.mk (some 14) []) 14 "label1" rfl rfl rfl
      (by decide)⟩

/-! ## The invariant under the setters -/

/-- Restyling the items of the palette keeps the exclusivity invariant. -/
theorem inv_restyled {s : GladePalette} (h : PaletteInv s) (a : GladeItemAppearance)
    (b : Bool) (a2 : GladeItemAppearance) (b2 tips : Bool) (log : List PaletteSignal) :
    PaletteInv
      { s with
        item_appearance := a
        use_small_item_icons := b
        items := fun r =>
          if r ∈ palette_items s then restyle a2 b2 tips (s.items r) else s.items r
        emitted := s.emitted ++ log } := by
  obtain ⟨h1, h2, h3, h4⟩ := h
  refine ⟨?_, h2, h3, ?_⟩
  · intro i hi
    have hi2 : i ∈ palette_items s := hi
    simp only [hi2, if_true, restyle]
    exact h1 i hi2
  · intro i hi
    have hi2 : i ∈ palette_items s := hi
    simp only [hi2, if_true, restyle]
    exact h4 i hi2

/-- The setter `glade_palette_set_item_appearance` keeps the invariant. -/
theorem inv_set_item_appearance {s : GladePalette} (h : PaletteInv s)
    (a : GladeItemAppearance) :
    PaletteInv (glade_palette_set_item_appearance .palette_instance a s) := by
  by_cases hc : s.item_appearance = a
  · subst hc
    rw [set_item_appearance_same]
    exact h
  · rw [set_item_appearance_eq a s hc]
    exact inv_restyled h a s.use_small_item_icons a s.use_small_item_icons _ _

/-- The setter `glade_palette_set_use_small_item_icons` keeps the invariant. -/
theorem inv_set_use_small_item_icons {s : GladePalette} (h : PaletteInv s) (b : Bool) :
    PaletteInv (glade_palette_set_use_small_item_icons .palette_instance b s) := by
  by_cases hc : s.use_small_item_icons = b
  · subst hc
    rw [set_use_small_item_icons_same]
    exact h
  · rw [set_use_small_item_icons_eq b s hc]
    exact inv_restyled h s.item_appearance b s.item_appearance b _ _

/-- The setter `glade_palette_set_show_selector_button` keeps the invariant. -/
theorem inv_set_show_selector_button {s : GladePalette} (h : PaletteInv s) (b : Bool) :
    PaletteInv (glade_palette_set_show_selector_button .palette_instance b s) := by
  rw [glade_palette_set_show_selector_button]
  by_cases hc : s.selector_hbox_visible = b
  · simp only [GLADE_IS_PALETTE, Bool.not_true, Bool.false_eq_true, if_false, hc, ne_eq,
      not_true_eq_false]
    exact h
  · simp only [GLADE_IS_PALETTE, Bool.not_true, Bool.false_eq_true, if_false, hc, ne_eq,
      not_false_eq_true, if_true]
    exact h

/-- The invariant holds in every state of a palette, whatever operations drove
it. -/
theorem inv_of_operated {s : GladePalette} (h : PaletteOperated s) : PaletteInv s := by
  induction h with
  | init mem catalogs => exact inv_of_fresh (fresh_set_catalogs mem catalogs)
  | toggle_item fuel mask button _ hb ht ih => exact inv_toggle_item ih hb ht
  | toggle_selector fuel mask _ ht ih => exact inv_toggle_selector ih ht
  | deselect fuel mask sticky_aware _ ht ih => exact inv_deselect ih ht
  | set_item_appearance a _ ih => exact inv_set_item_appearance ih a
  | set_use_small_item_icons b _ ih => exact inv_set_use_small_item_icons ih b
  | set_show_selector_button b _ ih => exact inv_set_show_selector_button ih b

/-- A reachable state is a state of a palette driven by its operations. -/
theorem operated_of_reachable {s : GladePalette} (h : PaletteReachable s) :
    PaletteOperated s := by
  induction h with
  | init mem catalogs => exact PaletteOperated.init mem catalogs
  | toggle_item fuel mask button _ hb ht ih =>
    exact PaletteOperated.toggle_item fuel mask button ih hb ht
  | toggle_selector fuel mask _ ht ih => exact PaletteOperated.toggle_selector fuel mask ih ht
  | deselect fuel mask sticky_aware _ ht ih =>
    exact PaletteOperated.deselect fuel mask sticky_aware ih ht

/-- A state reached from a given pointer mode is a state of a palette driven by
its operations. -/
theorem operated_of_reachable_from {mode : GladePointerMode} {s : GladePalette}
    (h : PaletteReachableFrom mode s) : PaletteOperated s := by
  induction h with
  | init mem catalogs _ => exact PaletteOperated.init mem catalogs
  | toggle_item fuel mask button _ hb ht ih =>
    exact PaletteOperated.toggle_item fuel mask button ih hb ht
  | toggle_selector fuel mask _ ht ih => exact PaletteOperated.toggle_selector fuel mask ih ht
  | deselect fuel mask sticky_aware _ ht ih =>
    exact PaletteOperated.deselect fuel mask sticky_aware ih ht
  | set_item_appearance a _ ih => exact PaletteOperated.set_item_appearance a ih
  | set_use_small_item_icons b _ ih => exact PaletteOperated.set_use_small_item_icons b ih
  | set_show_selector_button b _ ih => exact PaletteOperated.set_show_selector_button b ih

/-- Every state of a palette driven by its operations is reached from the pointer
mode the application had when the palette was built. -/
theorem reachable_from_of_operated {s : GladePalette} (h : PaletteOperated s) :
    ∃ mode, PaletteReachableFrom mode s := by
  induction h with
  | init mem catalogs => exact ⟨mem.pointer_mode, PaletteReachableFrom.init mem catalogs rfl⟩
  | toggle_item fuel mask button _ hb ht ih =>
    obtain ⟨m, hm⟩ := ih
    exact ⟨m, PaletteReachableFrom.toggle_item fuel mask button hm hb ht⟩
  | toggle_selector fuel mask _ ht ih =>
    obtain ⟨m, hm⟩ := ih
    exact ⟨m, PaletteReachableFrom.toggle_selector fuel mask hm ht⟩
  | deselect fuel mask sticky_aware _ ht ih =>
    obtain ⟨m, hm⟩ := ih
    exact ⟨m, PaletteReachableFrom.deselect fuel mask sticky_aware hm ht⟩
  | set_item_appearance a _ ih =>
    obtain ⟨m, hm⟩ := ih
    exact ⟨m, PaletteReachableFrom.set_item_appearance a hm⟩
  | set_use_small_item_icons b _ ih =>
    obtain ⟨m, hm⟩ := ih
    exact ⟨m, PaletteReachableFrom.set_use_small_item_icons b hm⟩
  | set_show_selector_button b _ ih =>
    obtain ⟨m, hm⟩ := ih
    exact ⟨m, PaletteReachableFrom.set_show_selector_button b hm⟩

/-- The palette of "Containers" with Box selected, restyled and with the selector
hidden, is a state of a palette driven by its operations; it is not one of the
states reached by clicks and deselections alone, whose appearance is icon-only. -/
theorem box_selected_restyled_operated : PaletteOperated box_selected_restyled :=
  PaletteOperated.set_show_selector_button false
    (PaletteOperated.set_item_appearance .GLADE_ITEM_LABEL_ONLY
      (operated_of_reachable box_selected_reachable))
/-! ## Claims on the toggle protocol in every state of the palette -/

/-- C3: in every state of a palette, whatever clicks, deselections and setter
calls led to it, in which item A is the current item, a click on A ends, for all
fuel from 8 on, in a state with no active item, no current item, the selector
button active, the pointer mode select and the sticky flag off. -/
theorem toggle_current_item_off (s : GladePalette) (A : ItemRef) (fuel mask : Nat)
    (hr : PaletteOperated s) (hA : s.current_item = some A) (hf : 8 ≤ fuel) :
    ∃ t, user_toggle_item fuel mask A s = some t ∧
      (∀ i ∈ palette_items t, (t.items i).active = false) ∧
      glade_palette_get_current_item .palette_instance t = none ∧
      t.selector_button_active = true ∧
      t.pointer_mode = .GLADE_POINTER_SELECT ∧
      t.sticky_selection_mode = false := by
  obtain ⟨n, rfl⟩ := Nat.exists_eq_add_of_le' hf
  have hinv := inv_of_operated hr
  have e := toggle_item_result hinv n mask (hinv.2.1 A hA)
  rw [if_pos hA] at e
  refine ⟨_, e, deselected_all_inactive hinv _, ?_, rfl, rfl, rfl⟩
  simp [glade_palette_get_current_item, item_deselected]

/-- Witness of C3: Box is current in the palette of "Containers", whose appearance
was set to label-only and whose selector was hidden, and is clicked. -/
theorem toggle_current_item_off_witness :
    PaletteOperated box_selected_restyled ∧ box_selected_restyled.current_item = some 0 ∧
    box_selected_restyled.item_appearance = .GLADE_ITEM_LABEL_ONLY ∧
    ∃ t, user_toggle_item 8 0 0 box_selected_restyled = some t ∧
      (∀ i ∈ palette_items t, (t.items i).active = false) ∧
      glade_palette_get_current_item .palette_instance t = none ∧
      t.selector_button_active = true ∧
      t.pointer_mode = .GLADE_POINTER_SELECT ∧
      t.sticky_selection_mode = false :=
  ⟨box_selected_restyled_operated, rfl, rfl,
   toggle_current_item_off box_selected_restyled 0 8 0 box_selected_restyled_operated rfl
     (by decide)⟩

/-- C4: for every palette state and all fuel from 8 on,
`glade_palette_deselect_current_item (palette, sticky_aware)` returns the state it
was given, with no signal emitted, when `sticky_aware` and the sticky flag are
both set, and also when they are not both set and no item is current; when they
are not both set and an item is current, in every state of a palette, whatever
clicks, deselections and setter calls led to it, the call ends with no current
item, every item button inactive, the selector button active and the pointer mode
select. -/
theorem deselect_current_item_effect (s : GladePalette) (sticky_aware : Bool)
    (fuel mask : Nat) (hf : 8 ≤ fuel) :
    (sticky_aware = true ∧ s.sticky_selection_mode = true →
      glade_palette_deselect_current_item fuel mask .palette_instance sticky_aware s
        = some s) ∧
    (PaletteOperated s →
      ¬ (sticky_aware = true ∧ s.sticky_selection_mode = true) → s.current_item ≠ none →
      ∃ t, glade_palette_deselect_current_item fuel mask .palette_instance sticky_aware s
          = some t ∧
        t.current_item = none ∧
        (∀ i ∈ palette_items t, (t.items i).active = false) ∧
        t.selector_button_active = true ∧
        t.pointer_mode = .GLADE_POINTER_SELECT) ∧
    (¬ (sticky_aware = true ∧ s.sticky_selection_mode = true) → s.current_item = none →
      glade_palette_deselect_current_item fuel mask .palette_instance sticky_aware s
        = some s) := by
  obtain ⟨n, rfl⟩ := Nat.exists_eq_add_of_le' hf
  refine ⟨?_, ?_, ?_⟩
  · intro hst
    exact exec_deselect_sticky (n + 7) mask sticky_aware s (by simp [hst.1, hst.2])
  · intro hr hst hc
    have hinv := inv_of_operated hr
    have e := deselect_result hinv n mask sticky_aware
    rw [if_neg (by
      intro h
      rcases h with h | h
      · exact hst (by simpa using h)
      · exact hc h)] at e
    exact ⟨_, e, rfl, deselected_all_inactive hinv _, rfl, rfl⟩
  · intro _ hc
    exact exec_deselect_none (n + 7) mask sticky_aware s hc

/-- Witness of C4: Box is current in sticky mode in the palette of "Containers"; a
sticky-aware deselection changes nothing and one that is not deselects Box, and
on the memory of an instance that was never built the call changes nothing. -/
theorem deselect_current_item_effect_witness :
    PaletteOperated box_sticky_palette ∧
    box_sticky_palette.sticky_selection_mode = true ∧
    box_sticky_palette.current_item = some 0 ∧
    glade_palette_deselect_current_item 8 0 .palette_instance true box_sticky_palette
      = some box_sticky_palette ∧
    (∃ t, glade_palette_deselect_current_item 8 0 .palette_instance false box_sticky_palette
        = some t ∧
      t.current_item = none ∧
      (∀ i ∈ palette_items t, (t.items i).active = false) ∧
      t.selector_button_active = true ∧
      t.pointer_mode = .GLADE_POINTER_SELECT) ∧
    glade_palette_deselect_current_item 8 0 .palette_instance false blank_palette
      = some blank_palette :=
  ⟨operated_of_reachable box_sticky_reachable, by decide, rfl,
   (deselect_current_item_effect box_sticky_palette true 8 0 (by decide)).1 ⟨rfl, by decide⟩,
   (deselect_current_item_effect box_sticky_palette false 8 0 (by decide)).2.1
     (operated_of_reachable box_sticky_reachable) (by decide) (by decide),
   (deselect_current_item_effect blank_palette false 8 0 (by decide)).2.2 (by decide) rfl⟩

/-- C5: in every state of a palette, whatever clicks, deselections and setter
calls led to it, whenever an inactive item of the palette is clicked, with no item
or with another item current and whatever the sticky flag was, the click returns
for all fuel from 8 on and the sticky flag after the handler is set exactly when
the adaptor of the item is not a toplevel class and the Control modifier is held;
for a toplevel class it is off. -/
theorem sticky_after_activation (s : GladePalette) (B : ItemRef) (fuel mask : Nat)
    (hr : PaletteOperated s) (hB : B ∈ palette_items s)
    (hact : (s.items B).active = false) (hf : 8 ≤ fuel) :
    ∃ t, user_toggle_item fuel mask B s = some t ∧
      t.current_item = some B ∧
      t.sticky_selection_mode =
        ((!(s.items B).adaptor.toplevel) && (mask &&& GDK_CONTROL_MASK != 0)) ∧
      ((s.items B).adaptor.toplevel = true → t.sticky_selection_mode = false) := by
  obtain ⟨n, rfl⟩ := Nat.exists_eq_add_of_le' hf
  have hinv := inv_of_operated hr
  have e := toggle_item_result hinv n mask hB
  have hc : ¬ s.current_item = some B := by
    intro hc
    rw [(hinv.1 B hB).mpr hc] at hact
    exact absurd hact (by simp)
  rw [if_neg hc] at e
  by_cases hn : s.current_item = none
  · rw [if_pos hn] at e
    refine ⟨_, e, rfl, rfl, ?_⟩
    intro ht
    simp [item_selected, ht]
  · rw [if_neg hn] at e
    refine ⟨_, e, rfl, rfl, ?_⟩
    intro ht
    simp [item_selected, ht]

/-- Witness of C5: Frame is clicked with Control held while Box is current, in the
palette of "Containers" whose appearance was set to label-only and whose selector
was hidden. -/
theorem sticky_after_activation_witness :
    PaletteOperated box_selected_restyled ∧
    (1 : ItemRef) ∈ palette_items box_selected_restyled ∧
    (box_selected_restyled.items 1).active = false ∧
    ∃ t, user_toggle_item 8 GDK_CONTROL_MASK 1 box_selected_restyled = some t ∧
      t.current_item = some 1 ∧
      t.sticky_selection_mode =
        ((!(box_selected_restyled.items 1).adaptor.toplevel) &&
          (GDK_CONTROL_MASK &&& GDK_CONTROL_MASK != 0)) ∧
      ((box_selected_restyled.items 1).adaptor.toplevel = true →
        t.sticky_selection_mode = false) :=
  ⟨box_selected_restyled_operated, by decide, by decide,
   sticky_after_activation box_selected_restyled 1 8 GDK_CONTROL_MASK
     box_selected_restyled_operated (by decide) (by decide) (by decide)⟩

/-- C21: in every state of a palette, whatever clicks, deselections and setter
calls led to it, with `gtk_toggle_button_set_active` running the handler of a
button only when the state of the button changes, and for all fuel from 8 on: a
click that activates an item while no item is current emits "toggled" once; a
click of the user on the current item emits it once; a click that activates an
item B while another item A is current emits it twice;
`glade_palette_deselect_current_item` that deselects the current item emits it
twice, and it emits nothing when it returns because of the sticky flag or because
no item is current. -/
theorem toggled_emission_counts {s : GladePalette} (hr : PaletteOperated s)
    (n mask : Nat) :
    (∀ b ∈ palette_items s, s.current_item = none →
      ∃ t, user_toggle_item (n + 8) mask b s = some t ∧ t.current_item = some b ∧
        toggled_emissions t = toggled_emissions s + 1) ∧
    (∀ a, s.current_item = some a →
      ∃ t, user_toggle_item (n + 8) mask a s = some t ∧ t.current_item = none ∧
        toggled_emissions t = toggled_emissions s + 1) ∧
    (∀ a, s.current_item = some a → ∀ b ∈ palette_items s, b ≠ a →
      ∃ t, user_toggle_item (n + 8) mask b s = some t ∧ t.current_item = some b ∧
        toggled_emissions t = toggled_emissions s + 2) ∧
    (∀ a sticky_aware, s.current_item = some a →
      (sticky_aware && s.sticky_selection_mode) = false →
      ∃ t, glade_palette_deselect_current_item (n + 8) mask .palette_instance sticky_aware s
          = some t ∧ t.current_item = none ∧
        toggled_emissions t = toggled_emissions s + 2) ∧
    (∀ sticky_aware,
      (sticky_aware && s.sticky_selection_mode) = true ∨ s.current_item = none →
      ∃ t, glade_palette_deselect_current_item (n + 8) mask .palette_instance sticky_aware s
          = some t ∧ toggled_emissions t = toggled_emissions s) := by
  have hinv := inv_of_operated hr
  refine ⟨?_, ?_, ?_, ?_, ?_⟩
  · intro b hb hc
    have e := toggle_item_result hinv n mask hb
    rw [if_neg (by simp [hc]), if_pos hc] at e
    exact ⟨_, e, rfl, by rw [toggled_item_selected]; rfl⟩
  · intro a ha
    have e := toggle_item_result hinv n mask (hinv.2.1 a ha)
    rw [if_pos ha] at e
    exact ⟨_, e, rfl, by rw [toggled_item_deselected]; rfl⟩
  · intro a ha b hb hne
    have e := toggle_item_result hinv n mask hb
    rw [if_neg (by rw [ha]; simpa using fun h => hne h.symm), if_neg (by simp [ha])] at e
    exact ⟨_, e, rfl, by rw [toggled_item_selected]; rfl⟩
  · intro a sticky_aware ha hst
    have e := deselect_result hinv n mask sticky_aware
    rw [if_neg (by simp [hst, ha])] at e
    exact ⟨_, e, rfl, by rw [toggled_item_deselected]; rfl⟩
  · intro sticky_aware h
    have e := deselect_result hinv n mask sticky_aware
    rw [if_pos h] at e
    exact ⟨_, e, rfl⟩

/-- C21 on the palette of "Containers" with Box selected, restyled and with the
selector hidden: a click on Box emits "toggled" once, a click on Frame twice, and
deselecting Box twice; on the new palette a click on Box emits it once. -/
theorem toggled_emission_counts_witness :
    (∃ t, user_toggle_item 8 0 0 containers_palette = some t ∧ t.current_item = some 0 ∧
      toggled_emissions t = toggled_emissions containers_palette + 1) ∧
    (∃ t, user_toggle_item 8 0 0 box_selected_restyled = some t ∧ t.current_item = none ∧
      toggled_emissions t = toggled_emissions box_selected_restyled + 1) ∧
    (∃ t, user_toggle_item 8 0 1 box_selected_restyled = some t ∧ t.current_item = some 1 ∧
      toggled_emissions t = toggled_emissions box_selected_restyled + 2) ∧
    (∃ t, glade_palette_deselect_current_item 8 0 .palette_instance false
        box_selected_restyled = some t ∧ t.current_item = none ∧
      toggled_emissions t = toggled_emissions box_selected_restyled + 2) :=
  ⟨(toggled_emission_counts (PaletteOperated.init blank_palette [containers_catalog]) 0 0).1
      0 (by decide) rfl,
   (toggled_emission_counts box_selected_restyled_operated 0 0).2.1 0 rfl,
   (toggled_emission_counts box_selected_restyled_operated 0 0).2.2.1 0 rfl 1 (by decide)
     (by decide),
   (toggled_emission_counts box_selected_restyled_operated 0 0).2.2.2.1 0 false rfl rfl⟩

/-! ## The display state of the items under every operation -/

/-- Selecting an item changes no display state. -/
theorem same_styles_selected (s : GladePalette) (mask : Nat) (b : ItemRef)
    (log : List PaletteSignal) : SameStyles s (item_selected s mask b log) := by
  refine ⟨rfl, ?_, rfl, rfl, rfl⟩
  intro i
  simp only [item_selected]
  split_ifs <;> exact ⟨rfl, rfl⟩

/-- Deselecting the current item changes no display state. -/
theorem same_styles_deselected (s : GladePalette) (log : List PaletteSignal) :
    SameStyles s (item_deselected s log) := by
  refine ⟨rfl, ?_, rfl, rfl, rfl⟩
  intro i
  simp only [item_deselected]
  split_ifs <;> exact ⟨rfl, rfl⟩

/-- A state shows what it shows. -/
theorem same_styles_refl (s : GladePalette) : SameStyles s s :=
  ⟨rfl, fun _ => ⟨rfl, rfl⟩, rfl, rfl, rfl⟩

/-- A click on an item changes no display state. -/
theorem same_styles_toggle_item {s t : GladePalette} (h : PaletteInv s) {fuel mask : Nat}
    {b : ItemRef} (hb : b ∈ palette_items s) (ht : user_toggle_item fuel mask b s = some t) :
    SameStyles s t := by
  have h8 := toggle_item_fuel_mono (Nat.le_add_right fuel 8) ht
  rw [toggle_item_result h fuel mask hb] at h8
  injection h8 with h8
  subst h8
  split
  · exact same_styles_deselected s _
  · split
    · exact same_styles_selected s mask b _
    · exact same_styles_selected s mask b _

/-- A click on the selector changes no display state. -/
theorem same_styles_toggle_selector {s t : GladePalette} (h : PaletteInv s) {fuel mask : Nat}
    (ht : user_toggle_selector fuel mask s = some t) : SameStyles s t := by
  have h8 := toggle_selector_fuel_mono (Nat.le_add_right fuel 8) ht
  rw [toggle_selector_result h fuel mask] at h8
  injection h8 with h8
  subst h8
  split
  · exact same_styles_refl s
  · exact same_styles_deselected s _

/-- A call of `glade_palette_deselect_current_item` changes no display state. -/
theorem same_styles_deselect {s t : GladePalette} (h : PaletteInv s) {fuel mask : Nat}
    {sticky_aware : Bool}
    (ht : glade_palette_deselect_current_item fuel mask .palette_instance sticky_aware s
      = some t) : SameStyles s t := by
  have h8 := deselect_fuel_mono (Nat.le_add_right fuel 8) ht
  rw [deselect_result h fuel mask sticky_aware] at h8
  injection h8 with h8
  subst h8
  split
  · exact same_styles_refl s
  · exact same_styles_deselected s _

/-- The setter `glade_palette_set_show_selector_button` changes no display state
of the items, no current item and no pointer mode. -/
theorem set_show_selector_button_keeps (b : Bool) (s : GladePalette) :
    SameStyles s (glade_palette_set_show_selector_button .palette_instance b s) ∧
    (glade_palette_set_show_selector_button .palette_instance b s).current_item =
      s.current_item ∧
    (glade_palette_set_show_selector_button .palette_instance b s).pointer_mode =
      s.pointer_mode := by
  by_cases hc : s.selector_hbox_visible = b
  · have e : glade_palette_set_show_selector_button .palette_instance b s = s := by
      simp [glade_palette_set_show_selector_button, hc]
    rw [e]
    exact ⟨same_styles_refl s, rfl, rfl⟩
  · have e : glade_palette_set_show_selector_button .palette_instance b s =
        { s with selector_hbox_visible := b,
                 emitted := s.emitted ++ [PaletteSignal.notify "show-selector-button"] } := by
      simp [glade_palette_set_show_selector_button, hc, GLADE_IS_PALETTE]
    rw [e]
    exact ⟨⟨rfl, fun _ => ⟨rfl, rfl⟩, rfl, rfl, rfl⟩, rfl, rfl⟩

/-- The setter `glade_palette_set_item_appearance` keeps the items of the palette,
the current item, the pointer mode and the flag of a fresh item. -/
theorem set_item_appearance_keeps (a : GladeItemAppearance) (s : GladePalette) :
    palette_items (glade_palette_set_item_appearance .palette_instance a s) =
      palette_items s ∧
    (glade_palette_set_item_appearance .palette_instance a s).current_item = s.current_item ∧
    (glade_palette_set_item_appearance .palette_instance a s).pointer_mode = s.pointer_mode ∧
    (glade_palette_set_item_appearance .palette_instance a s).new_item_use_small_icon =
      s.new_item_use_small_icon := by
  by_cases hc : s.item_appearance = a
  · subst hc
    rw [set_item_appearance_same]
    exact ⟨rfl, rfl, rfl, rfl⟩
  · rw [set_item_appearance_eq a s hc]
    exact ⟨rfl, rfl, rfl, rfl⟩

/-- The setter `glade_palette_set_use_small_item_icons` keeps the items of the
palette, the current item, the pointer mode and the flag of a fresh item. -/
theorem set_use_small_item_icons_keeps (b : Bool) (s : GladePalette) :
    palette_items (glade_palette_set_use_small_item_icons .palette_instance b s) =
      palette_items s ∧
    (glade_palette_set_use_small_item_icons .palette_instance b s).current_item =
      s.current_item ∧
    (glade_palette_set_use_small_item_icons .palette_instance b s).pointer_mode =
      s.pointer_mode ∧
    (glade_palette_set_use_small_item_icons .palette_instance b s).new_item_use_small_icon =
      s.new_item_use_small_icon := by
  by_cases hc : s.use_small_item_icons = b
  · subst hc
    rw [set_use_small_item_icons_same]
    exact ⟨rfl, rfl, rfl, rfl⟩
  · rw [set_use_small_item_icons_eq b s hc]
    exact ⟨rfl, rfl, rfl, rfl⟩

/-- A state that shows what a state with agreeing items shows has agreeing items. -/
theorem styles_ok_of_same {s t : GladePalette} (h : SameStyles s t) (hs : StylesOk s) :
    StylesOk t := by
  obtain ⟨h1, h2, h3, h4, _⟩ := h
  intro i hi
  rw [h1] at hi
  rw [(h2 i).1, (h2 i).2, h3, h4]
  exact hs i hi

/-- The two appearance setters leave every item with the appearance and the
small-icon flag of the palette. -/
theorem styles_ok_setters {s : GladePalette} (hs : StylesOk s) (a : GladeItemAppearance)
    (b : Bool) :
    StylesOk (glade_palette_set_item_appearance .palette_instance a s) ∧
    StylesOk (glade_palette_set_use_small_item_icons .palette_instance b s) := by
  refine ⟨?_, ?_⟩
  · by_cases hc : s.item_appearance = a
    · subst hc; rw [set_item_appearance_same]; exact hs
    · obtain ⟨e1, e2, e3, _⟩ := set_item_appearance_styles a s hc
      intro i hi
      exact ⟨(e2 i hi).trans e1.symm, e3 i hi⟩
  · by_cases hc : s.use_small_item_icons = b
    · subst hc; rw [set_use_small_item_icons_same]; exact hs
    · obtain ⟨_, e1, e2, e3, _⟩ := set_use_small_item_icons_styles b s hc
      intro i hi
      exact ⟨(e2 i hi).trans e1.symm, e3 i hi⟩

/-- Building the sections leaves the flag of a fresh item as it is. -/
theorem set_catalogs_new_item_flag (mem : GladePalette) (catalogs : List GladeCatalog) :
    (glade_palette_set_catalogs .palette_instance catalogs
      (glade_palette_init mem)).new_item_use_small_icon = mem.new_item_use_small_icon := by
  apply set_catalogs_induction
      (fun t => t.new_item_use_small_icon = mem.new_item_use_small_icon)
  · rfl
  · intro g t ht
    rw [← ht]
    exact (core_fields (append_item_group_spec g t).2.2.2.2).2.2.2.2.2.2.2.1

/-- On a palette as `glade_palette_set_catalogs` builds it on a new instance, every
item has the appearance and the small-icon flag of the palette, when a fresh item
has the flag off. -/
theorem styles_ok_set_catalogs (mem : GladePalette) (catalogs : List GladeCatalog)
    (hd : mem.new_item_use_small_icon = false) :
    StylesOk
      (glade_palette_set_catalogs .palette_instance catalogs (glade_palette_init mem)) := by
  have hf := fresh_set_catalogs mem catalogs
  have hsm : SmallIconOk
      (glade_palette_set_catalogs .palette_instance catalogs (glade_palette_init mem)) := by
    rw [set_catalogs_eq_foldl]
    refine small_icon_ok_created _ _ hd ?_ ?_
    · intro i hi; simp [palette_items, glade_palette_init] at hi
    · intro i hi; simp [palette_items, glade_palette_init] at hi
  intro i hi
  exact ⟨(hf.1 i hi).2.2.2.1, hsm i hi⟩

/-- In every state of a palette, whatever operations drove it, every item has the
appearance and the small-icon flag of the palette, when a fresh item has the flag
off. -/
theorem styles_ok_of_operated {s : GladePalette} (h : PaletteOperated s) :
    s.new_item_use_small_icon = false → StylesOk s := by
  induction h with
  | init mem catalogs =>
    intro hd
    rw [set_catalogs_new_item_flag] at hd
    exact styles_ok_set_catalogs mem catalogs hd
  | toggle_item fuel mask button hs hb ht ih =>
    intro hd
    have hk := same_styles_toggle_item (inv_of_operated hs) hb ht
    exact styles_ok_of_same hk (ih (hk.2.2.2.2.symm.trans hd))
  | toggle_selector fuel mask hs ht ih =>
    intro hd
    have hk := same_styles_toggle_selector (inv_of_operated hs) ht
    exact styles_ok_of_same hk (ih (hk.2.2.2.2.symm.trans hd))
  | deselect fuel mask sticky_aware hs ht ih =>
    intro hd
    have hk := same_styles_deselect (inv_of_operated hs) ht
    exact styles_ok_of_same hk (ih (hk.2.2.2.2.symm.trans hd))
  | set_item_appearance a _ ih =>
    intro hd
    rw [(set_item_appearance_keeps a _).2.2.2] at hd
    exact (styles_ok_setters (ih hd) a false).1
  | set_use_small_item_icons b _ ih =>
    intro hd
    rw [(set_use_small_item_icons_keeps b _).2.2.2] at hd
    exact (styles_ok_setters (ih hd) .GLADE_ITEM_ICON_ONLY b).2
  | @set_show_selector_button s b _ ih =>
    intro hd
    have hk := (set_show_selector_button_keeps b s).1
    exact styles_ok_of_same hk (ih (hk.2.2.2.2.symm.trans hd))

/-- A run of setter calls on a palette is a sequence of operations on it. -/
theorem operated_run (sets : List AppearanceOp) :
    ∀ s : GladePalette, PaletteOperated s → PaletteOperated (appearance_run sets s) := by
  induction sets with
  | nil => intro s h; exact h
  | cons op sets ih =>
    intro s h
    simp only [appearance_run, List.foldl_cons]
    apply ih
    cases op with
    | set_item_appearance a => exact PaletteOperated.set_item_appearance a h
    | set_use_small_item_icons b => exact PaletteOperated.set_use_small_item_icons b h

/-- A run of setter calls leaves the flag of a fresh item as it is. -/
theorem run_new_item_flag (sets : List AppearanceOp) :
    ∀ s : GladePalette,
      (appearance_run sets s).new_item_use_small_icon = s.new_item_use_small_icon := by
  induction sets with
  | nil => intro s; rfl
  | cons op sets ih =>
    intro s
    simp only [appearance_run, List.foldl_cons]
    have e := ih (appearance_step s op)
    simp only [appearance_run] at e
    rw [e]
    cases op with
    | set_item_appearance a => exact (set_item_appearance_keeps a s).2.2.2
    | set_use_small_item_icons b => exact (set_use_small_item_icons_keeps b s).2.2.2

/-! ## Claim on the display state of the items -/

/-- C7: the items of a palette are created by `glade_palette_new_item` while
`glade_palette_set_catalogs` builds the sections of the new instance, and a fresh
item has the small-icon flag off.  After every sequence of calls of
`glade_palette_set_item_appearance` and `glade_palette_set_use_small_item_icons`
on the palette built so, every item has the appearance of the palette and the
small-icon flag of the palette, and `glade_palette_get_item_appearance` and
`glade_palette_get_use_small_item_icons` return the value last set (icon-only and
off when none was set).  The items agree with the palette as well in every state
that clicks, deselections and calls of the three setters lead to. -/
theorem no_stale_appearance (mem : GladePalette) (catalogs : List GladeCatalog)
    (sets : List AppearanceOp) (hd : mem.new_item_use_small_icon = false) :
    (∀ i ∈ palette_items (palette_built mem catalogs sets),
      ((palette_built mem catalogs sets).items i).appearance =
        (palette_built mem catalogs sets).item_appearance ∧
      ((palette_built mem catalogs sets).items i).use_small_icon =
        (palette_built mem catalogs sets).use_small_item_icons) ∧
    glade_palette_get_item_appearance .palette_instance (palette_built mem catalogs sets) =
      last_item_appearance .GLADE_ITEM_ICON_ONLY sets ∧
    glade_palette_get_use_small_item_icons .palette_instance (palette_built mem catalogs sets) =
      last_use_small_item_icons false sets ∧
    (∀ t, PaletteOperated t → t.new_item_use_small_icon = mem.new_item_use_small_icon →
      ∀ i ∈ palette_items t,
        (t.items i).appearance = t.item_appearance ∧
        (t.items i).use_small_icon = t.use_small_item_icons) := by
  have hf := fresh_set_catalogs mem catalogs
  obtain ⟨e1, e2⟩ := item_appearance_run sets
    (glade_palette_set_catalogs .palette_instance catalogs (glade_palette_init mem))
  rw [hf.2.2.2.1] at e1
  rw [hf.2.2.2.2] at e2
  refine ⟨?_, ?_, ?_, ?_⟩
  · refine styles_ok_of_operated
      (operated_run sets _ (PaletteOperated.init mem catalogs)) ?_
    show (appearance_run sets _).new_item_use_small_icon = false
    rw [run_new_item_flag sets _, set_catalogs_new_item_flag]
    exact hd
  · simp only [glade_palette_get_item_appearance, GLADE_IS_PALETTE, Bool.not_true,
      Bool.false_eq_true, if_false, palette_built]
    exact e1
  · simp only [glade_palette_get_use_small_item_icons, GLADE_IS_PALETTE, Bool.not_true,
      Bool.false_eq_true, if_false, palette_built]
    exact e2
  · intro t ht hn
    exact styles_ok_of_operated ht (hn.trans hd)

/-- Witness of C7: on the palette of "Containers" the small icons are switched
on, the appearance is set to label-only and then to icon-and-label; Box and Frame
show icon-and-label with small icons and the getters return these values. -/
theorem no_stale_appearance_witness :
    blank_palette.new_item_use_small_icon = false ∧
    palette_items (palette_built blank_palette [containers_catalog]
      [.set_use_small_item_icons true, .set_item_appearance .GLADE_ITEM_LABEL_ONLY,
       .set_item_appearance .GLADE_ITEM_ICON_AND_LABEL]) = [0, 1] ∧
    (palette_built blank_palette [containers_catalog]
      [.set_use_small_item_icons true, .set_item_appearance .GLADE_ITEM_LABEL_ONLY,
       .set_item_appearance .GLADE_ITEM_ICON_AND_LABEL]).use_small_item_icons = true ∧
    (∀ i ∈ palette_items (palette_built blank_palette [containers_catalog]
        [.set_use_small_item_icons true, .set_item_appearance .GLADE_ITEM_LABEL_ONLY,
         .set_item_appearance .GLADE_ITEM_ICON_AND_LABEL]),
      ((palette_built blank_palette [containers_catalog]
        [.set_use_small_item_icons true, .set_item_appearance .GLADE_ITEM_LABEL_ONLY,
         .set_item_appearance .GLADE_ITEM_ICON_AND_LABEL]).items i).appearance =
        (palette_built blank_palette [containers_catalog]
          [.set_use_small_item_icons true, .set_item_appearance .GLADE_ITEM_LABEL_ONLY,
           .set_item_appearance .GLADE_ITEM_ICON_AND_LABEL]).item_appearance ∧
      ((palette_built blank_palette [containers_catalog]
        [.set_use_small_item_icons true, .set_item_appearance .GLADE_ITEM_LABEL_ONLY,
         .set_item_appearance .GLADE_ITEM_ICON_AND_LABEL]).items i).use_small_icon =
        (palette_built blank_palette [containers_catalog]
          [.set_use_small_item_icons true, .set_item_appearance .GLADE_ITEM_LABEL_ONLY,
           .set_item_appearance .GLADE_ITEM_ICON_AND_LABEL]).use_small_item_icons) ∧
    glade_palette_get_item_appearance .palette_instance
      (palette_built blank_palette [containers_catalog]
        [.set_use_small_item_icons true, .set_item_appearance .GLADE_ITEM_LABEL_ONLY,
         .set_item_appearance .GLADE_ITEM_ICON_AND_LABEL]) = .GLADE_ITEM_ICON_AND_LABEL :=
  ⟨rfl, by decide, by decide,
   (no_stale_appearance blank_palette [containers_catalog]
      [.set_use_small_item_icons true, .set_item_appearance .GLADE_ITEM_LABEL_ONLY,
       .set_item_appearance .GLADE_ITEM_ICON_AND_LABEL] rfl).1,
   by decide⟩

/-! ## Claim on the selector button and the pointer mode -/

/-- In every state of a palette an item is current only in pointer mode "add
widget"; when the palette was built in pointer mode "select", the pointer mode is
"add widget" only when an item is current. -/
theorem pointer_mode_of_reachable_from {mode : GladePointerMode} {s : GladePalette}
    (h : PaletteReachableFrom mode s) :
    (s.current_item ≠ none → s.pointer_mode = .GLADE_POINTER_ADD_WIDGET) ∧
    (mode = .GLADE_POINTER_SELECT → s.pointer_mode = .GLADE_POINTER_ADD_WIDGET →
      s.current_item ≠ none) := by
  induction h with
  | init mem catalogs hm =>
    rw [set_catalogs_pointer_mode, hm, (fresh_set_catalogs mem catalogs).2.1]
    refine ⟨fun hc => absurd rfl hc, ?_⟩
    intro hsel hadd
    rw [hsel] at hadd
    exact absurd hadd (by decide)
  | @toggle_item s t fuel mask button hs hb ht ih =>
    have hinv := inv_of_operated (operated_of_reachable_from hs)
    have h8 := toggle_item_fuel_mono (Nat.le_add_right fuel 8) ht
    rw [toggle_item_result hinv fuel mask hb] at h8
    injection h8 with h8
    subst h8
    split
    · simp [item_deselected]
    · split <;> simp [item_selected]
  | @toggle_selector s t fuel mask hs ht ih =>
    have hinv := inv_of_operated (operated_of_reachable_from hs)
    have h8 := toggle_selector_fuel_mono (Nat.le_add_right fuel 8) ht
    rw [toggle_selector_result hinv fuel mask] at h8
    injection h8 with h8
    subst h8
    split
    · exact ih
    · simp [item_deselected]
  | @deselect s t fuel mask sticky_aware hs ht ih =>
    have hinv := inv_of_operated (operated_of_reachable_from hs)
    have h8 := deselect_fuel_mono (Nat.le_add_right fuel 8) ht
    rw [deselect_result hinv fuel mask sticky_aware] at h8
    injection h8 with h8
    subst h8
    split
    · exact ih
    · simp [item_deselected]
  | @set_item_appearance s a _ ih =>
    obtain ⟨_, k1, k2, _⟩ := set_item_appearance_keeps a s
    rw [k1, k2]
    exact ih
  | @set_use_small_item_icons s b _ ih =>
    obtain ⟨_, k1, k2, _⟩ := set_use_small_item_icons_keeps b s
    rw [k1, k2]
    exact ih
  | @set_show_selector_button s b _ ih =>
    obtain ⟨_, k1, k2⟩ := set_show_selector_button_keeps b s
    rw [k1, k2]
    exact ih

/-- The palette of "Containers" with Box selected, restyled and with the selector
hidden, is reached by a palette built in pointer mode "select". -/
theorem box_selected_restyled_reachable_from :
    PaletteReachableFrom .GLADE_POINTER_SELECT box_selected_restyled :=
  PaletteReachableFrom.set_show_selector_button false
    (PaletteReachableFrom.set_item_appearance .GLADE_ITEM_LABEL_ONLY
      (PaletteReachableFrom.toggle_item 8 0 0
        (PaletteReachableFrom.init blank_palette [containers_catalog] rfl)
        (by decide) (exec_activate 0 0 0 containers_palette rfl rfl rfl rfl)))

/-- C19, as the code has it: `glade_palette_init` does not write the pointer mode
of the application, so the palette starts in the mode the application has when it
is built.  In every state of a palette built in pointer mode `mode`, whatever
clicks, deselections and setter calls led to it, the selector button is active
exactly when there is no current item, and the pointer mode is "add widget"
whenever there is a current item; when the palette was built in pointer mode
"select", the pointer mode is "add widget" exactly when there is a current item.
A click of the user on the selector returns, for all fuel from 8 on, and leaves no
current item and the selector active: an item that was current is no longer
active and the pointer mode is "select", and when no item was current the state
is the one before the click. -/
theorem selector_invariant {mode : GladePointerMode} {s : GladePalette}
    (h : PaletteReachableFrom mode s) :
    (s.selector_button_active = true ↔ s.current_item = none) ∧
    (s.current_item ≠ none → s.pointer_mode = .GLADE_POINTER_ADD_WIDGET) ∧
    (mode = .GLADE_POINTER_SELECT →
      (s.pointer_mode = .GLADE_POINTER_ADD_WIDGET ↔ s.current_item ≠ none)) ∧
    (∀ n mask, ∃ t, user_toggle_selector (n + 8) mask s = some t ∧
      t.current_item = none ∧ t.selector_button_active = true ∧
      (∀ a, s.current_item = some a →
        (t.items a).active = false ∧ t.pointer_mode = .GLADE_POINTER_SELECT) ∧
      (s.current_item = none → t = s)) := by
  have hinv := inv_of_operated (operated_of_reachable_from h)
  have hpm := pointer_mode_of_reachable_from h
  refine ⟨hinv.2.2.1, hpm.1, fun hm => ⟨hpm.2 hm, hpm.1⟩, ?_⟩
  intro n mask
  rw [toggle_selector_result hinv n mask]
  cases hc : s.current_item with
  | none =>
    refine ⟨s, by simp, hc, hinv.2.2.1.mpr hc, ?_, fun _ => rfl⟩
    intro a ha
    exact absurd ha (by simp)
  | some cur =>
    refine ⟨item_deselected s [.notify "current-item", .toggled, .notify "current-item",
      .toggled], by simp, rfl, rfl, ?_, ?_⟩
    · intro a ha
      refine ⟨?_, rfl⟩
      simp [item_deselected, hc, ha]
    · intro hn
      exact absurd hn (by simp)

/-- C19 on the palette of "Containers" with Box selected, restyled and with the
selector hidden, built in pointer mode "select": the selector is not active, the
pointer mode is "add widget", and a click on the selector deselects Box. -/
theorem selector_invariant_witness :
    PaletteReachableFrom .GLADE_POINTER_SELECT box_selected_restyled ∧
    box_selected_restyled.current_item = some 0 ∧
    (box_selected_restyled.selector_button_active = true ↔
      box_selected_restyled.current_item = none) ∧
    (box_selected_restyled.current_item ≠ none →
      box_selected_restyled.pointer_mode = .GLADE_POINTER_ADD_WIDGET) ∧
    (box_selected_restyled.pointer_mode = .GLADE_POINTER_ADD_WIDGET ↔
      box_selected_restyled.current_item ≠ none) ∧
    (∀ n mask, ∃ t, user_toggle_selector (n + 8) mask box_selected_restyled = some t ∧
      t.current_item = none ∧ t.selector_button_active = true ∧
      (∀ a, box_selected_restyled.current_item = some a →
        (t.items a).active = false ∧ t.pointer_mode = .GLADE_POINTER_SELECT) ∧
      (box_selected_restyled.current_item = none → t = box_selected_restyled)) :=
  ⟨box_selected_restyled_reachable_from, rfl,
   (selector_invariant box_selected_restyled_reachable_from).1,
   (selector_invariant box_selected_restyled_reachable_from).2.1,
   (selector_invariant box_selected_restyled_reachable_from).2.2.1 rfl,
   (selector_invariant box_selected_restyled_reachable_from).2.2.2⟩

/-- Counterexample to C19 as stated: the palette of "Containers" built while the
pointer mode of the application is "add widget" is a reachable state with no
current item and the selector active, and its pointer mode is "add widget"; a
click on the selector leaves it so. -/
theorem selector_invariant_counterexample :
    PaletteReachable containers_palette_add_widget ∧
    containers_palette_add_widget.current_item = none ∧
    containers_palette_add_widget.selector_button_active = true ∧
    containers_palette_add_widget.pointer_mode = .GLADE_POINTER_ADD_WIDGET ∧
    user_toggle_selector 8 0 containers_palette_add_widget =
      some containers_palette_add_widget ∧
    ¬ (containers_palette_add_widget.pointer_mode = .GLADE_POINTER_ADD_WIDGET ↔
        containers_palette_add_widget.current_item ≠ none) :=
  ⟨PaletteReachable.init blank_palette_add_widget [containers_catalog], rfl, rfl, rfl,
   exec_selector_stays 0 0 containers_palette_add_widget rfl rfl,
   fun h => h.mp rfl rfl⟩

/-! ## Claim on the registration of the properties -/

/-- C22: the code at the failing input.  `glade_palette_class_init` installs
"item-appearance", "use-small-item-icons" and "show-selector-button" all under
`PROP_ITEM_APPEARANCE`, although `glade_palette_set_property` and
`glade_palette_get_property` have cases for `PROP_USE_SMALL_ITEM_ICONS` and
`PROP_SHOW_SELECTOR_BUTTON`.  On the palette of "Containers", setting
"use-small-item-icons" to `TRUE` runs `glade_palette_set_item_appearance` with the
first enumerator: the small-icon flag stays off and the item appearance changes,
where `glade_palette_set_use_small_item_icons` sets the flag; setting
"show-selector-button" to `FALSE` leaves the selector shown, where
`glade_palette_set_show_selector_button` hides it; and reading
"show-selector-button" does not give what `glade_palette_get_show_selector_button`
returns. -/
theorem property_dispatch_slip :
    glade_palette_class_init.map (fun p => (p.name, p.param_id)) =
      [("item-appearance", PaletteProp.PROP_ITEM_APPEARANCE),
       ("use-small-item-icons", PaletteProp.PROP_ITEM_APPEARANCE),
       ("show-selector-button", PaletteProp.PROP_ITEM_APPEARANCE),
       ("current-item", PaletteProp.PROP_CURRENT_ITEM),
       ("catalogs", PaletteProp.PROP_CATALOGS)] ∧
    (containers_palette.use_small_item_icons = false ∧
      containers_palette.item_appearance = .GLADE_ITEM_ICON_ONLY ∧
      glade_palette_get_show_selector_button .palette_instance containers_palette = true) ∧
    ((g_object_set_property "use-small-item-icons" (.boolean true)
        containers_palette).use_small_item_icons = false ∧
      (g_object_set_property "use-small-item-icons" (.boolean true)
        containers_palette).item_appearance = .GLADE_ITEM_ICON_AND_LABEL ∧
      (glade_palette_set_use_small_item_icons .palette_instance true
        containers_palette).use_small_item_icons = true ∧
      (glade_palette_set_property .PROP_USE_SMALL_ITEM_ICONS (.boolean true)
        containers_palette).use_small_item_icons = true) ∧
    (glade_palette_get_show_selector_button .palette_instance
        (g_object_set_property "show-selector-button" (.boolean false) containers_palette) =
        true ∧
      (g_object_set_property "show-selector-button" (.boolean false)
        containers_palette).item_appearance = .GLADE_ITEM_ICON_AND_LABEL ∧
      glade_palette_get_show_selector_button .palette_instance
        (glade_palette_set_show_selector_button .palette_instance false containers_palette) =
        false) ∧
    g_object_get_property "show-selector-button" containers_palette ≠
      some (.boolean
        (glade_palette_get_show_selector_button .palette_instance containers_palette)) := by
  refine ⟨rfl, ⟨rfl, rfl, rfl⟩, ⟨rfl, rfl, rfl, rfl⟩, ⟨rfl, rfl, rfl⟩, ?_⟩
  decide

end Glade
